import Mathlib

/-!
# Replicated Segment Engine (RAMCloud)

A shallow embedding of `ReplicatedSegment.cc` (the per-segment replication state
machine), of `ClusterMetrics::difference` and of the error bounds of `TabletProfiler`,
with the properties stated about them.

Conventions of the embedding:
* `uint32_t` values are natural numbers; arithmetic that can wrap is written with
  `add32`, `sub32`, `inc32`, `dec32` (explicit reduction modulo `2^32`).
* A `ReplicatedSegment*` is an index into the manager's table of segments; a
  destroyed segment leaves the entry `none`.
* A failed `assert` and a dereference of a destroyed segment make the operation
  return `none`.
* What the environment decides (whether an RPC is ready, whether it succeeded,
  which backup the selector returns) is an argument of the operation.
-/

namespace RAMCloud

/-! ## Machine integers -/

/-- Number of values of a `uint32_t`. -/
def UINT32 : Nat := 4294967296

/-- Addition of `uint32_t` values. -/
def add32 (a b : Nat) : Nat := (a + b) % UINT32

/-- Subtraction of `uint32_t` values. -/
def sub32 (a b : Nat) : Nat := (a + (UINT32 - b % UINT32)) % UINT32

/-- The `++` of a `uint32_t`. -/
def inc32 (a : Nat) : Nat := add32 a 1

/-- The `--` of a `uint32_t`. -/
def dec32 (a : Nat) : Nat := sub32 a 1

/-! ## Data model -/

abbrev ServerId := Nat

abbrev SessionRef := Nat

/-- Progress of a segment or replica: `ReplicatedSegment::Progress`. The field
`open` of the source is called `opened` here. -/
structure Progress where
  opened : Bool
  bytes : Nat
  close : Bool
deriving DecidableEq

/-- Modelled from the spec: the default `Progress()` of the header
`ReplicatedSegment.h`, which is not among the sources: nothing opened, no bytes,
not closed. -/
def Progress.zero : Progress := ⟨false, 0, false⟩

/-- Modelled from the spec: `Progress::operator<` of `ReplicatedSegment.h`, which is
not among the sources. The spec orders the tuples "first `open` (false < true),
then `bytes`, then `close`". -/
def Progress.lt (a b : Progress) : Bool :=
  if a.opened = b.opened then
    if a.bytes = b.bytes then (!a.close && b.close)
    else decide (a.bytes < b.bytes)
  else b.opened

/-- Order `≤` of progress tuples: equal or smaller. -/
def Progress.le (a b : Progress) : Bool :=
  decide (a = b) || a.lt b

/-- Flags of a `BackupWriteRpc` used by the segment. -/
inductive Flags where
  | NONE
  | OPEN
  | CLOSE
  | OPENPRIMARY
deriving DecidableEq

/-- An outstanding `BackupWriteRpc`: what was asked of the backup. -/
structure WriteRpc where
  offset : Nat
  length : Nat
  flags : Flags
deriving DecidableEq

/-- An outstanding `BackupFreeRpc`. -/
structure FreeRpc where
  masterId : ServerId
  segmentId : Nat
deriving DecidableEq

/-- State of one replica of a segment: `ReplicatedSegment::Replica`. -/
structure Replica where
  backupId : ServerId
  client : SessionRef
  sent : Progress
  acked : Progress
  writeRpc : Option WriteRpc
  freeRpc : Option FreeRpc
deriving DecidableEq

/-- Modelled from the spec: the constructor `Replica(backupId, session)` of
`ReplicatedSegment.h`, which is not among the sources: nothing sent, nothing
acknowledged, no RPC outstanding. -/
def Replica.construct (backupId : ServerId) (session : SessionRef) : Replica :=
  { backupId := backupId, client := session, sent := Progress.zero,
    acked := Progress.zero, writeRpc := none, freeRpc := none }

/-- Fields of a `ReplicatedSegment`. `followingSegment` is the index of the
following segment in the manager's table, `none` for `NULL`. An entry `none` of
`replicas` is an empty `Tub<Replica>`. -/
structure ReplicatedSegment where
  masterId : ServerId
  segmentId : Nat
  openLen : Nat
  maxBytesPerWriteRpc : Nat
  queued : Progress
  freeQueued : Bool
  followingSegment : Option Nat
  precedingSegmentCloseAcked : Bool
  replicas : List (Option Replica)
deriving DecidableEq

/-- What the engine asks of its collaborators, in the order it asks. -/
inductive Event where
  | selectPrimary (conflicts : List ServerId)
  | selectSecondary (conflicts : List ServerId)
  | writeRpc (segment slot : Nat) (backupId : ServerId) (rpc : WriteRpc)
  | freeRpc (segment slot : Nat) (backupId : ServerId)
  | destroy (segment : Nat)
deriving DecidableEq

/-- State shared by all segments of one `ReplicaManager`: the table of segments
(`none` once destroyed), the queue of the task manager, the counter
`writeRpcsInFlight`, and the calls made to collaborators so far. -/
structure ReplicaManager where
  segments : List (Option ReplicatedSegment)
  tasks : List Nat
  writeRpcsInFlight : Nat
  trace : List Event
deriving DecidableEq

/-- Collaborators of the segments whose code is not among the sources: the
constant `MAX_WRITE_RPCS_IN_FLIGHT`, the backup selector and the tracker's
`getSession` (taken to return a session). -/
structure Collaborators where
  MAX_WRITE_RPCS_IN_FLIGHT : Nat
  selectPrimary : List ServerId → ServerId
  selectSecondary : List ServerId → ServerId
  getSession : ServerId → SessionRef

/-- What the transport reports of an outstanding RPC when the engine looks at it:
not ready, completed, or failed with a `TransportException`. -/
inductive RpcOutcome where
  | notReady
  | success
  | transportFailure
deriving DecidableEq

/-- A manager with no segment. -/
def ReplicaManager.empty : ReplicaManager :=
  { segments := [], tasks := [], writeRpcsInFlight := 0, trace := [] }

/-- Dereference of a `ReplicatedSegment*`. -/
def ReplicaManager.getSegment (e : ReplicaManager) (h : Nat) : Option ReplicatedSegment :=
  (e.segments[h]?).join

/-- Store to the fields of the segment `h`. -/
def ReplicaManager.setSegment (e : ReplicaManager) (h : Nat) (s : ReplicatedSegment) :
    ReplicaManager :=
  { e with segments := e.segments.set h (some s) }

/-- Modelled from the spec: `Task::isScheduled()` (`TaskManager.h` is not among the
sources): whether the task is in the pending set. -/
def ReplicaManager.isScheduled (e : ReplicaManager) (h : Nat) : Bool :=
  decide (h ∈ e.tasks)

/-- Modelled from the spec: `Task::schedule()` (`TaskManager.h` is not among the
sources): "idempotently inserts task into the pending set if not already
present". -/
def ReplicaManager.schedule (e : ReplicaManager) (h : Nat) : ReplicaManager :=
  if h ∈ e.tasks then e else { e with tasks := e.tasks ++ [h] }

/-- Append a call to a collaborator to the trace. -/
def ReplicaManager.emit (e : ReplicaManager) (ev : Event) : ReplicaManager :=
  { e with trace := e.trace ++ [ev] }

/-- Store to the replica slot `i` of the segment `h`. -/
def ReplicaManager.setReplica (e : ReplicaManager) (h i : Nat) (slot : Option Replica) :
    ReplicaManager :=
  match e.getSegment h with
  | none => e
  | some s => e.setSegment h { s with replicas := s.replicas.set i slot }

/-- Modelled from the spec: the smaller of two progress tuples in the order of
`Progress.lt`. -/
def Progress.min (a b : Progress) : Progress :=
  if b.lt a then b else a

/-- Modelled from the spec: `ReplicatedSegment::getAcked()` of `ReplicatedSegment.h`,
which is not among the sources: "the minimum acked progress over all replica
slots", where an absent slot has acknowledged nothing and no slot has
acknowledged more than is queued. -/
def ReplicatedSegment.getAcked (s : ReplicatedSegment) : Progress :=
  s.replicas.foldl
    (fun p slot =>
      match slot with
      | none => p.min Progress.zero
      | some r => p.min r.acked)
    s.queued

/-- Modelled from the spec: `ReplicatedSegment::isSynced()` of `ReplicatedSegment.h`,
which is not among the sources: "all replicas `acked == queued`". -/
def ReplicatedSegment.isSynced (s : ReplicatedSegment) : Bool :=
  s.replicas.all
    (fun slot =>
      match slot with
      | none => false
      | some r => decide (r.acked = s.queued))

/-! ## Operations of the log module -/

/-- The constructor `ReplicatedSegment::ReplicatedSegment`: the new segment takes the
next entry of the table, its fields are initialised as in the initialiser list,
and the body calls `schedule()`. Returns the new state and the new segment. -/
def construct (e : ReplicaManager) (masterId : ServerId) (segmentId openLen numReplicas
    maxBytesPerWriteRpc : Nat) : ReplicaManager × Nat :=
  let h := e.segments.length
  let s : ReplicatedSegment :=
    { masterId := masterId, segmentId := segmentId, openLen := openLen,
      maxBytesPerWriteRpc := maxBytesPerWriteRpc,
      queued := ⟨true, openLen, false⟩, freeQueued := false,
      followingSegment := none, precedingSegmentCloseAcked := true,
      replicas := List.replicate numReplicas none }
  (({ e with segments := e.segments ++ [some s] }).schedule h, h)

/-- `ReplicatedSegment::write(offset)` on the segment `h`. -/
def write (e : ReplicaManager) (h offset : Nat) : Option ReplicaManager :=
  match e.getSegment h with
  | none => none
  | some s =>
    if s.queued.close then none                  -- assert(!queued.close)
    else if offset < s.queued.bytes then none    -- assert(offset >= queued.bytes)
    else
      some ((e.setSegment h { s with queued := { s.queued with bytes := offset } }).schedule h)

/-- `ReplicatedSegment::close(followingSegment)` on the segment `h`. -/
def close (e : ReplicaManager) (h : Nat) (followingSegment : Option Nat) :
    Option ReplicaManager :=
  match e.getSegment h with
  | none => none
  | some s =>
    if s.queued.close then none                  -- assert(!queued.close)
    else
      let e1 := e.setSegment h
        { s with queued := { s.queued with close := true },
                 followingSegment := followingSegment }
      match followingSegment with
      | none => some (e1.schedule h)
      | some f =>
        match e1.getSegment f with
        | none => none
        | some fs =>
          some ((e1.setSegment f { fs with precedingSegmentCloseAcked := false }).schedule h)

/-! ## The state machine -/

/-- The loop of `performWrite` over `replicas` that fills `conflicts` with the
backups of the replicas that exist; `assert(numConflicts < replicas.numElements)`
is checked after each slot. -/
def collectConflicts (numElements : Nat) :
    List (Option Replica) → List ServerId → Option (List ServerId)
  | [], conflicts => some conflicts
  | slot :: rest, conflicts =>
    let conflicts1 :=
      match slot with
      | some r => conflicts ++ [r.backupId]
      | none => conflicts
    if conflicts1.length < numElements then collectConflicts numElements rest conflicts1
    else none

/-- The branch `if (!replica)` of `performWrite`: the replica `i` of segment `h`
(whose fields are `s`) does not exist yet. -/
def openReplica (c : Collaborators) (e : ReplicaManager) (h i : Nat)
    (s : ReplicatedSegment) : Option ReplicaManager :=
  if e.writeRpcsInFlight = c.MAX_WRITE_RPCS_IN_FLIGHT then some (e.schedule h)
  else
    match collectConflicts s.replicas.length s.replicas [] with
    | none => none
    | some conflicts =>
      -- replicaIsPrimary(replica): the slot is replicas[0]
      let primary : Bool := decide (i = 0)
      let backupId :=
        if primary then c.selectPrimary conflicts else c.selectSecondary conflicts
      let flags := if primary then Flags.OPENPRIMARY else Flags.OPEN
      let e1 := e.emit
        (if primary then Event.selectPrimary conflicts else Event.selectSecondary conflicts)
      let session := c.getSession backupId
      let r := Replica.construct backupId session
      let rpc : WriteRpc := { offset := 0, length := s.openLen, flags := flags }
      let e2 := e1.emit (Event.writeRpc h i backupId rpc)
      let e3 := { e2 with writeRpcsInFlight := inc32 e2.writeRpcsInFlight }
      let r1 : Replica :=
        { r with writeRpc := some rpc,
                 sent := { r.sent with opened := true, bytes := s.openLen } }
      some ((e3.setReplica h i (some r1)).schedule h)

/-- The replica `r` after the `try`/`catch` of the branch `if (replica->writeRpc)`: a
completed RPC makes `acked = sent`, a `TransportException` rolls `sent` back to
`acked`. -/
def reaped (r : Replica) (outcome : RpcOutcome) : Replica :=
  match outcome with
  | RpcOutcome.success => { r with acked := r.sent }
  | _ => { r with sent := r.acked }

/-- The statements `followingSegment->precedingSegmentCloseAcked = true;
followingSegment = NULL;` of the segment `h` (whose fields were `s`), run when a
closing write was acknowledged and `followingSegment` is not null. -/
def ackFollowing (e : ReplicaManager) (h : Nat) (s : ReplicatedSegment) :
    Option ReplicaManager :=
  match s.followingSegment with
  | none => some e
  | some f =>
    match e.getSegment f with
    | none => none
    | some fs =>
      let e1 := e.setSegment f { fs with precedingSegmentCloseAcked := true }
      match e1.getSegment h with
      | none => none
      | some s1 => some (e1.setSegment h { s1 with followingSegment := none })

/-- The statements of the branch `if (replica->writeRpc)` after the `try`/`catch`,
for the replica `r1` as the `try`/`catch` left it: destroy the RPC, decrement
`writeRpcsInFlight`, schedule unless synced, and destroy the replica if its
opening was never acknowledged. -/
def finishReap (e : ReplicaManager) (h i : Nat) (s : ReplicatedSegment) (r1 : Replica) :
    ReplicaManager :=
  let e3 := e.setReplica h i (some { r1 with writeRpc := none })
  let e4 := { e3 with writeRpcsInFlight := dec32 e3.writeRpcsInFlight }
  let e5 := if r1.acked ≠ s.queued then e4.schedule h else e4
  if r1.acked.opened = false then e5.setReplica h i none else e5

/-- The branch `if (replica->writeRpc)` of `performWrite`: a write RPC of the
replica `r` (slot `i` of segment `h`, whose fields are `s`) is outstanding. -/
def reapWrite (e : ReplicaManager) (h i : Nat) (s : ReplicatedSegment) (r : Replica)
    (outcome : RpcOutcome) : Option ReplicaManager :=
  match outcome with
  | RpcOutcome.notReady => some (e.schedule h)
  | RpcOutcome.success =>
    let r1 : Replica := { r with acked := r.sent }
    let e1 := e.setReplica h i (some r1)
    match (if r.sent.close then ackFollowing e1 h s else some e1) with
    | none => none
    | some e2 => some (finishReap e2 h i s r1)
  | RpcOutcome.transportFailure =>
    let r1 : Replica := { r with sent := r.acked }
    some (finishReap (e.setReplica h i (some r1)) h i s r1)

/-- Offset, length and flags of the write RPC that `performWrite` builds for the
data of the replica `r` not sent yet: everything up to `queued.bytes`, with
`CLOSE` if the segment is closed, unless that is more than `maxBytesPerWriteRpc`. -/
def nextWriteRpc (s : ReplicatedSegment) (r : Replica) : WriteRpc :=
  let offset := r.sent.bytes
  let length := sub32 s.queued.bytes r.sent.bytes
  let flags := if s.queued.close then Flags.CLOSE else Flags.NONE
  if length > s.maxBytesPerWriteRpc then
    { offset := offset, length := s.maxBytesPerWriteRpc, flags := Flags.NONE }
  else
    { offset := offset, length := length, flags := flags }

/-- The replica `r` once the write RPC `rpc` was constructed for it:
`sent.bytes += length` and `sent.close = (flags == CLOSE)`. -/
def issued (r : Replica) (rpc : WriteRpc) : Replica :=
  { r with writeRpc := some rpc,
           sent := { r.sent with bytes := add32 r.sent.bytes rpc.length,
                                 close := decide (rpc.flags = Flags.CLOSE) } }

/-- The last branch of `performWrite`: the replica `r` (slot `i` of segment `h`,
whose fields are `s`) exists, is not synced and has no write RPC outstanding. -/
def issueWrite (e : ReplicaManager) (h i : Nat) (s : ReplicatedSegment) (r : Replica) :
    Option ReplicaManager :=
  if r.sent.lt s.queued then
    if r.freeRpc.isSome then none                -- assert(!replica->freeRpc)
    else if r.sent.close then none               -- assert(!replica->sent.close)
    else if s.precedingSegmentCloseAcked = false then some (e.schedule h)
    else
      let rpc := nextWriteRpc s r
      -- whether the closing rpc has to wait for the following segment
      let wait : Option Bool :=
        if rpc.flags = Flags.CLOSE then
          match s.followingSegment with
          | none => some false
          | some f =>
            match e.getSegment f with
            | none => none
            | some fs => some (!fs.getAcked.opened)
        else some false
      match wait with
      | none => none
      | some true => some (e.schedule h)
      | some false =>
        some (((e.emit (Event.writeRpc h i r.backupId rpc)).setReplica h i
          (some (issued r rpc))).schedule h)
  else none                                      -- assert(false)

/-- `ReplicatedSegment::performWrite(replica)` for the slot `i` of the segment `h`;
`outcome` is what the transport reports if the step looks at an RPC. -/
def performWrite (c : Collaborators) (e : ReplicaManager) (h i : Nat)
    (outcome : RpcOutcome) : Option ReplicaManager :=
  match e.getSegment h with
  | none => none
  | some s =>
    match s.replicas[i]? with
    | none => none
    | some none => openReplica c e h i s
    | some (some r) =>
      if r.acked = s.queued then some e
      else
        match r.writeRpc with
        | some _ => reapWrite e h i s r outcome
        | none => issueWrite e h i s r

/-- `ReplicatedSegment::performFree(replica)` for the slot `i` of the segment `h`;
`outcome` is what the transport reports if the step looks at an RPC. -/
def performFree (c : Collaborators) (e : ReplicaManager) (h i : Nat)
    (outcome : RpcOutcome) : Option ReplicaManager :=
  match e.getSegment h with
  | none => none
  | some s =>
    match s.replicas[i]? with
    | none => none
    | some none => some e
    | some (some r) =>
      match r.freeRpc with
      | some _ =>
        match outcome with
        | RpcOutcome.notReady => some (e.schedule h)
        | RpcOutcome.success => some (e.setReplica h i none)
        | RpcOutcome.transportFailure =>
          some ((e.setReplica h i (some { r with freeRpc := none })).schedule h)
      | none =>
        match r.writeRpc with
        | some _ =>
          match performWrite c e h i outcome with
          | none => none
          | some e1 => some (e1.schedule h)
        | none =>
          let rpc : FreeRpc := { masterId := s.masterId, segmentId := s.segmentId }
          some (((e.emit (Event.freeRpc h i r.backupId)).setReplica h i
            (some { r with freeRpc := some rpc })).schedule h)

/-- Modelled from the spec: `ReplicaManager::destroyAndFreeReplicatedSegment`, which
is not among the sources ("Removes and deallocates"); the destructor of the
segment, which is, asserts that the segment is not scheduled. -/
def destroyAndFreeReplicatedSegment (e : ReplicaManager) (h : Nat) : Option ReplicaManager :=
  if e.isScheduled h then none                   -- assert(!isScheduled())
  else some (({ e with segments := e.segments.set h none }).emit (Event.destroy h))

/-- The loop `foreach (auto& replica, replicas) performFree(replica)`. -/
def freeLoop (c : Collaborators) (h : Nat) (net : Nat → RpcOutcome) :
    List Nat → ReplicaManager → Option ReplicaManager
  | [], e => some e
  | i :: rest, e =>
    match performFree c e h i (net i) with
    | none => none
    | some e1 => freeLoop c h net rest e1

/-- The loop `foreach (auto& replica, replicas) performWrite(replica)`. -/
def writeLoop (c : Collaborators) (h : Nat) (net : Nat → RpcOutcome) :
    List Nat → ReplicaManager → Option ReplicaManager
  | [], e => some e
  | i :: rest, e =>
    match performWrite c e h i (net i) with
    | none => none
    | some e1 => writeLoop c h net rest e1

/-- `ReplicatedSegment::performTask()` of the segment `h`; `net i` is what the
transport reports of the RPC of replica `i`. -/
def performTask (c : Collaborators) (e : ReplicaManager) (h : Nat)
    (net : Nat → RpcOutcome) : Option ReplicaManager :=
  match e.getSegment h with
  | none => none
  | some s =>
    if s.freeQueued then
      match freeLoop c h net (List.range s.replicas.length) e with
      | none => none
      | some e1 =>
        if e1.isScheduled h = false then destroyAndFreeReplicatedSegment e1 h
        else some e1
    else
      match writeLoop c h net (List.range s.replicas.length) e with
      | none => none
      | some e1 =>
        match e1.getSegment h with
        | none => none
        | some s1 =>
          -- assert(isSynced() || isScheduled())
          if s1.isSynced || e1.isScheduled h then some e1 else none

/-- Run `performTask` on each task of a list, in order. -/
def runTasks (c : Collaborators) (net : Nat → Nat → RpcOutcome) :
    List Nat → ReplicaManager → Option ReplicaManager
  | [], e => some e
  | h :: rest, e =>
    match performTask c e h (net h) with
    | none => none
    | some e1 => runTasks c net rest e1

/-- Modelled from the spec: `TaskManager::proceed()` (`TaskManager.cc` is not among
the sources): "snapshots the pending set, clears it, then invokes `performTask()`
on each snapshotted task". -/
def proceed (c : Collaborators) (e : ReplicaManager) (net : Nat → Nat → RpcOutcome) :
    Option ReplicaManager :=
  runTasks c net e.tasks { e with tasks := [] }

/-- Whether some replica of the segment has a write RPC outstanding. -/
def ReplicatedSegment.writeOutstanding (s : ReplicatedSegment) : Bool :=
  s.replicas.any
    (fun slot =>
      match slot with
      | none => false
      | some r => r.writeRpc.isSome)

/-- The loop `checkAgain` of `ReplicatedSegment::free()`: as long as a replica has
a write RPC outstanding, call `proceed()`. Each element of `nets` is what the
transport reports during one call of `proceed()`; the loop has not returned when
they run out. -/
def freeWait (c : Collaborators) (h : Nat) :
    List (Nat → Nat → RpcOutcome) → ReplicaManager → Option ReplicaManager
  | [], e =>
    match e.getSegment h with
    | none => none
    | some s => if s.writeOutstanding then none else some e
  | net :: rest, e =>
    match e.getSegment h with
    | none => none
    | some s =>
      if s.writeOutstanding then
        match proceed c e net with
        | none => none
        | some e1 => freeWait c h rest e1
      else some e

/-- `ReplicatedSegment::free()` on the segment `h`. -/
def free (c : Collaborators) (e : ReplicaManager) (h : Nat)
    (nets : List (Nat → Nat → RpcOutcome)) : Option ReplicaManager :=
  match e.getSegment h with
  | none => none
  | some s =>
    match freeWait c h nets (e.setSegment h { s with freeQueued := true }) with
    | none => none
    | some e1 => some (e1.schedule h)

/-- `ReplicatedSegment::sync(offset)` on the segment `h`. Each element of `nets` is
what the transport reports during one call of `proceed()`; the loop has not
returned when they run out. -/
def sync (c : Collaborators) (h offset : Nat) :
    List (Nat → Nat → RpcOutcome) → ReplicaManager → Option ReplicaManager
  | [], e =>
    match e.getSegment h with
    | none => none
    | some s => if offset ≤ s.getAcked.bytes then some e else none
  | net :: rest, e =>
    match e.getSegment h with
    | none => none
    | some s =>
      if offset ≤ s.getAcked.bytes then some e
      else
        match proceed c e net with
        | none => none
        | some e1 => sync c h offset rest e1

/-! ## Views of the state used to state the properties -/

/-- Apply `g` to the fields of the segment `h`, if it exists. -/
def ReplicaManager.modify (e : ReplicaManager) (h : Nat)
    (g : ReplicatedSegment → ReplicatedSegment) : ReplicaManager :=
  match e.getSegment h with
  | none => e
  | some s => e.setSegment h (g s)

/-- The replica slot `i` of the segment `h`: `none` when there is no such segment or
slot, `some none` when the slot is empty. -/
def ReplicaManager.slotAt (e : ReplicaManager) (h i : Nat) : Option (Option Replica) :=
  match e.getSegment h with
  | none => none
  | some s => s.replicas[i]?

/-- The backups of the replicas that exist, in slot order. -/
def presentIds (replicas : List (Option Replica)) : List ServerId :=
  replicas.filterMap (fun slot => slot.map (fun r => r.backupId))

/-- The fields of a segment other than `followingSegment` and
`precedingSegmentCloseAcked`. -/
def ReplicatedSegment.core (s : ReplicatedSegment) : ReplicatedSegment :=
  { s with followingSegment := none, precedingSegmentCloseAcked := true }

/-- The table of `e1` is the table of `e` where the slot `i` of the segment `h` holds
`slot`, up to the fields `followingSegment` and `precedingSegmentCloseAcked`. -/
def Frame (h i : Nat) (slot : Option Replica) (e e1 : ReplicaManager) : Prop :=
  ∀ h', (e1.getSegment h').map ReplicatedSegment.core =
    (e.getSegment h').map (fun s0 =>
      if h' = h then { s0.core with replicas := s0.replicas.set i slot } else s0.core)

/-- What one call of `performWrite` or `performFree` can do to a replica slot of a
segment with fields `s`. -/
inductive SlotStep (s : ReplicatedSegment) (outcome : RpcOutcome) :
    Option Replica → Option Replica → Prop where
  | same (slot : Option Replica) : SlotStep s outcome slot slot
  | opened (backupId : ServerId) (session : SessionRef) (flags : Flags) :
      SlotStep s outcome none
        (some { backupId := backupId, client := session,
                sent := ⟨true, s.openLen, false⟩, acked := Progress.zero,
                writeRpc := some { offset := 0, length := s.openLen, flags := flags },
                freeRpc := none })
  | reapedKept (r : Replica) (rpc : WriteRpc) :
      r.writeRpc = some rpc → r.acked ≠ s.queued → outcome ≠ RpcOutcome.notReady →
      (reaped r outcome).acked.opened = true →
      SlotStep s outcome (some r) (some { reaped r outcome with writeRpc := none })
  | reapedReset (r : Replica) (rpc : WriteRpc) :
      r.writeRpc = some rpc → r.acked ≠ s.queued → outcome ≠ RpcOutcome.notReady →
      (reaped r outcome).acked.opened = false →
      SlotStep s outcome (some r) none
  | written (r : Replica) :
      r.writeRpc = none → r.acked ≠ s.queued → r.sent.lt s.queued = true →
      r.freeRpc = none → r.sent.close = false → s.precedingSegmentCloseAcked = true →
      SlotStep s outcome (some r) (some (issued r (nextWriteRpc s r)))
  | freeIssued (r : Replica) :
      r.freeRpc = none → r.writeRpc = none →
      SlotStep s outcome (some r)
        (some { r with freeRpc := some { masterId := s.masterId, segmentId := s.segmentId } })
  | freeFailed (r : Replica) (rpc : FreeRpc) :
      r.freeRpc = some rpc → SlotStep s outcome (some r) (some { r with freeRpc := none })
  | freed (r : Replica) (rpc : FreeRpc) :
      r.freeRpc = some rpc → SlotStep s outcome (some r) none

/-! ## Reachable states and their invariant -/

/-- Invariant of a replica slot of a segment whose queued progress is `q`: an existing
replica has `sent.open` set, `acked ≤ sent ≤ queued`, `sent = acked` when no write RPC
is outstanding, and never both a write RPC and a free RPC outstanding. -/
def SlotInv (q : Progress) (slot : Option Replica) : Prop :=
  match slot with
  | none => True
  | some r =>
    r.sent.opened = true ∧ r.acked.le r.sent = true ∧ r.sent.le q = true ∧
    (r.writeRpc = none → r.sent = r.acked) ∧ (r.writeRpc = none ∨ r.freeRpc = none)

/-- Invariant of a segment: `queued` is open, its bytes fit a `uint32_t` and include the
opening bytes, and every replica slot satisfies `SlotInv`. -/
def SegInv (s : ReplicatedSegment) : Prop :=
  s.queued.opened = true ∧ s.queued.bytes < UINT32 ∧ s.openLen ≤ s.queued.bytes ∧
  ∀ slot ∈ s.replicas, SlotInv s.queued slot

/-- Invariant of the manager: every segment of the table satisfies `SegInv`. -/
def Inv (e : ReplicaManager) : Prop :=
  ∀ h s, e.getSegment h = some s → SegInv s

/-- The atomic steps of the engine: the calls of the log module (`free()` split into
its statements), the calls of `performWrite` and `performFree` made by the task
loop, with any answer of the transport, and the bookkeeping of the task queue and
of the deleter. `performFree` is only called for a segment with `freeQueued` set, as
its precondition says. Arguments of type `uint32_t` are below `2^32`. -/
inductive Step (c : Collaborators) : ReplicaManager → ReplicaManager → Prop where
  | construct (e : ReplicaManager) (masterId : ServerId)
      (segmentId openLen numReplicas maxBytesPerWriteRpc : Nat) :
      openLen < UINT32 →
      Step c e (construct e masterId segmentId openLen numReplicas maxBytesPerWriteRpc).1
  | write (e e1 : ReplicaManager) (h offset : Nat) :
      offset < UINT32 → write e h offset = some e1 → Step c e e1
  | close (e e1 : ReplicaManager) (h : Nat) (f : Option Nat) :
      close e h f = some e1 → Step c e e1
  | freeQueued (e : ReplicaManager) (h : Nat) (s : ReplicatedSegment) :
      e.getSegment h = some s → Step c e (e.setSegment h { s with freeQueued := true })
  | schedule (e : ReplicaManager) (h : Nat) : Step c e (e.schedule h)
  | dequeue (e : ReplicaManager) (keep : Nat → Bool) :
      Step c e { e with tasks := e.tasks.filter keep }
  | performWrite (e e1 : ReplicaManager) (h i : Nat) (outcome : RpcOutcome) :
      performWrite c e h i outcome = some e1 → Step c e e1
  | performFree (e e1 : ReplicaManager) (h i : Nat) (outcome : RpcOutcome)
      (s : ReplicatedSegment) :
      e.getSegment h = some s → s.freeQueued = true →
      performFree c e h i outcome = some e1 → Step c e e1
  | destroy (e e1 : ReplicaManager) (h : Nat) :
      destroyAndFreeReplicatedSegment e h = some e1 → Step c e e1

/-- The states reachable from a manager without segments. -/
inductive Reachable (c : Collaborators) : ReplicaManager → Prop where
  | init : Reachable c ReplicaManager.empty
  | step (e e1 : ReplicaManager) : Reachable c e → Step c e e1 → Reachable c e1

/-! ## Concrete states used to instantiate the theorems -/

/-- Collaborators of the examples: at most four write RPCs in flight; the selectors
return a backup that depends only on the number of conflicts. -/
def demoCollaborators : Collaborators :=
  { MAX_WRITE_RPCS_IN_FLIGHT := 4,
    selectPrimary := fun conflicts => 10 + conflicts.length,
    selectSecondary := fun conflicts => 20 + conflicts.length,
    getSession := fun backupId => backupId }

/-- The fields of a fresh segment with two replicas, `openLen = 100` and at most 256
bytes per write RPC. -/
def demoSegment : ReplicatedSegment :=
  { masterId := 1, segmentId := 10, openLen := 100, maxBytesPerWriteRpc := 256,
    queued := ⟨true, 100, false⟩, freeQueued := false, followingSegment := none,
    precedingSegmentCloseAcked := true, replicas := [none, none] }

/-- A manager right after the construction of `demoSegment`. -/
def demoManager : ReplicaManager :=
  (construct ReplicaManager.empty 1 10 100 2 256).1

/-- A manager with two fresh segments like `demoSegment`. -/
def demoManager2 : ReplicaManager :=
  (construct demoManager 1 11 100 2 256).1

/-- The transport that completes every RPC. -/
def allSucceed : Nat → Nat → RpcOutcome := fun _ _ => RpcOutcome.success

/-- A manager right after the construction of a segment with one replica,
`openLen = 100` and at most 256 bytes per write RPC. -/
def oneReplica : ReplicaManager :=
  (construct ReplicaManager.empty 1 10 100 1 256).1

/-- The state `oneReplica` after the opening write was sent to backup 10. -/
def openSent : ReplicaManager :=
  { segments :=
      [some { masterId := 1, segmentId := 10, openLen := 100, maxBytesPerWriteRpc := 256,
              queued := ⟨true, 100, false⟩, freeQueued := false, followingSegment := none,
              precedingSegmentCloseAcked := true,
              replicas :=
                [some { backupId := 10, client := 10, sent := ⟨true, 100, false⟩,
                        acked := ⟨false, 0, false⟩,
                        writeRpc := some ⟨0, 100, Flags.OPENPRIMARY⟩, freeRpc := none }] }],
    tasks := [0],
    writeRpcsInFlight := 1,
    trace := [Event.selectPrimary [], Event.writeRpc 0 0 10 ⟨0, 100, Flags.OPENPRIMARY⟩] }

/-- The state `openSent` after the backup acknowledged the opening write. -/
def openAcked : ReplicaManager :=
  { segments :=
      [some { masterId := 1, segmentId := 10, openLen := 100, maxBytesPerWriteRpc := 256,
              queued := ⟨true, 100, false⟩, freeQueued := false, followingSegment := none,
              precedingSegmentCloseAcked := true,
              replicas :=
                [some { backupId := 10, client := 10, sent := ⟨true, 100, false⟩,
                        acked := ⟨true, 100, false⟩, writeRpc := none, freeRpc := none }] }],
    tasks := [],
    writeRpcsInFlight := 0,
    trace := [Event.selectPrimary [], Event.writeRpc 0 0 10 ⟨0, 100, Flags.OPENPRIMARY⟩] }

/-- The state `openAcked` after `write(300)` and the sending of the bytes 100 to 300. -/
def dataSent : ReplicaManager :=
  { segments :=
      [some { masterId := 1, segmentId := 10, openLen := 100, maxBytesPerWriteRpc := 256,
              queued := ⟨true, 300, false⟩, freeQueued := false, followingSegment := none,
              precedingSegmentCloseAcked := true,
              replicas :=
                [some { backupId := 10, client := 10, sent := ⟨true, 300, false⟩,
                        acked := ⟨true, 100, false⟩,
                        writeRpc := some ⟨100, 200, Flags.NONE⟩, freeRpc := none }] }],
    tasks := [0],
    writeRpcsInFlight := 0,
    trace := [Event.selectPrimary [], Event.writeRpc 0 0 10 ⟨0, 100, Flags.OPENPRIMARY⟩,
              Event.writeRpc 0 0 10 ⟨100, 200, Flags.NONE⟩] }

/-- The state `dataSent` after the write of the bytes 100 to 300 failed with a
`TransportException`. -/
def dataRolledBack : ReplicaManager :=
  { segments :=
      [some { masterId := 1, segmentId := 10, openLen := 100, maxBytesPerWriteRpc := 256,
              queued := ⟨true, 300, false⟩, freeQueued := false, followingSegment := none,
              precedingSegmentCloseAcked := true,
              replicas :=
                [some { backupId := 10, client := 10, sent := ⟨true, 100, false⟩,
                        acked := ⟨true, 100, false⟩, writeRpc := none, freeRpc := none }] }],
    tasks := [0],
    writeRpcsInFlight := 4294967295,
    trace := [Event.selectPrimary [], Event.writeRpc 0 0 10 ⟨0, 100, Flags.OPENPRIMARY⟩,
              Event.writeRpc 0 0 10 ⟨100, 200, Flags.NONE⟩] }

/-- Call `proceed()` the given number of times, the transport answering `net` each
time. -/
def proceedTimes (c : Collaborators) (net : Nat → Nat → RpcOutcome) :
    Nat → ReplicaManager → Option ReplicaManager
  | 0, e => some e
  | n + 1, e =>
    match proceed c e net with
    | none => none
    | some e1 => proceedTimes c net n e1

/-- The write RPCs of the trace that were sent for the replica `slot` of `segment`. -/
def writeRpcsOf (trace : List Event) (segment slot : Nat) : List WriteRpc :=
  trace.filterMap
    (fun ev =>
      match ev with
      | Event.writeRpc sg sl _ rpc => if sg = segment ∧ sl = slot then some rpc else none
      | _ => none)

/-- Scenario: a segment with two replicas and `openLen = 100` is constructed, written
up to 1000 and closed, with at most 256 bytes per write RPC; then `proceed()` is
called twelve times and every RPC completes. -/
def fragmentedRun : Option ReplicaManager :=
  match write (construct ReplicaManager.empty 1 10 100 2 256).1 0 1000 with
  | none => none
  | some e1 =>
    match close e1 0 none with
    | none => none
    | some e2 => proceedTimes demoCollaborators allSucceed 12 e2

/-- Scenario: a segment with two replicas and `openLen = 100` is constructed and
written up to 500, with at most `maxBytesPerWriteRpc` bytes per write RPC; then
`proceed()` is called four times and every RPC completes. -/
def happyPathRun (maxBytesPerWriteRpc : Nat) : Option ReplicaManager :=
  match write (construct ReplicaManager.empty 1 10 100 2 maxBytesPerWriteRpc).1 0 500 with
  | none => none
  | some e1 => proceedTimes demoCollaborators allSucceed 4 e1

/-- A manager with one segment of two replica slots `r0` and `r1`, `openLen = 100` and
at most `m` bytes per write RPC, as it is between two steps of `happyPathRun`. -/
def twoReplicas (m queuedBytes : Nat) (r0 r1 : Option Replica) (tasks : List Nat)
    (inFlight : Nat) (trace : List Event) : ReplicaManager :=
  { segments :=
      [some { masterId := 1, segmentId := 10, openLen := 100, maxBytesPerWriteRpc := m,
              queued := ⟨true, queuedBytes, false⟩, freeQueued := false,
              followingSegment := none, precedingSegmentCloseAcked := true,
              replicas := [r0, r1] }],
    tasks := tasks,
    writeRpcsInFlight := inFlight,
    trace := trace }

/-- The trace of `happyPathRun` once both replicas are open. -/
def openingTrace : List Event :=
  [Event.selectPrimary [], Event.writeRpc 0 0 10 ⟨0, 100, Flags.OPENPRIMARY⟩,
   Event.selectSecondary [10], Event.writeRpc 0 1 21 ⟨0, 100, Flags.OPEN⟩]

/-- The trace of `happyPathRun` at its end. -/
def happyPathTrace : List Event :=
  [Event.selectPrimary [], Event.writeRpc 0 0 10 ⟨0, 100, Flags.OPENPRIMARY⟩,
   Event.selectSecondary [10], Event.writeRpc 0 1 21 ⟨0, 100, Flags.OPEN⟩,
   Event.writeRpc 0 0 10 ⟨100, 400, Flags.NONE⟩,
   Event.writeRpc 0 1 21 ⟨100, 400, Flags.NONE⟩]

/-- The state `openAcked` after `write(300)`. -/
def dataQueued : ReplicaManager :=
  { segments :=
      [some { masterId := 1, segmentId := 10, openLen := 100, maxBytesPerWriteRpc := 256,
              queued := ⟨true, 300, false⟩, freeQueued := false, followingSegment := none,
              precedingSegmentCloseAcked := true,
              replicas :=
                [some { backupId := 10, client := 10, sent := ⟨true, 100, false⟩,
                        acked := ⟨true, 100, false⟩, writeRpc := none, freeRpc := none }] }],
    tasks := [0],
    writeRpcsInFlight := 0,
    trace := [Event.selectPrimary [], Event.writeRpc 0 0 10 ⟨0, 100, Flags.OPENPRIMARY⟩] }

/-- The segments of `e1` are those of `e`, each with as many replica slots and the same
`freeQueued` as before. -/
def SameShape (e e1 : ReplicaManager) : Prop :=
  ∀ k, (e1.getSegment k).map (fun s => (s.replicas.length, s.freeQueued)) =
    (e.getSegment k).map (fun s => (s.replicas.length, s.freeQueued))

/-- The fields of a segment with one replica slot whose replica has been freed. -/
def freedSegment : ReplicatedSegment :=
  { masterId := 1, segmentId := 10, openLen := 100, maxBytesPerWriteRpc := 256,
    queued := ⟨true, 100, false⟩, freeQueued := true, followingSegment := none,
    precedingSegmentCloseAcked := true, replicas := [none] }

/-- A manager whose only segment is `freedSegment`, taken from the task queue. -/
def freedManager : ReplicaManager :=
  { segments := [some freedSegment], tasks := [], writeRpcsInFlight := 0, trace := [] }

/-- The state `freedManager` after the deleter ran. -/
def destroyedManager : ReplicaManager :=
  { segments := [none], tasks := [], writeRpcsInFlight := 0, trace := [Event.destroy 0] }

/-! ## ClusterMetrics -/

/-- The map `servers` of a `ClusterMetrics` object, from service locators to the
metrics of the server, as the list of its entries; a `std::map` holds one entry for
each key. The type `M` stands for `ServerMetrics`, which is not among the sources. -/
abbrev ServerMap (M : Type) := List (String × M)

/-- The method `find(key)` of the map: the value stored under `key`, `none` for
`end()`. -/
def ServerMap.find {M : Type} (servers : ServerMap M) (key : String) : Option M :=
  match servers with
  | [] => none
  | (k, v) :: rest => if k = key then some v else ServerMap.find rest key

/-- The assignment `servers[key] = value` of the map: the entry of `key` is replaced,
or added when there is none. -/
def ServerMap.assign {M : Type} (servers : ServerMap M) (key : String) (value : M) :
    ServerMap M :=
  match servers with
  | [] => [(key, value)]
  | (k, v) :: rest =>
    if k = key then (key, value) :: rest else (k, v) :: ServerMap.assign rest key value

/-- The keys of the map. -/
def ServerMap.keys {M : Type} (servers : ServerMap M) : List String :=
  servers.map Prod.fst

/-- The loop of `ClusterMetrics::difference` over the entries `entries` of `this` that
are still to be visited, with `diff` as built so far. `serverDifference` is
`ServerMetrics::difference`, which is not among the sources. -/
def differenceLoop {M : Type} (serverDifference : M → M → M) (earlier : ServerMap M) :
    ServerMap M → ServerMap M → ServerMap M
  | [], diff => diff
  | (k, v) :: rest, diff =>
    match ServerMap.find earlier k with
    | some old =>
      differenceLoop serverDifference earlier rest
        (ServerMap.assign diff k (serverDifference v old))
    | none => differenceLoop serverDifference earlier rest diff

/-- `ClusterMetrics::difference(earlier)` on the object with map `self`. -/
def ClusterMetrics.difference {M : Type} (serverDifference : M → M → M)
    (self earlier : ServerMap M) : ServerMap M :=
  differenceLoop serverDifference earlier self []

/-- Every replica slot of every segment satisfies `P`, a property of the slot given
`queued` and `freeQueued` of its segment. -/
def AllSlots (P : Progress → Bool → Option Replica → Prop) (e : ReplicaManager) : Prop :=
  ∀ h s, e.getSegment h = some s → ∀ slot ∈ s.replicas, P s.queued s.freeQueued slot

/-- Further invariant of a replica slot of a segment whose queued progress is `q`: a
replica whose `sent` or `acked` has the close flag has reached `queued`, and a
replica whose opening was not acknowledged has acknowledged nothing. -/
def SlotInv2 (q : Progress) (slot : Option Replica) : Prop :=
  match slot with
  | none => True
  | some r =>
    (r.sent.close = true → r.sent = q) ∧ (r.acked.close = true → r.acked = q) ∧
    (r.acked.opened = false → r.acked = Progress.zero)

/-- A replica of a segment that is not being freed has no free RPC outstanding. -/
def NoFreeRpc (freeQueued : Bool) (slot : Option Replica) : Prop :=
  freeQueued = false → ∀ r, slot = some r → r.freeRpc = none

/-! ## TabletProfiler -/

/-- Number of values of a `uint64_t`. -/
def UINT64 : Nat := 18446744073709551616

/-- Multiplication of `uint64_t` values. -/
def mul64 (a b : Nat) : Nat := (a * b) % UINT64

/-- Subtraction of `uint64_t` values. -/
def sub64 (a b : Nat) : Nat := (a + (UINT64 - b % UINT64)) % UINT64

/-- The constant `TabletProfiler::BITS_PER_LEVEL`. -/
def BITS_PER_LEVEL : Int := 8

/-- The constant `TabletProfiler::BUCKET_SPLIT_BYTES`. -/
def BUCKET_SPLIT_BYTES : Nat := 8 * 1024 * 1024

/-- The constant `TabletProfiler::BUCKET_SPLIT_OBJS`. -/
def BUCKET_SPLIT_OBJS : Nat := BUCKET_SPLIT_BYTES / 100

/-- The constant `TabletProfiler::BUCKET_MERGE_BYTES`. -/
def BUCKET_MERGE_BYTES : Nat := mul64 BUCKET_SPLIT_BYTES 3 / 4

/-- The constant `TabletProfiler::BUCKET_MERGE_OBJS`. -/
def BUCKET_MERGE_OBJS : Nat := mul64 BUCKET_SPLIT_OBJS 3 / 4

/-- The expression `(uint64_t)ceil(64.0 / BITS_PER_LEVEL)` of `TabletProfiler.h`. The
quotient is taken in the rationals: for `BITS_PER_LEVEL = 8` the `double` quotient
`64.0 / 8` is exact, so `ceil` sees the same number. -/
def levelsOfKey : Nat := Int.toNat ⌈(64 : ℚ) / BITS_PER_LEVEL⌉

/-- `TabletProfiler::getMaximumByteError()`. -/
def getMaximumByteError : Nat :=
  mul64 (mul64 2 (sub64 levelsOfKey 1)) BUCKET_SPLIT_BYTES

/-- `TabletProfiler::getMaximumReferentError()`. -/
def getMaximumReferentError : Nat :=
  mul64 (mul64 2 (sub64 levelsOfKey 1)) BUCKET_SPLIT_OBJS

/-! ## Runs that exercise the counter `writeRpcsInFlight` -/

/-- Scenario: a segment with one replica and `openLen = 100` is constructed and
`proceed()` is called twice (the opening write is sent and acknowledged); then
`write(300)` is called and `proceed()` is called twice more (the bytes 100 to 300 are
sent and acknowledged). Every RPC completes. -/
def underflowRun : Option ReplicaManager :=
  match proceedTimes demoCollaborators allSucceed 2
      (construct ReplicaManager.empty 1 10 100 1 256).1 with
  | none => none
  | some e1 =>
    match write e1 0 300 with
    | none => none
    | some e2 => proceedTimes demoCollaborators allSucceed 2 e2

/-- Collaborators with `MAX_WRITE_RPCS_IN_FLIGHT = 1`. -/
def throttledCollaborators : Collaborators :=
  { MAX_WRITE_RPCS_IN_FLIGHT := 1,
    selectPrimary := fun conflicts => 10 + conflicts.length,
    selectSecondary := fun conflicts => 20 + conflicts.length,
    getSession := fun backupId => backupId }

/-- Number of replica slots, over all segments, that have a write RPC outstanding. -/
def outstandingWrites (e : ReplicaManager) : Nat :=
  (e.segments.map
    (fun entry =>
      match entry with
      | none => 0
      | some s =>
        (s.replicas.filter
          (fun slot =>
            match slot with
            | none => false
            | some r => r.writeRpc.isSome)).length)).sum

/-- Three fresh segments of two replicas each, `openLen = 100`. -/
def threeSegments : ReplicaManager :=
  (construct (construct (construct ReplicaManager.empty 1 10 100 2 256).1
    1 11 100 2 256).1 1 12 100 2 256).1

/-- Call `write(offset)` on the segments 0, 1 and 2. -/
def writeAll (e : ReplicaManager) (offset : Nat) : Option ReplicaManager :=
  match write e 0 offset with
  | none => none
  | some e1 =>
    match write e1 1 offset with
    | none => none
    | some e2 => write e2 2 offset

/-- Scenario: with `MAX_WRITE_RPCS_IN_FLIGHT = 1`, three segments of two replicas each
are constructed and `proceed()` is called `n` times, every RPC completing; then
`write(300)` is called on each segment and `proceed()` is called once. -/
def throttleRun (n : Nat) : Option ReplicaManager :=
  match proceedTimes throttledCollaborators allSucceed n threeSegments with
  | none => none
  | some e1 =>
    match writeAll e1 300 with
    | none => none
    | some e2 => proceed throttledCollaborators e2 allSucceed

/-- The fields `followingSegment` and `precedingSegmentCloseAcked` of a segment. -/
def ReplicatedSegment.links (s : ReplicatedSegment) : Option Nat × Bool :=
  (s.followingSegment, s.precedingSegmentCloseAcked)

/-- The transport that fails every RPC with a `TransportException`. -/
def allFail : Nat → Nat → RpcOutcome := fun _ _ => RpcOutcome.transportFailure

/-- Scenario: a segment with one replica and `openLen = 100` is constructed,
`proceed()` sends the opening write, and at the next `proceed()` that write has failed
with a `TransportException`. -/
def openRetryRun : Option ReplicaManager :=
  match proceed demoCollaborators oneReplica allSucceed with
  | none => none
  | some e1 => proceed demoCollaborators e1 allFail

/-- A manager whose only segment is being freed (`freeQueued` set, taken from the task
queue) and has the one replica slot `slot`. -/
def freeingManager (slot : Option Replica) : ReplicaManager :=
  { segments := [some { freedSegment with replicas := [slot] }], tasks := [],
    writeRpcsInFlight := 0, trace := [] }

/-- Second invariant of the manager: every replica slot satisfies `SlotInv2`, and
`NoFreeRpc` for the `freeQueued` of its segment. -/
def Inv2 (e : ReplicaManager) : Prop :=
  AllSlots (fun q fq slot => SlotInv2 q slot ∧ NoFreeRpc fq slot) e

/-! ## Scenarios with two segments -/

/-- Scenario: a segment `s1` (entry 0, one replica, `openLen = 100`) is constructed, its
opening write is sent and acknowledged, `write(1000)` is called on it, a segment `s2`
(entry 1, one replica, `openLen = 100`) is constructed, and `s1.close(s2)` is called. -/
def closedPair : Option ReplicaManager :=
  (proceedTimes demoCollaborators allSucceed 2
      (construct ReplicaManager.empty 1 1 100 1 256).1).bind
    (fun e1 => (write e1 0 1000).bind
      (fun e2 => close (construct e2 1 2 100 1 256).1 0 (some 1)))

/-- Scenario: after `closedPair`, `proceed()` is called twice, every RPC completing (the
opening write of `s2` is sent and acknowledged, the first fragment of `s1` too), and
`write(200)` is called on `s2`, while the closing write of `s1` has not been sent. -/
def blockedFollower : Option ReplicaManager :=
  closedPair.bind
    (fun e1 => (proceedTimes demoCollaborators allSucceed 2 e1).bind
      (fun e2 => write e2 1 200))

/-- The state `freeingManager` with an idle replica on backup 10, after the free RPC
for that replica was issued. -/
def freeIssuedManager : ReplicaManager :=
  { segments :=
      [some { freedSegment with
              replicas := [some ⟨10, 10, ⟨true, 100, false⟩, ⟨true, 100, false⟩, none,
                some ⟨1, 10⟩⟩] }],
    tasks := [0], writeRpcsInFlight := 0, trace := [Event.freeRpc 0 0 10] }

/-- The state `dataQueued` once `proceed()` has taken the segment from the task queue. -/
def dataDequeued : ReplicaManager :=
  { dataQueued with tasks := [] }

/-- Every segment of `e1` was in the table of `e` already, with the same `freeQueued`:
segments may have been destroyed, none was added. -/
def Survives (e e1 : ReplicaManager) : Prop :=
  ∀ k s1, e1.getSegment k = some s1 →
    ∃ s0, e.getSegment k = some s0 ∧ s0.freeQueued = s1.freeQueued

/-- The replicas that exist in two different slots are on different backups. -/
@[reducible] def DistinctBackups (replicas : List (Option Replica)) : Prop :=
  ∀ (i j : Nat) (r1 r2 : Replica), i ≠ j → replicas[i]? = some (some r1) → replicas[j]? = some (some r2) →
    r1.backupId ≠ r2.backupId

/-- Collaborators whose selector returns a backup that is not among the conflicts: one
more than the sum of their ids. -/
def freshCollaborators : Collaborators :=
  { MAX_WRITE_RPCS_IN_FLIGHT := 4,
    selectPrimary := fun conflicts => conflicts.sum + 1,
    selectSecondary := fun conflicts => conflicts.sum + 1,
    getSession := fun backupId => backupId }

/-- Scenario: a segment `s1` (entry 0, one replica, `openLen = 100`) is constructed and
its opening write is sent and acknowledged; a segment `s2` (entry 1) is constructed and
`s1.close(s2)` is called before any replica of `s2` exists. -/
def closeBlocked : Option ReplicaManager :=
  (proceedTimes demoCollaborators allSucceed 2
      (construct ReplicaManager.empty 1 1 100 1 256).1).bind
    (fun e1 => close (construct e1 1 2 100 1 256).1 0 (some 1))

/-! ## Runs after `s1.close(s2)` -/

theorem getSegment_lt {e : ReplicaManager} {h : Nat} {s : ReplicatedSegment}
    (hs : e.getSegment h = some s) : h < e.segments.length := by
  unfold ReplicaManager.getSegment at hs
  by_contra hlt
  rw [List.getElem?_eq_none (by omega)] at hs
  simp at hs

theorem getSegment_setSegment (e : ReplicaManager) (h h' : Nat) (s : ReplicatedSegment) :
    (e.setSegment h s).getSegment h' =
      if h = h' then (if h < e.segments.length then some s else none)
      else e.getSegment h' := by
  unfold ReplicaManager.getSegment ReplicaManager.setSegment
  simp only [List.getElem?_set]
  by_cases hh : h = h'
  · subst hh
    by_cases hl : h < e.segments.length <;> simp [hl]
  · simp [hh]

theorem getSegment_setSegment_self {e : ReplicaManager} {h : Nat} {s0 : ReplicatedSegment}
    (hs : e.getSegment h = some s0) (s : ReplicatedSegment) :
    (e.setSegment h s).getSegment h = some s := by
  rw [getSegment_setSegment]; simp [getSegment_lt hs]

theorem getSegment_setSegment_ne (e : ReplicaManager) {h h' : Nat} (hne : h' ≠ h)
    (s : ReplicatedSegment) : (e.setSegment h s).getSegment h' = e.getSegment h' := by
  rw [getSegment_setSegment]; simp [Ne.symm hne]

@[simp] theorem getSegment_schedule (e : ReplicaManager) (h h' : Nat) :
    (e.schedule h).getSegment h' = e.getSegment h' := by
  unfold ReplicaManager.schedule ReplicaManager.getSegment
  split <;> rfl

@[simp] theorem getSegment_emit (e : ReplicaManager) (ev : Event) (h' : Nat) :
    (e.emit ev).getSegment h' = e.getSegment h' := rfl

@[simp] theorem isScheduled_schedule_self (e : ReplicaManager) (h : Nat) :
    (e.schedule h).isScheduled h = true := by
  unfold ReplicaManager.schedule ReplicaManager.isScheduled
  split <;> simp_all

@[simp] theorem writeRpcsInFlight_schedule (e : ReplicaManager) (h : Nat) :
    (e.schedule h).writeRpcsInFlight = e.writeRpcsInFlight := by
  unfold ReplicaManager.schedule; split <;> rfl

@[simp] theorem trace_schedule (e : ReplicaManager) (h : Nat) :
    (e.schedule h).trace = e.trace := by
  unfold ReplicaManager.schedule; split <;> rfl

@[simp] theorem segments_schedule (e : ReplicaManager) (h : Nat) :
    (e.schedule h).segments = e.segments := by
  unfold ReplicaManager.schedule; split <;> rfl

@[simp] theorem writeRpcsInFlight_setSegment (e : ReplicaManager) (h : Nat) (s : ReplicatedSegment) :
    (e.setSegment h s).writeRpcsInFlight = e.writeRpcsInFlight := rfl

@[simp] theorem trace_setSegment (e : ReplicaManager) (h : Nat) (s : ReplicatedSegment) :
    (e.setSegment h s).trace = e.trace := rfl

@[simp] theorem tasks_setSegment (e : ReplicaManager) (h : Nat) (s : ReplicatedSegment) :
    (e.setSegment h s).tasks = e.tasks := rfl

theorem isScheduled_schedule_of (e : ReplicaManager) (h h' : Nat)
    (hs : e.isScheduled h' = true) : (e.schedule h).isScheduled h' = true := by
  unfold ReplicaManager.schedule ReplicaManager.isScheduled at *
  split <;> simp_all

/-- C11. `write(offset)` passes its assertions exactly when the segment is not closed
and `offset >= queued.bytes`; it then sets `queued.bytes` to `offset`, schedules the
segment, and leaves every other field of the segment, every other segment, the
counter `writeRpcsInFlight` and the trace as they were. -/
theorem write_spec (e : ReplicaManager) (h offset : Nat) (s : ReplicatedSegment)
    (hs : e.getSegment h = some s) :
    ((write e h offset).isSome = true ↔ (s.queued.close = false ∧ s.queued.bytes ≤ offset)) ∧
    ∀ e1, write e h offset = some e1 →
      e1.getSegment h = some { s with queued := { s.queued with bytes := offset } } ∧
      (∃ s1, e1.getSegment h = some s1 ∧ s1.queued.bytes = offset ∧
        s1.queued.opened = s.queued.opened ∧ s1.queued.close = s.queued.close ∧
        s1.replicas = s.replicas ∧ s1.freeQueued = s.freeQueued ∧
        s1.followingSegment = s.followingSegment ∧
        s1.precedingSegmentCloseAcked = s.precedingSegmentCloseAcked) ∧
      e1.isScheduled h = true ∧
      e1.writeRpcsInFlight = e.writeRpcsInFlight ∧
      e1.trace = e.trace ∧
      (∀ h1, h1 ≠ h → e1.getSegment h1 = e.getSegment h1) := by
  have hw : write e h offset =
      if s.queued.close = true then none
      else if offset < s.queued.bytes then none
      else some ((e.setSegment h
        { s with queued := { s.queued with bytes := offset } }).schedule h) := by
    unfold write; rw [hs]
  rw [hw]
  constructor
  · by_cases hc : s.queued.close = true
    · simp [hc]
    · by_cases ho : offset < s.queued.bytes
      · simp [hc, ho]
      · have hc1 : s.queued.close = false := by simpa using hc
        rw [if_neg hc, if_neg ho]
        exact ⟨fun _ => ⟨hc1, by omega⟩, fun _ => rfl⟩
  · intro e1 he1
    split at he1
    · cases he1
    · split at he1
      · cases he1
      · injection he1 with he1
        subst he1
        have hself := getSegment_setSegment_self hs
          { s with queued := { s.queued with bytes := offset } }
        refine ⟨by simpa using hself,
          ⟨{ s with queued := { s.queued with bytes := offset } }, by simpa using hself,
            rfl, rfl, rfl, rfl, rfl, rfl, rfl⟩,
          by simp, by simp, by simp, ?_⟩
        intro h1 hne
        simp [getSegment_setSegment_ne e hne]

theorem write_spec_witness :
    (write demoManager 0 500).isSome = true ↔
      (demoSegment.queued.close = false ∧ demoSegment.queued.bytes ≤ 500) :=
  (write_spec demoManager 0 500 demoSegment rfl).1


/-- C12. `close(f)` passes its assertion exactly when the segment is not closed; it
then sets `queued.close`, keeps `queued.bytes` and `queued.open`, binds
`followingSegment` to `f`, schedules the segment and, when `f` is not null, clears
`precedingSegmentCloseAcked` of `f`; no other field of any segment changes (when
`f` is null no other segment changes at all), nor does `writeRpcsInFlight`. -/
theorem close_spec (e : ReplicaManager) (h : Nat) (f : Option Nat) (s : ReplicatedSegment)
    (hs : e.getSegment h = some s)
    (hf : ∀ j, f = some j → (e.getSegment j).isSome = true) :
    ((close e h f).isSome = true ↔ s.queued.close = false) ∧
    ∀ e1, close e h f = some e1 →
      (∃ s1, e1.getSegment h = some s1 ∧
        s1.queued.close = true ∧ s1.queued.bytes = s.queued.bytes ∧
        s1.queued.opened = s.queued.opened ∧ s1.followingSegment = f ∧
        s1.replicas = s.replicas ∧ s1.freeQueued = s.freeQueued) ∧
      e1.isScheduled h = true ∧
      (∀ j, f = some j →
        ∃ fs1, e1.getSegment j = some fs1 ∧ fs1.precedingSegmentCloseAcked = false) ∧
      (∀ j fs, f = some j → j ≠ h → e.getSegment j = some fs →
        e1.getSegment j = some { fs with precedingSegmentCloseAcked := false }) ∧
      (∀ h1, h1 ≠ h → f ≠ some h1 → e1.getSegment h1 = e.getSegment h1) ∧
      (f = none → ∀ h1, h1 ≠ h → e1.getSegment h1 = e.getSegment h1) ∧
      e1.writeRpcsInFlight = e.writeRpcsInFlight ∧
      e1.trace = e.trace := by
  have hset := getSegment_setSegment_self hs
    { s with queued := { s.queued with close := true }, followingSegment := f }
  cases f with
  | none =>
    have hw : close e h none =
        if s.queued.close = true then none
        else some ((e.setSegment h
          { s with queued := { s.queued with close := true },
                   followingSegment := none }).schedule h) := by
      unfold close; rw [hs]
    rw [hw]
    constructor
    · by_cases hc : s.queued.close = true
      · simp [hc]
      · rw [if_neg hc]
        exact ⟨fun _ => by simpa using hc, fun _ => rfl⟩
    · intro e1 he1
      split at he1
      · cases he1
      · injection he1 with he1
        subst he1
        refine ⟨⟨{ s with queued := { s.queued with close := true }, followingSegment := none },
          by simpa using hset, rfl, rfl, rfl, rfl, rfl, rfl⟩, by simp,
          fun j hj => (by cases hj), fun j fs hj => (by cases hj), ?_, ?_, by simp, by simp⟩
        · intro h1 hne _
          simp [getSegment_setSegment_ne e hne]
        · intro _ h1 hne
          simp [getSegment_setSegment_ne e hne]
  | some j =>
    have hj := hf j rfl
    obtain ⟨fs0, hfs0⟩ := Option.isSome_iff_exists.mp hj
    -- the follower as seen after the fields of `h` were stored
    have hfol : ∃ fs, (e.setSegment h
          { s with queued := { s.queued with close := true },
                   followingSegment := some j }).getSegment j = some fs := by
      by_cases hjh : j = h
      · subst hjh; exact ⟨_, hset⟩
      · exact ⟨fs0, by rw [getSegment_setSegment_ne e hjh]; exact hfs0⟩
    obtain ⟨fs, hfs⟩ := hfol
    have hw : close e h (some j) =
        if s.queued.close = true then none
        else some (((e.setSegment h
          { s with queued := { s.queued with close := true },
                   followingSegment := some j }).setSegment j
            { fs with precedingSegmentCloseAcked := false }).schedule h) := by
      unfold close; rw [hs]; simp only [hfs]
    rw [hw]
    constructor
    · by_cases hc : s.queued.close = true
      · simp [hc]
      · rw [if_neg hc]
        exact ⟨fun _ => by simpa using hc, fun _ => rfl⟩
    · intro e1 he1
      split at he1
      · cases he1
      · injection he1 with he1
        subst he1
        have hfset := getSegment_setSegment_self hfs { fs with precedingSegmentCloseAcked := false }
        refine ⟨?_, by simp, ?_, ?_, ?_, fun hn => (by cases hn), by simp, by simp⟩
        · by_cases hjh : j = h
          · subst hjh
            rw [hset] at hfs
            injection hfs with hfs
            subst hfs
            exact ⟨{ s with queued := { s.queued with close := true },
                            followingSegment := some j,
                            precedingSegmentCloseAcked := false },
              by simpa using hfset, rfl, rfl, rfl, rfl, rfl, rfl⟩
          · refine ⟨{ s with queued := { s.queued with close := true },
                             followingSegment := some j }, ?_, rfl, rfl, rfl, rfl, rfl, rfl⟩
            rw [getSegment_schedule, getSegment_setSegment_ne _ (Ne.symm hjh)]
            exact hset
        · intro j1 hj1
          injection hj1 with hj1
          subst hj1
          exact ⟨{ fs with precedingSegmentCloseAcked := false }, by simpa using hfset, rfl⟩
        · intro j1 fs1 hj1 hne hfs1
          injection hj1 with hj1
          subst hj1
          rw [getSegment_setSegment_ne e hne, hfs1] at hfs
          injection hfs with hfs
          subst hfs
          simpa using hfset
        · intro h1 hne hnf
          have hne2 : h1 ≠ j := fun hh => hnf (by rw [hh])
          rw [getSegment_schedule, getSegment_setSegment_ne _ hne2,
            getSegment_setSegment_ne _ hne]


theorem close_spec_witness :
    (close demoManager2 0 (some 1)).isSome = true ↔ demoSegment.queued.close = false :=
  (close_spec demoManager2 0 (some 1) demoSegment rfl
    (fun j hj => by cases hj; rfl)).1

/-- C13. A newly constructed segment has `queued = (open, openLen, not closed)`,
`freeQueued = false`, no following segment, `precedingSegmentCloseAcked = true`,
exactly `numReplicas` replica slots, all absent, and is scheduled; the
construction changes neither `writeRpcsInFlight`, nor the trace, nor any segment
that existed before. -/
theorem construct_spec (e : ReplicaManager) (masterId : ServerId)
    (segmentId openLen numReplicas maxBytesPerWriteRpc : Nat) :
    ∃ s, (construct e masterId segmentId openLen numReplicas maxBytesPerWriteRpc).1.getSegment
          (construct e masterId segmentId openLen numReplicas maxBytesPerWriteRpc).2 = some s ∧
      s.queued = ⟨true, openLen, false⟩ ∧
      s.freeQueued = false ∧
      s.followingSegment = none ∧
      s.precedingSegmentCloseAcked = true ∧
      s.replicas.length = numReplicas ∧
      (∀ slot ∈ s.replicas, slot = none) ∧
      s.openLen = openLen ∧ s.maxBytesPerWriteRpc = maxBytesPerWriteRpc ∧
      s.masterId = masterId ∧ s.segmentId = segmentId ∧
      (construct e masterId segmentId openLen numReplicas maxBytesPerWriteRpc).1.isScheduled
        (construct e masterId segmentId openLen numReplicas maxBytesPerWriteRpc).2 = true ∧
      (construct e masterId segmentId openLen numReplicas maxBytesPerWriteRpc).1.writeRpcsInFlight
        = e.writeRpcsInFlight ∧
      (construct e masterId segmentId openLen numReplicas maxBytesPerWriteRpc).1.trace = e.trace ∧
      (∀ h1, h1 < e.segments.length →
        (construct e masterId segmentId openLen numReplicas maxBytesPerWriteRpc).1.getSegment h1
          = e.getSegment h1) := by
  refine ⟨{ masterId := masterId, segmentId := segmentId, openLen := openLen,
            maxBytesPerWriteRpc := maxBytesPerWriteRpc,
            queued := ⟨true, openLen, false⟩, freeQueued := false,
            followingSegment := none, precedingSegmentCloseAcked := true,
            replicas := List.replicate numReplicas none }, ?_, rfl, rfl, rfl, rfl, ?_, ?_,
          rfl, rfl, rfl, rfl, ?_, ?_, ?_, ?_⟩
  · simp [construct, ReplicaManager.getSegment]
  · simp
  · intro slot hslot
    exact (List.mem_replicate.mp hslot).2
  · simp [construct]
  · simp [construct]
  · simp [construct]
  · intro h1 hlt
    simp [construct, ReplicaManager.getSegment, List.getElem?_append_left hlt]


/-! ## Reading the table after an update -/

theorem getSegment_modify (e : ReplicaManager) (h h' : Nat)
    (g : ReplicatedSegment → ReplicatedSegment) :
    (e.modify h g).getSegment h' =
      if h = h' then (e.getSegment h).map g else e.getSegment h' := by
  unfold ReplicaManager.modify
  cases hs : e.getSegment h with
  | none =>
    by_cases hh : h = h'
    · subst hh; simp [hs]
    · simp [hh]
  | some s =>
    simp only [getSegment_setSegment, getSegment_lt hs, if_true, Option.map_some']

theorem setSegment_eq_modify {e : ReplicaManager} {h : Nat} {s : ReplicatedSegment}
    (hs : e.getSegment h = some s) (g : ReplicatedSegment → ReplicatedSegment) :
    e.setSegment h (g s) = e.modify h g := by
  unfold ReplicaManager.modify; rw [hs]

theorem setReplica_eq_modify (e : ReplicaManager) (h i : Nat) (slot : Option Replica) :
    e.setReplica h i slot =
      e.modify h (fun s => { s with replicas := s.replicas.set i slot }) := by
  unfold ReplicaManager.setReplica ReplicaManager.modify
  cases e.getSegment h <;> rfl

@[simp] theorem tasks_modify (e : ReplicaManager) (h : Nat)
    (g : ReplicatedSegment → ReplicatedSegment) : (e.modify h g).tasks = e.tasks := by
  unfold ReplicaManager.modify; cases e.getSegment h <;> rfl

@[simp] theorem trace_modify (e : ReplicaManager) (h : Nat)
    (g : ReplicatedSegment → ReplicatedSegment) : (e.modify h g).trace = e.trace := by
  unfold ReplicaManager.modify; cases e.getSegment h <;> rfl

@[simp] theorem writeRpcsInFlight_modify (e : ReplicaManager) (h : Nat)
    (g : ReplicatedSegment → ReplicatedSegment) :
    (e.modify h g).writeRpcsInFlight = e.writeRpcsInFlight := by
  unfold ReplicaManager.modify; cases e.getSegment h <;> rfl

@[simp] theorem tasks_emit (e : ReplicaManager) (ev : Event) : (e.emit ev).tasks = e.tasks := rfl

@[simp] theorem writeRpcsInFlight_emit (e : ReplicaManager) (ev : Event) :
    (e.emit ev).writeRpcsInFlight = e.writeRpcsInFlight := rfl

@[simp] theorem trace_emit (e : ReplicaManager) (ev : Event) :
    (e.emit ev).trace = e.trace ++ [ev] := rfl

theorem isScheduled_modify (e : ReplicaManager) (h h' : Nat)
    (g : ReplicatedSegment → ReplicatedSegment) :
    (e.modify h g).isScheduled h' = e.isScheduled h' := by
  unfold ReplicaManager.isScheduled; simp

theorem isScheduled_schedule (e : ReplicaManager) (h h' : Nat) :
    (e.schedule h).isScheduled h' = (decide (h' = h) || e.isScheduled h') := by
  unfold ReplicaManager.schedule ReplicaManager.isScheduled
  by_cases hm : h ∈ e.tasks
  · by_cases hh : h' = h
    · subst hh; simp [hm]
    · simp [hm, hh]
  · by_cases hh : h' = h
    · subst hh; simp [hm]
    · simp [hm, hh]

theorem slotAt_modify_replicas (e : ReplicaManager) (h i j : Nat) (slot : Option Replica) :
    (e.setReplica h i slot).slotAt h j =
      if i = j then (e.slotAt h j).map (fun _ => slot) else e.slotAt h j := by
  rw [setReplica_eq_modify]
  unfold ReplicaManager.slotAt
  rw [getSegment_modify]
  cases hs : e.getSegment h with
  | none => simp
  | some s =>
    simp only [if_true, Option.map_some', List.getElem?_set]
    by_cases hij : i = j
    · subst hij
      by_cases hl : i < s.replicas.length
      · simp [hl, List.getElem?_eq_getElem hl]
      · simp [hl, List.getElem?_eq_none (Nat.le_of_not_lt hl)]
    · simp [hij]


/-! ## The effect of one step on the table of segments -/

theorem getSegment_of_segments_eq {e e1 : ReplicaManager} (hseg : e1.segments = e.segments)
    (h : Nat) : e1.getSegment h = e.getSegment h := by
  unfold ReplicaManager.getSegment; rw [hseg]

theorem list_set_same {α : Type} (l : List α) (i : Nat) (a : α) (hi : l[i]? = some a) :
    l.set i a = l := by
  apply List.ext_getElem?
  intro j
  rw [List.getElem?_set]
  by_cases hij : i = j
  · subst hij
    have hl : i < l.length := by
      by_contra hlt
      rw [List.getElem?_eq_none (by omega)] at hi
      cases hi
    simp [hl, hi]
  · simp [hij]

theorem Frame.of_segments_eq {h i : Nat} {slot : Option Replica} {e e1 e2 : ReplicaManager}
    (hf : Frame h i slot e e1) (hseg : e2.segments = e1.segments) : Frame h i slot e e2 := by
  intro h'
  rw [getSegment_of_segments_eq hseg]
  exact hf h'

theorem Frame.schedule {h i : Nat} {slot : Option Replica} {e e1 : ReplicaManager}
    (hf : Frame h i slot e e1) (k : Nat) : Frame h i slot e (e1.schedule k) :=
  hf.of_segments_eq (segments_schedule e1 k)

theorem Frame.same {e : ReplicaManager} {h i : Nat} {slot : Option Replica}
    (hslot : e.slotAt h i = some slot) : Frame h i slot e e := by
  intro h'
  cases hs : e.getSegment h' with
  | none => simp
  | some s0 =>
    by_cases hh : h' = h
    · subst hh
      unfold ReplicaManager.slotAt at hslot
      rw [hs] at hslot
      simp [list_set_same _ _ _ hslot, ReplicatedSegment.core]
    · simp [hh]

theorem Frame.setReplica (e : ReplicaManager) (h i : Nat) (slot : Option Replica) :
    Frame h i slot e (e.setReplica h i slot) := by
  intro h'
  rw [setReplica_eq_modify, getSegment_modify]
  by_cases hh : h = h'
  · subst hh
    cases e.getSegment h <;> simp [ReplicatedSegment.core]
  · have hh' : ¬ h' = h := fun x => hh x.symm
    simp [hh, hh']

/-- A frame followed by a store to the same slot. -/
theorem Frame.setReplica_after {h i : Nat} {slot : Option Replica} {e e1 : ReplicaManager}
    (hf : Frame h i slot e e1) (slot1 : Option Replica) :
    Frame h i slot1 e (e1.setReplica h i slot1) := by
  intro h'
  have hf' := hf h'
  rw [setReplica_eq_modify, getSegment_modify]
  by_cases hh : h = h'
  · subst hh
    simp only [if_true] at hf' ⊢
    cases h1 : e1.getSegment h with
    | none =>
      rw [h1] at hf'
      cases h0 : e.getSegment h with
      | none => simp
      | some s0 => rw [h0] at hf'; simp at hf'
    | some s1 =>
      rw [h1] at hf'
      cases h0 : e.getSegment h with
      | none => rw [h0] at hf'; simp at hf'
      | some s0 =>
        rw [h0] at hf'
        simp only [Option.map_some', Option.some.injEq] at hf' ⊢
        have hrep : s1.replicas = s0.replicas.set i slot := by
          have := congrArg ReplicatedSegment.replicas hf'
          simpa [ReplicatedSegment.core] using this
        have hq := congrArg ReplicatedSegment.queued hf'
        have h2 := congrArg ReplicatedSegment.openLen hf'
        have h3 := congrArg ReplicatedSegment.maxBytesPerWriteRpc hf'
        have h4 := congrArg ReplicatedSegment.freeQueued hf'
        have h5 := congrArg ReplicatedSegment.masterId hf'
        have h6 := congrArg ReplicatedSegment.segmentId hf'
        simp only [ReplicatedSegment.core] at hq h2 h3 h4 h5 h6
        simp [ReplicatedSegment.core, hrep, hq, h2, h3, h4, h5, h6]
  · have hh' : ¬ h' = h := fun x => hh x.symm
    simp only [hh, hh', if_false] at hf' ⊢
    exact hf'

/-- A frame followed by a store to `followingSegment` or `precedingSegmentCloseAcked`
of some segment. -/
theorem Frame.modify_links {h i : Nat} {slot : Option Replica} {e e1 : ReplicaManager}
    (hf : Frame h i slot e e1) (k : Nat) (g : ReplicatedSegment → ReplicatedSegment)
    (hg : ∀ s, (g s).core = s.core) : Frame h i slot e (e1.modify k g) := by
  intro h'
  rw [getSegment_modify]
  by_cases hk : k = h'
  · subst hk
    rw [if_pos rfl, ← hf k]
    cases e1.getSegment k with
    | none => rfl
    | some s1 => simp [hg]
  · rw [if_neg hk]; exact hf h'


theorem Frame.setInFlight {h i : Nat} {slot : Option Replica} {e e1 : ReplicaManager}
    (hf : Frame h i slot e e1) (v : Nat) :
    Frame h i slot e { e1 with writeRpcsInFlight := v } :=
  fun h' => hf h'

theorem Frame.emit {h i : Nat} {slot : Option Replica} {e e1 : ReplicaManager}
    (hf : Frame h i slot e e1) (ev : Event) : Frame h i slot e (e1.emit ev) :=
  fun h' => hf h'

theorem slotAt_of_getSegment {e : ReplicaManager} {h i : Nat} {s : ReplicatedSegment}
    (hs : e.getSegment h = some s) : e.slotAt h i = s.replicas[i]? := by
  unfold ReplicaManager.slotAt; rw [hs]

theorem openReplica_frame {c : Collaborators} {e e1 : ReplicaManager} {h i : Nat}
    {s : ReplicatedSegment} (outcome : RpcOutcome) (hs : e.getSegment h = some s)
    (hi : s.replicas[i]? = some none) (hstep : openReplica c e h i s = some e1) :
    ∃ new, SlotStep s outcome none new ∧ Frame h i new e e1 := by
  have hsame : Frame h i none e e := Frame.same (by rw [slotAt_of_getSegment hs]; exact hi)
  unfold openReplica at hstep
  split at hstep
  · injection hstep with hstep
    subst hstep
    exact ⟨none, SlotStep.same _, hsame.schedule h⟩
  · split at hstep
    · cases hstep
    · rename_i conflicts _
      injection hstep with hstep
      subst hstep
      refine ⟨_, SlotStep.opened
        (if decide (i = 0) = true then c.selectPrimary conflicts
          else c.selectSecondary conflicts)
        (c.getSession (if decide (i = 0) = true then c.selectPrimary conflicts
          else c.selectSecondary conflicts))
        (if decide (i = 0) = true then Flags.OPENPRIMARY else Flags.OPEN), ?_⟩
      exact Frame.schedule
        (Frame.setReplica_after (((hsame.emit _).emit _).setInFlight _) _) h


theorem core_set_precedingSegmentCloseAcked (s : ReplicatedSegment) (b : Bool) :
    ({ s with precedingSegmentCloseAcked := b } : ReplicatedSegment).core = s.core := rfl

theorem core_set_followingSegment (s : ReplicatedSegment) (f : Option Nat) :
    ({ s with followingSegment := f } : ReplicatedSegment).core = s.core := rfl

theorem ackFollowing_frame {e e1 e2 : ReplicaManager} {h i : Nat} {slot : Option Replica}
    {s : ReplicatedSegment} (hf : Frame h i slot e e1)
    (hstep : ackFollowing e1 h s = some e2) : Frame h i slot e e2 := by
  unfold ackFollowing at hstep
  cases hfol : s.followingSegment with
  | none =>
    simp only [hfol] at hstep
    injection hstep with hstep; subst hstep; exact hf
  | some f =>
    simp only [hfol] at hstep
    cases hfs : e1.getSegment f with
    | none => simp only [hfs] at hstep; cases hstep
    | some fs =>
      simp only [hfs] at hstep
      have hf1 : Frame h i slot e
          (e1.setSegment f { fs with precedingSegmentCloseAcked := true }) := by
        rw [setSegment_eq_modify hfs (fun x => { x with precedingSegmentCloseAcked := true })]
        exact Frame.modify_links hf f (fun x => { x with precedingSegmentCloseAcked := true })
          (fun x => rfl)
      cases hs1 : (e1.setSegment f
          { fs with precedingSegmentCloseAcked := true }).getSegment h with
      | none => simp only [hs1] at hstep; cases hstep
      | some s1 =>
        simp only [hs1] at hstep
        injection hstep with hstep
        subst hstep
        rw [setSegment_eq_modify hs1 (fun x => { x with followingSegment := none })]
        exact Frame.modify_links hf1 h (fun x => { x with followingSegment := none })
          (fun x => rfl)

theorem finishReap_frame {e e2 : ReplicaManager} {h i : Nat} {slot : Option Replica}
    (s : ReplicatedSegment) (r1 : Replica) (hf : Frame h i slot e e2) :
    Frame h i (if r1.acked.opened = false then none else some { r1 with writeRpc := none })
      e (finishReap e2 h i s r1) := by
  have hf3 : Frame h i (some { r1 with writeRpc := none }) e
      (e2.setReplica h i (some { r1 with writeRpc := none })) := hf.setReplica_after _
  have hf4 := hf3.setInFlight
    (dec32 (e2.setReplica h i (some { r1 with writeRpc := none })).writeRpcsInFlight)
  unfold finishReap
  dsimp only
  by_cases hop : r1.acked.opened = false
  · rw [if_pos hop, if_pos hop]
    by_cases hq : r1.acked ≠ s.queued
    · rw [if_pos hq]; exact (hf4.schedule h).setReplica_after none
    · rw [if_neg hq]; exact hf4.setReplica_after none
  · rw [if_neg hop, if_neg hop]
    by_cases hq : r1.acked ≠ s.queued
    · rw [if_pos hq]; exact hf4.schedule h
    · rw [if_neg hq]; exact hf4

theorem reapWrite_frame {e e1 : ReplicaManager} {h i : Nat} {s : ReplicatedSegment}
    {r : Replica} {rpc : WriteRpc} {outcome : RpcOutcome}
    (hs : e.getSegment h = some s) (hi : s.replicas[i]? = some (some r))
    (hrpc : r.writeRpc = some rpc) (hne : r.acked ≠ s.queued)
    (hstep : reapWrite e h i s r outcome = some e1) :
    ∃ new, SlotStep s outcome (some r) new ∧ Frame h i new e e1 := by
  have hsame : Frame h i (some r) e e := Frame.same (by rw [slotAt_of_getSegment hs]; exact hi)
  have hkey : ∀ e2, Frame h i (some (reaped r outcome)) e e2 →
      outcome ≠ RpcOutcome.notReady →
      ∃ new, SlotStep s outcome (some r) new ∧
        Frame h i new e (finishReap e2 h i s (reaped r outcome)) := by
    intro e2 hf2 ho
    have hfin := finishReap_frame s (reaped r outcome) hf2
    by_cases hop : (reaped r outcome).acked.opened = false
    · rw [if_pos hop] at hfin
      exact ⟨none, SlotStep.reapedReset r rpc hrpc hne ho hop, hfin⟩
    · rw [if_neg hop] at hfin
      exact ⟨_, SlotStep.reapedKept r rpc hrpc hne ho (by simpa using hop), hfin⟩
  cases outcome with
  | notReady =>
    simp only [reapWrite] at hstep
    injection hstep with hstep
    subst hstep
    exact ⟨some r, SlotStep.same _, hsame.schedule h⟩
  | success =>
    simp only [reapWrite] at hstep
    split at hstep
    · cases hstep
    · rename_i e2 he2
      injection hstep with hstep
      subst hstep
      have hfr1 : Frame h i (some (reaped r RpcOutcome.success)) e
          (e.setReplica h i (some { r with acked := r.sent })) := Frame.setReplica e h i _
      refine hkey e2 ?_ (by decide)
      split at he2
      · exact ackFollowing_frame hfr1 he2
      · injection he2 with he2; subst he2; exact hfr1
  | transportFailure =>
    simp only [reapWrite] at hstep
    injection hstep with hstep
    subst hstep
    exact hkey _ (Frame.setReplica e h i _) (by decide)


theorem issueWrite_frame {e e1 : ReplicaManager} {h i : Nat} {s : ReplicatedSegment}
    {r : Replica} (outcome : RpcOutcome) (hs : e.getSegment h = some s)
    (hi : s.replicas[i]? = some (some r))
    (hrpc : r.writeRpc = none) (hne : r.acked ≠ s.queued)
    (hstep : issueWrite e h i s r = some e1) :
    ∃ new, SlotStep s outcome (some r) new ∧ Frame h i new e e1 := by
  have hsame : Frame h i (some r) e e := Frame.same (by rw [slotAt_of_getSegment hs]; exact hi)
  unfold issueWrite at hstep
  by_cases hlt : r.sent.lt s.queued = true
  · rw [if_pos hlt] at hstep
    by_cases hfree : r.freeRpc.isSome = true
    · rw [if_pos hfree] at hstep; cases hstep
    · rw [if_neg hfree] at hstep
      by_cases hcl : r.sent.close = true
      · rw [if_pos hcl] at hstep; cases hstep
      · rw [if_neg hcl] at hstep
        by_cases hp : s.precedingSegmentCloseAcked = false
        · rw [if_pos hp] at hstep
          injection hstep with hstep; subst hstep
          exact ⟨some r, SlotStep.same _, hsame.schedule h⟩
        · rw [if_neg hp] at hstep
          dsimp only at hstep
          split at hstep
          · cases hstep
          · injection hstep with hstep; subst hstep
            exact ⟨some r, SlotStep.same _, hsame.schedule h⟩
          · injection hstep with hstep; subst hstep
            refine ⟨_, SlotStep.written r hrpc hne hlt ?_ (by simpa using hcl)
              (by simpa using hp), ?_⟩
            · cases hfr : r.freeRpc with
              | none => rfl
              | some x => rw [hfr] at hfree; simp at hfree
            · exact ((hsame.emit _).setReplica_after _).schedule h
  · rw [if_neg hlt] at hstep; cases hstep

/-- What `performWrite` does to the table of segments: the slot it was called for
makes one of the steps of `SlotStep`, nothing else changes but the links between
segments. -/
theorem performWrite_frame {c : Collaborators} {e e1 : ReplicaManager} {h i : Nat}
    {s : ReplicatedSegment} {outcome : RpcOutcome} (hs : e.getSegment h = some s)
    (hstep : performWrite c e h i outcome = some e1) :
    ∃ old new, s.replicas[i]? = some old ∧ SlotStep s outcome old new ∧ Frame h i new e e1 := by
  unfold performWrite at hstep
  rw [hs] at hstep
  dsimp only at hstep
  cases hi : s.replicas[i]? with
  | none => simp only [hi] at hstep; cases hstep
  | some slot =>
    cases slot with
    | none =>
      simp only [hi] at hstep
      obtain ⟨new, h1, h2⟩ := openReplica_frame outcome hs hi hstep
      exact ⟨none, new, rfl, h1, h2⟩
    | some r =>
      simp only [hi] at hstep
      by_cases hq : r.acked = s.queued
      · rw [if_pos hq] at hstep
        injection hstep with hstep; subst hstep
        exact ⟨some r, some r, rfl, SlotStep.same _,
          Frame.same (by rw [slotAt_of_getSegment hs]; exact hi)⟩
      · rw [if_neg hq] at hstep
        cases hw : r.writeRpc with
        | none =>
          simp only [hw] at hstep
          obtain ⟨new, h1, h2⟩ := issueWrite_frame outcome hs hi hw hq hstep
          exact ⟨some r, new, rfl, h1, h2⟩
        | some rpc =>
          simp only [hw] at hstep
          obtain ⟨new, h1, h2⟩ := reapWrite_frame hs hi hw hq hstep
          exact ⟨some r, new, rfl, h1, h2⟩

/-- What `performFree` does to the table of segments. -/
theorem performFree_frame {c : Collaborators} {e e1 : ReplicaManager} {h i : Nat}
    {s : ReplicatedSegment} {outcome : RpcOutcome} (hs : e.getSegment h = some s)
    (hstep : performFree c e h i outcome = some e1) :
    ∃ old new, s.replicas[i]? = some old ∧ SlotStep s outcome old new ∧ Frame h i new e e1 := by
  unfold performFree at hstep
  rw [hs] at hstep
  dsimp only at hstep
  cases hi : s.replicas[i]? with
  | none => simp only [hi] at hstep; cases hstep
  | some slot =>
    have hsame : Frame h i slot e e := Frame.same (by rw [slotAt_of_getSegment hs]; exact hi)
    cases slot with
    | none =>
      simp only [hi] at hstep
      injection hstep with hstep; subst hstep
      exact ⟨none, none, rfl, SlotStep.same _, hsame⟩
    | some r =>
      simp only [hi] at hstep
      obtain ⟨backupId, client, sent, acked, writeRpc, freeRpc⟩ := r
      cases freeRpc with
      | some frpc =>
        cases outcome with
        | notReady =>
          simp only at hstep
          injection hstep with hstep; subst hstep
          exact ⟨_, _, rfl, SlotStep.same _, hsame.schedule h⟩
        | success =>
          simp only at hstep
          injection hstep with hstep; subst hstep
          exact ⟨_, none, rfl, SlotStep.freed _ frpc rfl, hsame.setReplica_after none⟩
        | transportFailure =>
          simp only at hstep
          injection hstep with hstep; subst hstep
          exact ⟨_, _, rfl, SlotStep.freeFailed _ frpc rfl,
            Frame.schedule (Frame.setReplica_after hsame _) h⟩
      | none =>
        cases writeRpc with
        | some rpc =>
          simp only at hstep
          cases hpw : performWrite c e h i outcome with
          | none => simp only [hpw] at hstep; cases hstep
          | some e2 =>
            simp only [hpw] at hstep
            injection hstep with hstep; subst hstep
            obtain ⟨old, new, h0, h1, h2⟩ := performWrite_frame hs hpw
            exact ⟨old, new, by rw [← hi]; exact h0, h1, h2.schedule h⟩
        | none =>
          simp only at hstep
          injection hstep with hstep; subst hstep
          exact ⟨_, _, rfl, SlotStep.freeIssued _ rfl rfl,
            Frame.schedule (Frame.setReplica_after (Frame.emit hsame
              (Event.freeRpc h i backupId)) _) h⟩


/-! ## The order of progress tuples -/

theorem Progress.le_refl (a : Progress) : a.le a = true := by
  simp [Progress.le]

theorem Progress.le_iff (a b : Progress) :
    a.le b = true ↔
      (a.opened = false ∧ b.opened = true) ∨
      (a.opened = b.opened ∧ a.bytes < b.bytes) ∨
      (a.opened = b.opened ∧ a.bytes = b.bytes ∧ (a.close = false ∨ b.close = true)) := by
  obtain ⟨ao, ab, ac⟩ := a
  obtain ⟨bo, bb, bc⟩ := b
  unfold Progress.le Progress.lt
  cases ao <;> cases bo <;> cases ac <;> cases bc <;>
    by_cases hb : ab = bb <;> simp [hb]

theorem Progress.lt_iff (a b : Progress) :
    a.lt b = true ↔
      (a.opened = false ∧ b.opened = true) ∨
      (a.opened = b.opened ∧ a.bytes < b.bytes) ∨
      (a.opened = b.opened ∧ a.bytes = b.bytes ∧ a.close = false ∧ b.close = true) := by
  obtain ⟨ao, ab, ac⟩ := a
  obtain ⟨bo, bb, bc⟩ := b
  unfold Progress.lt
  cases ao <;> cases bo <;> cases ac <;> cases bc <;>
    by_cases hb : ab = bb <;> simp [hb]

theorem Progress.le_trans {a b c : Progress} (h1 : a.le b = true) (h2 : b.le c = true) :
    a.le c = true := by
  rw [Progress.le_iff] at *
  obtain ⟨ao, ab, ac⟩ := a
  obtain ⟨bo, bb, bc⟩ := b
  obtain ⟨co, cb, cc⟩ := c
  cases ao <;> cases bo <;> cases co <;> cases ac <;> cases bc <;> cases cc <;>
    simp at * <;> omega

theorem Progress.le_of_lt {a b : Progress} (h : a.lt b = true) : a.le b = true := by
  simp [Progress.le, h]


/-! ## Arithmetic on `uint32_t` without wrap-around -/

theorem sub32_of_le {a q : Nat} (h1 : a ≤ q) (h2 : q < UINT32) : sub32 q a = q - a := by
  unfold sub32 UINT32 at *
  rw [Nat.mod_eq_of_lt (by omega : a < 4294967296)]
  omega

theorem add32_of_lt {a l : Nat} (h : a + l < UINT32) : add32 a l = a + l := by
  unfold add32; exact Nat.mod_eq_of_lt h

/-! ## The invariant is kept by every step -/

theorem SlotInv_step {s : ReplicatedSegment} {outcome : RpcOutcome} {old new : Option Replica}
    (hseg : s.queued.opened = true ∧ s.queued.bytes < UINT32 ∧ s.openLen ≤ s.queued.bytes)
    (hold : SlotInv s.queued old) (hstep : SlotStep s outcome old new) :
    SlotInv s.queued new := by
  obtain ⟨hqo, hqb, hol⟩ := hseg
  cases hstep with
  | same => exact hold
  | opened backupId session flags =>
    refine ⟨rfl, ?_, ?_, ?_, Or.inr rfl⟩
    · rw [Progress.le_iff]; exact Or.inl ⟨rfl, rfl⟩
    · rw [Progress.le_iff]
      by_cases hb : s.openLen = s.queued.bytes
      · exact Or.inr (Or.inr ⟨hqo.symm, hb, Or.inl rfl⟩)
      · exact Or.inr (Or.inl ⟨hqo.symm, by simp only; omega⟩)
    · intro hw; cases hw
  | reapedKept r rpc hrpc hne ho hop =>
    obtain ⟨h1, h2, h3, h4, h5⟩ := hold
    cases outcome with
    | notReady => exact absurd rfl ho
    | success =>
      exact ⟨h1, Progress.le_refl _, h3, fun _ => rfl, Or.inl rfl⟩
    | transportFailure =>
      exact ⟨hop, Progress.le_refl _, Progress.le_trans h2 h3, fun _ => rfl, Or.inl rfl⟩
  | reapedReset => trivial
  | written r hrpc hne hlt hfree hcl hp =>
    obtain ⟨h1, h2, h3, h4, h5⟩ := hold
    have hlt' := (Progress.lt_iff _ _).mp hlt
    have hbytes : r.sent.bytes ≤ s.queued.bytes := by
      rcases hlt' with ⟨ha, _⟩ | ⟨_, hb⟩ | ⟨_, hb, _⟩
      · rw [h1] at ha; cases ha
      · omega
      · omega
    have hsub := sub32_of_le hbytes hqb
    by_cases hbig : sub32 s.queued.bytes r.sent.bytes > s.maxBytesPerWriteRpc
    · have hnext : nextWriteRpc s r =
          { offset := r.sent.bytes, length := s.maxBytesPerWriteRpc, flags := Flags.NONE } := by
        unfold nextWriteRpc; simp only [hbig, if_true]
      rw [hnext]
      have hadd : add32 r.sent.bytes s.maxBytesPerWriteRpc
          = r.sent.bytes + s.maxBytesPerWriteRpc := add32_of_lt (by omega)
      refine ⟨h1, ?_, ?_, ?_, Or.inr hfree⟩
      · refine Progress.le_trans h2 ?_
        rw [Progress.le_iff]
        simp only [issued, hadd]
        by_cases hz : s.maxBytesPerWriteRpc = 0
        · exact Or.inr (Or.inr ⟨trivial, by omega, Or.inl hcl⟩)
        · exact Or.inr (Or.inl ⟨trivial, by omega⟩)
      · rw [Progress.le_iff]
        simp only [issued, hadd]
        exact Or.inr (Or.inl ⟨by rw [h1, hqo], by omega⟩)
      · intro hw; simp [issued] at hw
    · have hnext : nextWriteRpc s r =
          { offset := r.sent.bytes, length := sub32 s.queued.bytes r.sent.bytes,
            flags := if s.queued.close then Flags.CLOSE else Flags.NONE } := by
        unfold nextWriteRpc; simp only [hbig, if_false]
      rw [hnext]
      have hadd : add32 r.sent.bytes (sub32 s.queued.bytes r.sent.bytes) = s.queued.bytes := by
        rw [hsub, add32_of_lt (by omega)]; omega
      refine ⟨h1, ?_, ?_, ?_, Or.inr hfree⟩
      · refine Progress.le_trans h2 ?_
        rw [Progress.le_iff]
        simp only [issued, hadd]
        by_cases hz : r.sent.bytes = s.queued.bytes
        · exact Or.inr (Or.inr ⟨trivial, hz, Or.inl hcl⟩)
        · exact Or.inr (Or.inl ⟨trivial, by omega⟩)
      · rw [Progress.le_iff]
        simp only [issued, hadd]
        refine Or.inr (Or.inr ⟨by rw [h1, hqo], trivial, ?_⟩)
        cases hc : s.queued.close <;> simp
      · intro hw; simp [issued] at hw
  | freeIssued r hfr hw =>
    obtain ⟨h1, h2, h3, h4, h5⟩ := hold
    exact ⟨h1, h2, h3, h4, Or.inl hw⟩
  | freeFailed r rpc hfr =>
    obtain ⟨h1, h2, h3, h4, h5⟩ := hold
    exact ⟨h1, h2, h3, h4, Or.inr rfl⟩
  | freed => trivial


theorem SegInv_core (s : ReplicatedSegment) : SegInv s.core ↔ SegInv s := Iff.rfl

theorem Inv_of_frame {e e1 : ReplicaManager} {h i : Nat} {s : ReplicatedSegment}
    {outcome : RpcOutcome} {old new : Option Replica} (hinv : Inv e)
    (hs : e.getSegment h = some s)
    (hold : s.replicas[i]? = some old) (hstep : SlotStep s outcome old new)
    (hf : Frame h i new e e1) : Inv e1 := by
  intro h' s1 hs1
  have hf' := hf h'
  rw [hs1] at hf'
  cases hs0 : e.getSegment h' with
  | none => rw [hs0] at hf'; simp at hf'
  | some s0 =>
    rw [hs0] at hf'
    simp only [Option.map_some', Option.some.injEq] at hf'
    have hinv0 := hinv h' s0 hs0
    rw [← SegInv_core, hf']
    by_cases hh : h' = h
    · subst hh
      rw [hs] at hs0
      injection hs0 with hs0
      subst hs0
      rw [if_pos rfl]
      obtain ⟨a1, a2, a3, a4⟩ := hinv0
      refine ⟨a1, a2, a3, ?_⟩
      intro slot hslot
      rcases List.mem_or_eq_of_mem_set hslot with hmem | heq
      · exact a4 slot hmem
      · subst heq
        exact SlotInv_step (s := s) ⟨a1, a2, a3⟩ (a4 old (List.getElem?_mem hold)) hstep
    · rw [if_neg hh]
      exact hinv0

theorem Inv_of_segments_eq {e e1 : ReplicaManager} (hinv : Inv e)
    (hseg : e1.segments = e.segments) : Inv e1 := by
  intro h s hs
  rw [getSegment_of_segments_eq hseg] at hs
  exact hinv h s hs

theorem Inv_setSegment {e : ReplicaManager} (hinv : Inv e) (h : Nat) (s : ReplicatedSegment)
    (hs : SegInv s) : Inv (e.setSegment h s) := by
  intro h' s1 hs1
  rw [getSegment_setSegment] at hs1
  by_cases hh : h = h'
  · rw [if_pos hh] at hs1
    split at hs1
    · injection hs1 with hs1; subst hs1; exact hs
    · cases hs1
  · rw [if_neg hh] at hs1
    exact hinv h' s1 hs1

theorem Inv_empty : Inv ReplicaManager.empty := by
  intro h s hs
  simp [ReplicaManager.getSegment, ReplicaManager.empty] at hs

theorem Inv_construct {e : ReplicaManager} (hinv : Inv e) (masterId : ServerId)
    (segmentId openLen numReplicas maxBytesPerWriteRpc : Nat) (hol : openLen < UINT32) :
    Inv (construct e masterId segmentId openLen numReplicas maxBytesPerWriteRpc).1 := by
  intro h s hs
  simp only [construct, getSegment_schedule] at hs
  unfold ReplicaManager.getSegment at hs
  simp only at hs
  by_cases hlt : h < e.segments.length
  · rw [List.getElem?_append_left hlt] at hs
    exact hinv h s hs
  · by_cases heq : h = e.segments.length
    · subst heq
      simp at hs
      subst hs
      refine ⟨rfl, hol, Nat.le_refl _, ?_⟩
      intro slot hslot
      rw [(List.mem_replicate.mp hslot).2]
      trivial
    · rw [List.getElem?_eq_none (by simp; omega)] at hs
      simp at hs

theorem Inv_write {e e1 : ReplicaManager} {h offset : Nat} (hinv : Inv e)
    (ho : offset < UINT32) (hstep : write e h offset = some e1) : Inv e1 := by
  unfold write at hstep
  cases hs : e.getSegment h with
  | none => simp only [hs] at hstep; cases hstep
  | some s =>
    simp only [hs] at hstep
    split at hstep
    · cases hstep
    · split at hstep
      · cases hstep
      · rename_i hcl hoff
        injection hstep with hstep
        subst hstep
        refine Inv_of_segments_eq (Inv_setSegment hinv h _ ?_) (segments_schedule _ _)
        obtain ⟨a1, a2, a3, a4⟩ := hinv h s hs
        refine ⟨a1, ho, by simp only; omega, ?_⟩
        intro slot hslot
        have hsl := a4 slot hslot
        cases slot with
        | none => trivial
        | some r =>
          obtain ⟨b1, b2, b3, b4, b5⟩ := hsl
          refine ⟨b1, b2, ?_, b4, b5⟩
          refine Progress.le_trans b3 ?_
          rw [Progress.le_iff]
          by_cases hb : s.queued.bytes = offset
          · exact Or.inr (Or.inr ⟨rfl, hb, Or.inl (by simpa using hcl)⟩)
          · exact Or.inr (Or.inl ⟨rfl, by simp only; omega⟩)

theorem SegInv_close {s : ReplicatedSegment} (f : Option Nat) (hs : SegInv s) :
    SegInv { s with queued := { s.queued with close := true }, followingSegment := f } := by
  obtain ⟨a1, a2, a3, a4⟩ := hs
  refine ⟨a1, a2, a3, ?_⟩
  intro slot hslot
  have hsl := a4 slot hslot
  cases slot with
  | none => trivial
  | some r =>
    obtain ⟨b1, b2, b3, b4, b5⟩ := hsl
    refine ⟨b1, b2, ?_, b4, b5⟩
    refine Progress.le_trans b3 ?_
    rw [Progress.le_iff]
    exact Or.inr (Or.inr ⟨rfl, rfl, Or.inr rfl⟩)

theorem Inv_close {e e1 : ReplicaManager} {h : Nat} {f : Option Nat} (hinv : Inv e)
    (hstep : close e h f = some e1) : Inv e1 := by
  unfold close at hstep
  cases hs : e.getSegment h with
  | none => simp only [hs] at hstep; cases hstep
  | some s =>
    simp only [hs] at hstep
    split at hstep
    · cases hstep
    · have hinv1 : Inv (e.setSegment h
          { s with queued := { s.queued with close := true }, followingSegment := f }) :=
        Inv_setSegment hinv h _ (SegInv_close f (hinv h s hs))
      cases f with
      | none =>
        simp only at hstep
        injection hstep with hstep
        subst hstep
        exact Inv_of_segments_eq hinv1 (segments_schedule _ _)
      | some j =>
        simp only at hstep
        split at hstep
        · cases hstep
        · rename_i fs hfs
          injection hstep with hstep
          subst hstep
          refine Inv_of_segments_eq (Inv_setSegment hinv1 j _ ?_) (segments_schedule _ _)
          exact hinv1 j fs hfs

theorem Inv_destroy {e e1 : ReplicaManager} {h : Nat} (hinv : Inv e)
    (hstep : destroyAndFreeReplicatedSegment e h = some e1) : Inv e1 := by
  unfold destroyAndFreeReplicatedSegment at hstep
  split at hstep
  · cases hstep
  · injection hstep with hstep
    subst hstep
    intro h' s hs
    unfold ReplicaManager.getSegment ReplicaManager.emit at hs
    simp only [List.getElem?_set] at hs
    by_cases hh : h = h'
    · rw [if_pos hh] at hs
      split at hs <;> simp at hs
    · rw [if_neg hh] at hs
      exact hinv h' s hs

theorem Inv_step {c : Collaborators} {e e1 : ReplicaManager} (hinv : Inv e)
    (hstep : Step c e e1) : Inv e1 := by
  cases hstep with
  | construct masterId segmentId openLen numReplicas maxBytesPerWriteRpc hol =>
    exact Inv_construct hinv _ _ _ _ _ hol
  | write _ h offset ho hw => exact Inv_write hinv ho hw
  | close _ h f hc => exact Inv_close hinv hc
  | freeQueued h s hs => exact Inv_setSegment hinv h _ (hinv h s hs)
  | schedule h => exact Inv_of_segments_eq hinv (segments_schedule _ _)
  | dequeue keep => exact Inv_of_segments_eq hinv rfl
  | performWrite _ h i outcome hw =>
    cases hs : e.getSegment h with
    | none => unfold performWrite at hw; rw [hs] at hw; cases hw
    | some s =>
      obtain ⟨old, new, h0, h1, h2⟩ := performWrite_frame hs hw
      exact Inv_of_frame hinv hs h0 h1 h2
  | performFree _ h i outcome s hs _ hw =>
    obtain ⟨old, new, h0, h1, h2⟩ := performFree_frame hs hw
    exact Inv_of_frame hinv hs h0 h1 h2
  | destroy _ h hd => exact Inv_destroy hinv hd

/-- Every reachable state satisfies the invariant. -/
theorem Reachable.inv {c : Collaborators} {e : ReplicaManager} (hr : Reachable c e) : Inv e := by
  induction hr with
  | init => exact Inv_empty
  | step e e1 _ hstep ih => exact Inv_step ih hstep


/-! ## Steps keep the shape of the table -/

theorem SameShape.refl (e : ReplicaManager) : SameShape e e := fun _ => rfl

theorem SameShape.trans {e e1 e2 : ReplicaManager} (h1 : SameShape e e1)
    (h2 : SameShape e1 e2) : SameShape e e2 := fun k => (h2 k).trans (h1 k)

theorem SameShape.of_frame {e e1 : ReplicaManager} {h i : Nat} {new : Option Replica}
    (hf : Frame h i new e e1) : SameShape e e1 := by
  intro k
  have hk := hf k
  cases h1 : e1.getSegment k with
  | none =>
    rw [h1] at hk
    cases h0 : e.getSegment k with
    | none => rfl
    | some s0 => rw [h0] at hk; simp at hk
  | some s1 =>
    rw [h1] at hk
    cases h0 : e.getSegment k with
    | none => rw [h0] at hk; simp at hk
    | some s0 =>
      rw [h0] at hk
      simp only [Option.map_some', Option.some.injEq] at hk ⊢
      have hrep := congrArg ReplicatedSegment.replicas hk
      have hfq := congrArg ReplicatedSegment.freeQueued hk
      by_cases hh : k = h
      · simp only [hh, if_true, ReplicatedSegment.core] at hrep hfq
        simp [hrep, hfq]
      · simp only [hh, if_false, ReplicatedSegment.core] at hrep hfq
        simp [hrep, hfq]

theorem SameShape.of_performWrite {c : Collaborators} {e e1 : ReplicaManager} {h i : Nat}
    {outcome : RpcOutcome} (hstep : performWrite c e h i outcome = some e1) :
    SameShape e e1 := by
  cases hs : e.getSegment h with
  | none => unfold RAMCloud.performWrite at hstep; rw [hs] at hstep; cases hstep
  | some s =>
    obtain ⟨_, _, _, _, hf⟩ := performWrite_frame hs hstep
    exact SameShape.of_frame hf

theorem SameShape.of_performFree {c : Collaborators} {e e1 : ReplicaManager} {h i : Nat}
    {outcome : RpcOutcome} (hstep : performFree c e h i outcome = some e1) :
    SameShape e e1 := by
  cases hs : e.getSegment h with
  | none => unfold RAMCloud.performFree at hstep; rw [hs] at hstep; cases hstep
  | some s =>
    obtain ⟨_, _, _, _, hf⟩ := performFree_frame hs hstep
    exact SameShape.of_frame hf

theorem SameShape.of_freeLoop {c : Collaborators} {h : Nat} {net : Nat → RpcOutcome}
    (l : List Nat) {e e1 : ReplicaManager} (hstep : freeLoop c h net l e = some e1) :
    SameShape e e1 := by
  induction l generalizing e with
  | nil =>
    simp only [RAMCloud.freeLoop] at hstep
    injection hstep with hstep; subst hstep; exact SameShape.refl _
  | cons i rest ih =>
    simp only [RAMCloud.freeLoop] at hstep
    cases hp : RAMCloud.performFree c e h i (net i) with
    | none => simp only [hp] at hstep; cases hstep
    | some e2 =>
      simp only [hp] at hstep
      exact (SameShape.of_performFree hp).trans (ih hstep)

theorem SameShape.of_writeLoop {c : Collaborators} {h : Nat} {net : Nat → RpcOutcome}
    (l : List Nat) {e e1 : ReplicaManager} (hstep : writeLoop c h net l e = some e1) :
    SameShape e e1 := by
  induction l generalizing e with
  | nil =>
    simp only [RAMCloud.writeLoop] at hstep
    injection hstep with hstep; subst hstep; exact SameShape.refl _
  | cons i rest ih =>
    simp only [RAMCloud.writeLoop] at hstep
    cases hp : RAMCloud.performWrite c e h i (net i) with
    | none => simp only [hp] at hstep; cases hstep
    | some e2 =>
      simp only [hp] at hstep
      exact (SameShape.of_performWrite hp).trans (ih hstep)

theorem SameShape.getSegment {e e1 : ReplicaManager} (hsh : SameShape e e1) {k : Nat}
    {s : ReplicatedSegment} (hs : e.getSegment k = some s) :
    ∃ s1, e1.getSegment k = some s1 ∧ s1.replicas.length = s.replicas.length ∧
      s1.freeQueued = s.freeQueued := by
  have hk := hsh k
  rw [hs] at hk
  cases h1 : e1.getSegment k with
  | none => rw [h1] at hk; simp at hk
  | some s1 =>
    rw [h1] at hk
    simp only [Option.map_some', Option.some.injEq, Prod.mk.injEq] at hk
    exact ⟨s1, rfl, hk.1, hk.2⟩

/-! ## The operations of the source are sequences of atomic steps -/

theorem Reachable.freeLoop {c : Collaborators} {h : Nat} {net : Nat → RpcOutcome}
    (l : List Nat) {e e1 : ReplicaManager} {s : ReplicatedSegment}
    (hs : e.getSegment h = some s) (hfq : s.freeQueued = true) (hr : Reachable c e)
    (hstep : freeLoop c h net l e = some e1) : Reachable c e1 := by
  induction l generalizing e s with
  | nil => simp only [RAMCloud.freeLoop] at hstep; injection hstep with hstep; subst hstep; exact hr
  | cons i rest ih =>
    simp only [RAMCloud.freeLoop] at hstep
    cases hp : performFree c e h i (net i) with
    | none => simp only [hp] at hstep; cases hstep
    | some e2 =>
      simp only [hp] at hstep
      obtain ⟨s2, hs2, _, hfq2⟩ := (SameShape.of_performFree hp).getSegment hs
      exact ih hs2 (by rw [hfq2, hfq])
        (Reachable.step e e2 hr (Step.performFree e e2 h i (net i) s hs hfq hp)) hstep

theorem Reachable.writeLoop {c : Collaborators} {h : Nat} {net : Nat → RpcOutcome}
    (l : List Nat) {e e1 : ReplicaManager} (hr : Reachable c e)
    (hstep : writeLoop c h net l e = some e1) : Reachable c e1 := by
  induction l generalizing e with
  | nil => simp only [RAMCloud.writeLoop] at hstep; injection hstep with hstep; subst hstep; exact hr
  | cons i rest ih =>
    simp only [RAMCloud.writeLoop] at hstep
    cases hp : performWrite c e h i (net i) with
    | none => simp only [hp] at hstep; cases hstep
    | some e2 =>
      simp only [hp] at hstep
      exact ih (Reachable.step e e2 hr (Step.performWrite e e2 h i (net i) hp)) hstep

/-- A call of `performTask` leads from a reachable state to a reachable state. -/
theorem Reachable.performTask {c : Collaborators} {h : Nat} {net : Nat → RpcOutcome}
    {e e1 : ReplicaManager} (hr : Reachable c e)
    (hstep : performTask c e h net = some e1) : Reachable c e1 := by
  unfold RAMCloud.performTask at hstep
  cases hs : e.getSegment h with
  | none => simp only [hs] at hstep; cases hstep
  | some s =>
    simp only [hs] at hstep
    split at hstep
    · cases hl : RAMCloud.freeLoop c h net (List.range s.replicas.length) e with
      | none => simp only [hl] at hstep; cases hstep
      | some e2 =>
        simp only [hl] at hstep
        rename_i hfq
        have hr2 := Reachable.freeLoop _ hs hfq hr hl
        split at hstep
        · exact Reachable.step e2 e1 hr2 (Step.destroy e2 e1 h hstep)
        · injection hstep with hstep; subst hstep; exact hr2
    · cases hl : RAMCloud.writeLoop c h net (List.range s.replicas.length) e with
      | none => simp only [hl] at hstep; cases hstep
      | some e2 =>
        simp only [hl] at hstep
        have hr2 := Reachable.writeLoop _ hr hl
        split at hstep
        · cases hstep
        · split at hstep
          · injection hstep with hstep; subst hstep; exact hr2
          · cases hstep

theorem Reachable.runTasks {c : Collaborators} {net : Nat → Nat → RpcOutcome}
    (l : List Nat) {e e1 : ReplicaManager} (hr : Reachable c e)
    (hstep : runTasks c net l e = some e1) : Reachable c e1 := by
  induction l generalizing e with
  | nil => simp only [RAMCloud.runTasks] at hstep; injection hstep with hstep; subst hstep; exact hr
  | cons i rest ih =>
    simp only [RAMCloud.runTasks] at hstep
    cases hp : RAMCloud.performTask c e i (net i) with
    | none => simp only [hp] at hstep; cases hstep
    | some e2 =>
      simp only [hp] at hstep
      exact ih (Reachable.performTask hr hp) hstep

/-- A call of `proceed` leads from a reachable state to a reachable state. -/
theorem Reachable.proceed {c : Collaborators} {net : Nat → Nat → RpcOutcome}
    {e e1 : ReplicaManager} (hr : Reachable c e)
    (hstep : proceed c e net = some e1) : Reachable c e1 := by
  unfold RAMCloud.proceed at hstep
  refine Reachable.runTasks _ ?_ hstep
  have hd := Reachable.step e _ hr (Step.dequeue (c := c) e (fun _ => false))
  simpa using hd

theorem Reachable.freeWait {c : Collaborators} {h : Nat}
    (nets : List (Nat → Nat → RpcOutcome)) {e e1 : ReplicaManager} (hr : Reachable c e)
    (hstep : freeWait c h nets e = some e1) : Reachable c e1 := by
  induction nets generalizing e with
  | nil =>
    unfold RAMCloud.freeWait at hstep
    cases hs : e.getSegment h with
    | none => simp only [hs] at hstep; cases hstep
    | some s =>
      simp only [hs] at hstep
      split at hstep
      · cases hstep
      · injection hstep with hstep; subst hstep; exact hr
  | cons net rest ih =>
    unfold RAMCloud.freeWait at hstep
    cases hs : e.getSegment h with
    | none => simp only [hs] at hstep; cases hstep
    | some s =>
      simp only [hs] at hstep
      split at hstep
      · cases hp : RAMCloud.proceed c e net with
        | none => simp only [hp] at hstep; cases hstep
        | some e2 =>
          simp only [hp] at hstep
          exact ih (Reachable.proceed hr hp) hstep
      · injection hstep with hstep; subst hstep; exact hr

/-- A call of `free` leads from a reachable state to a reachable state. -/
theorem Reachable.free {c : Collaborators} {h : Nat} {nets : List (Nat → Nat → RpcOutcome)}
    {e e1 : ReplicaManager} (hr : Reachable c e)
    (hstep : free c e h nets = some e1) : Reachable c e1 := by
  unfold RAMCloud.free at hstep
  cases hs : e.getSegment h with
  | none => simp only [hs] at hstep; cases hstep
  | some s =>
    simp only [hs] at hstep
    cases hw : RAMCloud.freeWait c h nets (e.setSegment h { s with freeQueued := true }) with
    | none => simp only [hw] at hstep; cases hstep
    | some e2 =>
      simp only [hw] at hstep
      injection hstep with hstep
      subst hstep
      have h1 := Reachable.step e _ hr (Step.freeQueued (c := c) e h s hs)
      have h2 := Reachable.freeWait nets h1 hw
      exact Reachable.step e2 _ h2 (Step.schedule e2 h)

/-- A call of `sync` leads from a reachable state to a reachable state. -/
theorem Reachable.sync {c : Collaborators} {h offset : Nat}
    (nets : List (Nat → Nat → RpcOutcome)) {e e1 : ReplicaManager} (hr : Reachable c e)
    (hstep : sync c h offset nets e = some e1) : Reachable c e1 := by
  induction nets generalizing e with
  | nil =>
    unfold RAMCloud.sync at hstep
    cases hs : e.getSegment h with
    | none => simp only [hs] at hstep; cases hstep
    | some s =>
      simp only [hs] at hstep
      split at hstep
      · injection hstep with hstep; subst hstep; exact hr
      · cases hstep
  | cons net rest ih =>
    unfold RAMCloud.sync at hstep
    cases hs : e.getSegment h with
    | none => simp only [hs] at hstep; cases hstep
    | some s =>
      simp only [hs] at hstep
      split at hstep
      · injection hstep with hstep; subst hstep; exact hr
      · cases hp : RAMCloud.proceed c e net with
        | none => simp only [hp] at hstep; cases hstep
        | some e2 =>
          simp only [hp] at hstep
          exact ih (Reachable.proceed hr hp) hstep


/-! ## One step seen from the replica slot it was called for -/

theorem slotAt_of_frame {e e1 : ReplicaManager} {h i : Nat} {s : ReplicatedSegment}
    {old new : Option Replica} (hs : e.getSegment h = some s)
    (hold : s.replicas[i]? = some old) (hf : Frame h i new e e1) :
    e1.slotAt h i = some new := by
  have hf' := hf h
  rw [hs] at hf'
  simp only [if_true, Option.map_some'] at hf'
  unfold ReplicaManager.slotAt
  cases hs1 : e1.getSegment h with
  | none => rw [hs1] at hf'; simp at hf'
  | some s1 =>
    rw [hs1] at hf'
    simp only [Option.map_some', Option.some.injEq] at hf'
    have hrep : s1.replicas = s.replicas.set i new := by
      have := congrArg ReplicatedSegment.replicas hf'
      simpa [ReplicatedSegment.core] using this
    have hl : i < s.replicas.length := by
      by_contra hlt
      rw [List.getElem?_eq_none (by omega)] at hold
      cases hold
    simp [hrep, hl]

theorem getSegment_of_slotAt {e : ReplicaManager} {h i : Nat} {slot : Option Replica}
    (hslot : e.slotAt h i = some slot) :
    ∃ s, e.getSegment h = some s ∧ s.replicas[i]? = some slot := by
  unfold ReplicaManager.slotAt at hslot
  cases hs : e.getSegment h with
  | none => rw [hs] at hslot; cases hslot
  | some s => rw [hs] at hslot; exact ⟨s, rfl, hslot⟩

/-- A call of `performWrite` or `performFree` for a slot makes that slot take one of
the steps of `SlotStep`. -/
theorem slot_step {c : Collaborators} {e e1 : ReplicaManager} {h i : Nat}
    {outcome : RpcOutcome} {s : ReplicatedSegment} {old : Option Replica}
    (hs : e.getSegment h = some s) (hold : s.replicas[i]? = some old)
    (hstep : performWrite c e h i outcome = some e1 ∨ performFree c e h i outcome = some e1) :
    ∃ new, e1.slotAt h i = some new ∧ SlotStep s outcome old new := by
  have hfr : ∃ old' new, s.replicas[i]? = some old' ∧ SlotStep s outcome old' new ∧
      Frame h i new e e1 := by
    rcases hstep with hw | hf
    · exact performWrite_frame hs hw
    · exact performFree_frame hs hf
  obtain ⟨old', new, h0, h1, h2⟩ := hfr
  rw [hold] at h0
  injection h0 with h0
  subst h0
  exact ⟨new, slotAt_of_frame hs hold h2, h1⟩

theorem SlotInv_of_reachable {c : Collaborators} {e : ReplicaManager} {h i : Nat}
    {s : ReplicatedSegment} {slot : Option Replica} (hr : Reachable c e)
    (hs : e.getSegment h = some s) (hslot : s.replicas[i]? = some slot) :
    SlotInv s.queued slot :=
  (hr.inv h s hs).2.2.2 slot (List.getElem?_mem hslot)

/-- C16. The acknowledged progress of a replica only advances: in a reachable state,
a call of `performWrite` or of `performFree` for a replica that exists before and
after the call leaves it with `acked` at least what it was, in the order of
progress tuples. -/
theorem acked_monotone (c : Collaborators) (e e1 : ReplicaManager) (h i : Nat)
    (outcome : RpcOutcome) (r r1 : Replica) (hr : Reachable c e)
    (hstep : performWrite c e h i outcome = some e1 ∨ performFree c e h i outcome = some e1)
    (hbefore : e.slotAt h i = some (some r)) (hafter : e1.slotAt h i = some (some r1)) :
    r.acked.le r1.acked = true := by
  obtain ⟨s, hs, hold⟩ := getSegment_of_slotAt hbefore
  obtain ⟨new, hnew, hss⟩ := slot_step hs hold hstep
  rw [hafter] at hnew
  injection hnew with hnew
  subst hnew
  obtain ⟨h1, h2, h3, h4, h5⟩ := SlotInv_of_reachable hr hs hold
  generalize hn : some r1 = new at hss
  cases hss with
  | same => injection hn with hn; subst hn; exact Progress.le_refl _
  | reapedKept r rpc hrpc hne ho hop =>
    injection hn with hn; subst hn
    cases outcome with
    | notReady => exact absurd rfl ho
    | success => exact h2
    | transportFailure => exact Progress.le_refl _
  | reapedReset => cases hn
  | written r hrpc hne hlt hfree hcl hp =>
    injection hn with hn; subst hn; exact Progress.le_refl _
  | freeIssued r hfr hw => injection hn with hn; subst hn; exact Progress.le_refl _
  | freeFailed r rpc hfr => injection hn with hn; subst hn; exact Progress.le_refl _
  | freed => cases hn


/-! ## The example states are reachable -/

theorem proceed_oneReplica : proceed demoCollaborators oneReplica allSucceed = some openSent := by
  decide

theorem proceed_openSent : proceed demoCollaborators openSent allSucceed = some openAcked := by
  decide

theorem write_openAcked_proceed :
    (write openAcked 0 300).bind (fun e => proceed demoCollaborators e allSucceed)
      = some dataSent := by
  decide

theorem performWrite_dataSent :
    performWrite demoCollaborators dataSent 0 0 RpcOutcome.transportFailure
      = some dataRolledBack := by
  decide


theorem reachable_oneReplica : Reachable demoCollaborators oneReplica :=
  Reachable.step _ _ Reachable.init
    (Step.construct ReplicaManager.empty 1 10 100 1 256 (by decide))

theorem reachable_openSent : Reachable demoCollaborators openSent :=
  Reachable.proceed reachable_oneReplica proceed_oneReplica

theorem reachable_openAcked : Reachable demoCollaborators openAcked :=
  Reachable.proceed reachable_openSent proceed_openSent

theorem reachable_dataSent : Reachable demoCollaborators dataSent := by
  have hw : ∃ e, write openAcked 0 300 = some e ∧
      proceed demoCollaborators e allSucceed = some dataSent := by
    have h := write_openAcked_proceed
    cases hw : write openAcked 0 300 with
    | none => rw [hw] at h; cases h
    | some e => rw [hw] at h; exact ⟨e, rfl, h⟩
  obtain ⟨e, h1, h2⟩ := hw
  exact Reachable.proceed
    (Reachable.step _ _ reachable_openAcked (Step.write openAcked e 0 300 (by decide) h1)) h2

theorem acked_monotone_witness :
    Progress.le ⟨false, 0, false⟩ ⟨true, 100, false⟩ = true :=
  acked_monotone demoCollaborators openSent { openAcked with tasks := [0] } 0 0
    RpcOutcome.success
    { backupId := 10, client := 10, sent := ⟨true, 100, false⟩, acked := ⟨false, 0, false⟩,
      writeRpc := some ⟨0, 100, Flags.OPENPRIMARY⟩, freeRpc := none }
    { backupId := 10, client := 10, sent := ⟨true, 100, false⟩, acked := ⟨true, 100, false⟩,
      writeRpc := none, freeRpc := none }
    reachable_openSent (Or.inl (by decide)) (by decide) (by decide)

/-- C17, as stated, fails: in the reachable state `dataSent` the replica has sent the
bytes up to 300 and the backup has acknowledged the bytes up to 100; when the
outstanding write fails with a `TransportException`, `performWrite` keeps the replica
and rolls `sent` back to `(open, 100, not closed)`, which is below what it was. -/
theorem sent_rollback_counterexample :
    Reachable demoCollaborators dataSent ∧
    performWrite demoCollaborators dataSent 0 0 RpcOutcome.transportFailure
      = some dataRolledBack ∧
    dataSent.slotAt 0 0 =
      some (some { backupId := 10, client := 10, sent := ⟨true, 300, false⟩,
                   acked := ⟨true, 100, false⟩,
                   writeRpc := some ⟨100, 200, Flags.NONE⟩, freeRpc := none }) ∧
    dataRolledBack.slotAt 0 0 =
      some (some { backupId := 10, client := 10, sent := ⟨true, 100, false⟩,
                   acked := ⟨true, 100, false⟩, writeRpc := none, freeRpc := none }) ∧
    Progress.le ⟨true, 300, false⟩ ⟨true, 100, false⟩ = false ∧
    Progress.lt ⟨true, 100, false⟩ ⟨true, 300, false⟩ = true :=
  ⟨reachable_dataSent, by decide, by decide, by decide, by decide, by decide⟩

theorem sent_le_issued {s : ReplicatedSegment} {r : Replica}
    (hqb : s.queued.bytes < UINT32)
    (h1 : r.sent.opened = true) (hlt : r.sent.lt s.queued = true)
    (hcl : r.sent.close = false) :
    r.sent.le (issued r (nextWriteRpc s r)).sent = true := by
  have hlt' := (Progress.lt_iff _ _).mp hlt
  have hbytes : r.sent.bytes ≤ s.queued.bytes := by
    rcases hlt' with ⟨ha, _⟩ | ⟨_, hb⟩ | ⟨_, hb, _⟩
    · rw [h1] at ha; cases ha
    · omega
    · omega
  have hsub := sub32_of_le hbytes hqb
  rw [Progress.le_iff]
  by_cases hbig : sub32 s.queued.bytes r.sent.bytes > s.maxBytesPerWriteRpc
  · have hnext : nextWriteRpc s r =
        { offset := r.sent.bytes, length := s.maxBytesPerWriteRpc, flags := Flags.NONE } := by
      unfold nextWriteRpc; simp only [hbig, if_true]
    rw [hnext]
    have hadd : add32 r.sent.bytes s.maxBytesPerWriteRpc
        = r.sent.bytes + s.maxBytesPerWriteRpc := add32_of_lt (by omega)
    simp only [issued, hadd]
    by_cases hz : s.maxBytesPerWriteRpc = 0
    · exact Or.inr (Or.inr ⟨trivial, by omega, Or.inl hcl⟩)
    · exact Or.inr (Or.inl ⟨trivial, by omega⟩)
  · have hnext : nextWriteRpc s r =
        { offset := r.sent.bytes, length := sub32 s.queued.bytes r.sent.bytes,
          flags := if s.queued.close then Flags.CLOSE else Flags.NONE } := by
      unfold nextWriteRpc; simp only [hbig, if_false]
    rw [hnext]
    have hadd : add32 r.sent.bytes (sub32 s.queued.bytes r.sent.bytes) = s.queued.bytes := by
      rw [hsub, add32_of_lt (by omega)]; omega
    simp only [issued, hadd]
    by_cases hz : r.sent.bytes = s.queued.bytes
    · exact Or.inr (Or.inr ⟨trivial, hz, Or.inl hcl⟩)
    · exact Or.inr (Or.inl ⟨trivial, by omega⟩)

/-! ## The trace and the counter after a step -/

@[simp] theorem trace_setReplica (e : ReplicaManager) (h i : Nat) (slot : Option Replica) :
    (e.setReplica h i slot).trace = e.trace := by
  rw [setReplica_eq_modify]; simp

@[simp] theorem writeRpcsInFlight_setReplica (e : ReplicaManager) (h i : Nat)
    (slot : Option Replica) :
    (e.setReplica h i slot).writeRpcsInFlight = e.writeRpcsInFlight := by
  rw [setReplica_eq_modify]; simp

@[simp] theorem tasks_setReplica (e : ReplicaManager) (h i : Nat) (slot : Option Replica) :
    (e.setReplica h i slot).tasks = e.tasks := by
  rw [setReplica_eq_modify]; simp

theorem finishReap_trace (e : ReplicaManager) (h i : Nat) (s : ReplicatedSegment)
    (r1 : Replica) : (finishReap e h i s r1).trace = e.trace := by
  unfold finishReap
  dsimp only
  split <;> split <;> simp

theorem finishReap_writeRpcsInFlight (e : ReplicaManager) (h i : Nat) (s : ReplicatedSegment)
    (r1 : Replica) :
    (finishReap e h i s r1).writeRpcsInFlight = dec32 e.writeRpcsInFlight := by
  unfold finishReap
  dsimp only
  split <;> split <;> simp

theorem ackFollowing_trace {e e2 : ReplicaManager} {h : Nat} {s : ReplicatedSegment}
    (hstep : ackFollowing e h s = some e2) :
    e2.trace = e.trace ∧ e2.writeRpcsInFlight = e.writeRpcsInFlight ∧ e2.tasks = e.tasks := by
  unfold ackFollowing at hstep
  split at hstep
  · injection hstep with hstep; subst hstep; exact ⟨rfl, rfl, rfl⟩
  · split at hstep
    · cases hstep
    · dsimp only at hstep
      split at hstep
      · cases hstep
      · injection hstep with hstep; subst hstep; exact ⟨rfl, rfl, rfl⟩

theorem reapWrite_trace {e e1 : ReplicaManager} {h i : Nat} {s : ReplicatedSegment}
    {r : Replica} {outcome : RpcOutcome} (hstep : reapWrite e h i s r outcome = some e1) :
    e1.trace = e.trace := by
  cases outcome with
  | notReady =>
    simp only [reapWrite] at hstep
    injection hstep with hstep; subst hstep; simp
  | success =>
    simp only [reapWrite] at hstep
    split at hstep
    · cases hstep
    · rename_i e2 he2
      injection hstep with hstep; subst hstep
      rw [finishReap_trace]
      split at he2
      · rw [(ackFollowing_trace he2).1]; simp
      · injection he2 with he2; subst he2; simp
  | transportFailure =>
    simp only [reapWrite] at hstep
    injection hstep with hstep; subst hstep
    rw [finishReap_trace]; simp

/-- The branch that `performWrite` takes for a replica that exists. -/
theorem performWrite_present {c : Collaborators} {e e1 : ReplicaManager} {h i : Nat}
    {outcome : RpcOutcome} {s : ReplicatedSegment} {r : Replica}
    (hs : e.getSegment h = some s) (hi : s.replicas[i]? = some (some r))
    (hstep : performWrite c e h i outcome = some e1) :
    (r.acked = s.queued ∧ e1 = e) ∨
    (r.acked ≠ s.queued ∧ (∃ rpc, r.writeRpc = some rpc) ∧
      reapWrite e h i s r outcome = some e1) ∨
    (r.acked ≠ s.queued ∧ r.writeRpc = none ∧ issueWrite e h i s r = some e1) := by
  unfold performWrite at hstep
  rw [hs] at hstep
  simp only [hi] at hstep
  by_cases hq : r.acked = s.queued
  · rw [if_pos hq] at hstep
    injection hstep with hstep
    exact Or.inl ⟨hq, hstep.symm⟩
  · rw [if_neg hq] at hstep
    cases hw : r.writeRpc with
    | none => simp only [hw] at hstep; exact Or.inr (Or.inr ⟨hq, rfl, hstep⟩)
    | some rpc => simp only [hw] at hstep; exact Or.inr (Or.inl ⟨hq, ⟨rpc, rfl⟩, hstep⟩)

/-- While a write RPC of a replica is outstanding, a call of `performWrite` or of
`performFree` for that replica issues no RPC and asks nothing of the selector. -/
theorem trace_of_outstanding {c : Collaborators} {e e1 : ReplicaManager} {h i : Nat}
    {outcome : RpcOutcome} {r : Replica} {rpc : WriteRpc}
    (hbefore : e.slotAt h i = some (some r)) (hrpc : r.writeRpc = some rpc)
    (hstep : performWrite c e h i outcome = some e1 ∨ performFree c e h i outcome = some e1) :
    e1.trace = e.trace := by
  obtain ⟨s, hs, hi⟩ := getSegment_of_slotAt hbefore
  have hw : ∀ e2, performWrite c e h i outcome = some e2 → e2.trace = e.trace := by
    intro e2 h2
    rcases performWrite_present hs hi h2 with ⟨_, he⟩ | ⟨_, _, hreap⟩ | ⟨_, hnone, _⟩
    · rw [he]
    · exact reapWrite_trace hreap
    · rw [hrpc] at hnone; cases hnone
  rcases hstep with hpw | hpf
  · exact hw e1 hpw
  · unfold performFree at hpf
    rw [hs] at hpf
    simp only [hi] at hpf
    cases hfr : r.freeRpc with
    | some frpc =>
      simp only [hfr] at hpf
      cases outcome <;> simp only at hpf <;> injection hpf with hpf <;> subst hpf <;> simp
    | none =>
      simp only [hfr, hrpc] at hpf
      cases hpw : performWrite c e h i outcome with
      | none => simp only [hpw] at hpf; cases hpf
      | some e2 =>
        simp only [hpw] at hpf
        injection hpf with hpf; subst hpf
        simp [hw e2 hpw]

theorem nextWriteRpc_offset (s : ReplicatedSegment) (r : Replica) :
    (nextWriteRpc s r).offset = r.sent.bytes := by
  unfold nextWriteRpc
  dsimp only
  split <;> rfl

/-- C18. Writes to a replica are contiguous and in order. In every reachable state a
replica with no write RPC outstanding has `sent = acked`; a call of `performWrite` or
`performFree` that leaves the replica with a write RPC it did not have before found
no write RPC outstanding, and this RPC starts at `acked.bytes`; and a call for a
replica with a write RPC outstanding issues no RPC and leaves that RPC or none. -/
theorem writes_contiguous (c : Collaborators) (e : ReplicaManager) (hr : Reachable c e) :
    (∀ h i r, e.slotAt h i = some (some r) → r.writeRpc = none → r.sent = r.acked) ∧
    (∀ h i outcome e1 r r1 rpc,
      (performWrite c e h i outcome = some e1 ∨ performFree c e h i outcome = some e1) →
      e.slotAt h i = some (some r) → e1.slotAt h i = some (some r1) →
      r1.writeRpc = some rpc → r.writeRpc ≠ some rpc →
      r.writeRpc = none ∧ rpc.offset = r.acked.bytes ∧ rpc.offset = r.sent.bytes) ∧
    (∀ h i outcome e1 r rpc0,
      (performWrite c e h i outcome = some e1 ∨ performFree c e h i outcome = some e1) →
      e.slotAt h i = some (some r) → r.writeRpc = some rpc0 →
      e1.trace = e.trace ∧
      ∀ r1, e1.slotAt h i = some (some r1) →
        r1.writeRpc = none ∨ r1.writeRpc = some rpc0) := by
  refine ⟨?_, ?_, ?_⟩
  · intro h i r hslot hnone
    obtain ⟨s, hs, hi⟩ := getSegment_of_slotAt hslot
    exact (SlotInv_of_reachable hr hs hi).2.2.2.1 hnone
  · intro h i outcome e1 r r1 rpc hstep hbefore hafter hnew hold
    obtain ⟨s, hs, hi⟩ := getSegment_of_slotAt hbefore
    obtain ⟨new, hnew', hss⟩ := slot_step hs hi hstep
    rw [hafter] at hnew'
    injection hnew' with hnew'
    subst hnew'
    obtain ⟨h1, h2, h3, h4, h5⟩ := SlotInv_of_reachable hr hs hi
    generalize hn : some r1 = new at hss
    cases hss with
    | same => injection hn with hn; subst hn; exact absurd hnew hold
    | reapedKept r rpc1 hrpc hne ho hop =>
      injection hn with hn; subst hn; cases hnew
    | reapedReset => cases hn
    | written r hrpc hne hlt hfree hcl hp =>
      injection hn with hn; subst hn
      simp only [issued, Option.some.injEq] at hnew
      subst hnew
      rw [nextWriteRpc_offset]
      exact ⟨hrpc, by rw [h4 hrpc], rfl⟩
    | freeIssued r hfr hw => injection hn with hn; subst hn; exact absurd hnew hold
    | freeFailed r frpc hfr => injection hn with hn; subst hn; exact absurd hnew hold
    | freed => cases hn
  · intro h i outcome e1 r rpc0 hstep hbefore hrpc0
    refine ⟨trace_of_outstanding hbefore hrpc0 hstep, ?_⟩
    intro r1 hafter
    obtain ⟨s, hs, hi⟩ := getSegment_of_slotAt hbefore
    obtain ⟨new, hnew', hss⟩ := slot_step hs hi hstep
    rw [hafter] at hnew'
    injection hnew' with hnew'
    subst hnew'
    generalize hn : some r1 = new at hss
    cases hss with
    | same => injection hn with hn; subst hn; exact Or.inr hrpc0
    | reapedKept r rpc1 hrpc hne ho hop => injection hn with hn; subst hn; exact Or.inl rfl
    | reapedReset => cases hn
    | written r hrpc hne hlt hfree hcl hp => rw [hrpc] at hrpc0; cases hrpc0
    | freeIssued r hfr hw => rw [hw] at hrpc0; cases hrpc0
    | freeFailed r frpc hfr => injection hn with hn; subst hn; exact Or.inr hrpc0
    | freed => cases hn

theorem writes_contiguous_witness :
    (∀ h i r, dataSent.slotAt h i = some (some r) → r.writeRpc = none → r.sent = r.acked) ∧
    (∀ h i outcome e1 r r1 rpc,
      (performWrite demoCollaborators dataSent h i outcome = some e1 ∨
        performFree demoCollaborators dataSent h i outcome = some e1) →
      dataSent.slotAt h i = some (some r) → e1.slotAt h i = some (some r1) →
      r1.writeRpc = some rpc → r.writeRpc ≠ some rpc →
      r.writeRpc = none ∧ rpc.offset = r.acked.bytes ∧ rpc.offset = r.sent.bytes) ∧
    (∀ h i outcome e1 r rpc0,
      (performWrite demoCollaborators dataSent h i outcome = some e1 ∨
        performFree demoCollaborators dataSent h i outcome = some e1) →
      dataSent.slotAt h i = some (some r) → r.writeRpc = some rpc0 →
      e1.trace = dataSent.trace ∧
      ∀ r1, e1.slotAt h i = some (some r1) →
        r1.writeRpc = none ∨ r1.writeRpc = some rpc0) :=
  writes_contiguous demoCollaborators dataSent reachable_dataSent


/-! ## The branches of `performWrite` in closed form -/

theorem collectConflicts_eq (n : Nat) (l : List (Option Replica)) (acc : List ServerId)
    (hlen : acc.length + (presentIds l).length < n) :
    collectConflicts n l acc = some (acc ++ presentIds l) := by
  induction l generalizing acc with
  | nil => simp [collectConflicts, presentIds]
  | cons slot rest ih =>
    cases slot with
    | none =>
      have hp : presentIds (none :: rest) = presentIds rest := by simp [presentIds]
      rw [hp] at hlen ⊢
      simp only [collectConflicts]
      rw [if_pos (by omega)]
      exact ih acc hlen
    | some r =>
      have hp : presentIds (some r :: rest) = r.backupId :: presentIds rest := by
        simp [presentIds]
      rw [hp] at hlen ⊢
      simp only [collectConflicts]
      have hl : (acc ++ [r.backupId]).length + (presentIds rest).length < n := by
        simp at hlen ⊢; omega
      rw [if_pos (by simp at hl ⊢; omega)]
      rw [ih (acc ++ [r.backupId]) hl]
      simp

theorem presentIds_length_le (l : List (Option Replica)) :
    (presentIds l).length ≤ l.length := by
  unfold presentIds; exact List.length_filterMap_le _ _

theorem presentIds_length_lt {l : List (Option Replica)} {i : Nat} (hi : l[i]? = some none) :
    (presentIds l).length < l.length := by
  induction l generalizing i with
  | nil => simp at hi
  | cons slot rest ih =>
    cases i with
    | zero =>
      simp at hi
      subst hi
      have := presentIds_length_le rest
      simp [presentIds] at this ⊢
      omega
    | succ j =>
      simp at hi
      have := ih hi
      cases slot with
      | none => simp [presentIds] at this ⊢; omega
      | some r => simp [presentIds] at this ⊢; omega

/-- The opening of a replica in closed form. -/
theorem openReplica_eq {c : Collaborators} {e : ReplicaManager} {h i : Nat}
    {s : ReplicatedSegment} (hi : s.replicas[i]? = some none)
    (hw : e.writeRpcsInFlight ≠ c.MAX_WRITE_RPCS_IN_FLIGHT) :
    openReplica c e h i s =
      some (((({ ((e.emit (if i = 0 then Event.selectPrimary (presentIds s.replicas)
                    else Event.selectSecondary (presentIds s.replicas))).emit
                (Event.writeRpc h i
                  (if i = 0 then c.selectPrimary (presentIds s.replicas)
                    else c.selectSecondary (presentIds s.replicas))
                  { offset := 0, length := s.openLen,
                    flags := if i = 0 then Flags.OPENPRIMARY else Flags.OPEN })) with
              writeRpcsInFlight := inc32 e.writeRpcsInFlight } : ReplicaManager).setReplica h i
            (some { backupId := if i = 0 then c.selectPrimary (presentIds s.replicas)
                      else c.selectSecondary (presentIds s.replicas),
                    client := c.getSession
                      (if i = 0 then c.selectPrimary (presentIds s.replicas)
                        else c.selectSecondary (presentIds s.replicas)),
                    sent := ⟨true, s.openLen, false⟩, acked := ⟨false, 0, false⟩,
                    writeRpc :=
                      some { offset := 0, length := s.openLen,
                             flags := if i = 0 then Flags.OPENPRIMARY else Flags.OPEN },
                    freeRpc := none })).schedule h)) := by
  unfold openReplica
  rw [if_neg hw]
  have hc := collectConflicts_eq s.replicas.length s.replicas []
    (by simpa using presentIds_length_lt hi)
  simp only [List.nil_append] at hc
  rw [hc]
  by_cases h0 : i = 0 <;> simp [h0, Replica.construct, Progress.zero]


theorem fragmentedRun_trace :
    fragmentedRun.map (fun e => (writeRpcsOf e.trace 0 0, writeRpcsOf e.trace 0 1)) =
      some ([⟨0, 100, Flags.OPENPRIMARY⟩, ⟨100, 256, Flags.NONE⟩, ⟨356, 256, Flags.NONE⟩,
             ⟨612, 256, Flags.NONE⟩, ⟨868, 132, Flags.CLOSE⟩],
            [⟨0, 100, Flags.OPEN⟩, ⟨100, 256, Flags.NONE⟩, ⟨356, 256, Flags.NONE⟩,
             ⟨612, 256, Flags.NONE⟩, ⟨868, 132, Flags.CLOSE⟩]) := by
  decide


@[simp] theorem slotAt_schedule (e : ReplicaManager) (k h i : Nat) :
    (e.schedule k).slotAt h i = e.slotAt h i := by
  unfold ReplicaManager.slotAt; rw [getSegment_schedule]

@[simp] theorem slotAt_emit (e : ReplicaManager) (ev : Event) (h i : Nat) :
    (e.emit ev).slotAt h i = e.slotAt h i := rfl

theorem slotAt_setReplica_self {e : ReplicaManager} {h i : Nat} (old : Option Replica)
    (hold : e.slotAt h i = some old) (slot : Option Replica) :
    (e.setReplica h i slot).slotAt h i = some slot := by
  rw [slotAt_modify_replicas, if_pos rfl, hold]; rfl

/-- The last branch of `performWrite` either only schedules the segment or sends the
write RPC computed by `nextWriteRpc`. -/
theorem issueWrite_cases {e e1 : ReplicaManager} {h i : Nat} {s : ReplicatedSegment}
    {r : Replica} (hstep : issueWrite e h i s r = some e1) :
    r.sent.lt s.queued = true ∧ r.freeRpc = none ∧ r.sent.close = false ∧
    (e1 = e.schedule h ∨
      (s.precedingSegmentCloseAcked = true ∧
        e1 = ((e.emit (Event.writeRpc h i r.backupId (nextWriteRpc s r))).setReplica h i
          (some (issued r (nextWriteRpc s r)))).schedule h)) := by
  unfold issueWrite at hstep
  by_cases hlt : r.sent.lt s.queued = true
  · rw [if_pos hlt] at hstep
    by_cases hfree : r.freeRpc.isSome = true
    · rw [if_pos hfree] at hstep; cases hstep
    · rw [if_neg hfree] at hstep
      have hfree' : r.freeRpc = none := by
        cases hfr : r.freeRpc with
        | none => rfl
        | some x => rw [hfr] at hfree; simp at hfree
      by_cases hcl : r.sent.close = true
      · rw [if_pos hcl] at hstep; cases hstep
      · rw [if_neg hcl] at hstep
        refine ⟨hlt, hfree', by simpa using hcl, ?_⟩
        by_cases hp : s.precedingSegmentCloseAcked = false
        · rw [if_pos hp] at hstep
          injection hstep with hstep
          exact Or.inl hstep.symm
        · rw [if_neg hp] at hstep
          dsimp only at hstep
          split at hstep
          · cases hstep
          · injection hstep with hstep; exact Or.inl hstep.symm
          · injection hstep with hstep
            exact Or.inr ⟨by simpa using hp, hstep.symm⟩
  · rw [if_neg hlt] at hstep; cases hstep

theorem sent_bytes_le_of_inv {s : ReplicatedSegment} {r : Replica}
    (hseg : SegInv s) (hslot : SlotInv s.queued (some r)) :
    r.sent.bytes ≤ s.queued.bytes ∧ s.queued.bytes < UINT32 := by
  obtain ⟨a1, a2, _, _⟩ := hseg
  obtain ⟨h1, _, h3, _, _⟩ := hslot
  refine ⟨?_, a2⟩
  rcases (Progress.le_iff _ _).mp h3 with ⟨ha, _⟩ | ⟨_, hb⟩ | ⟨_, hb, _⟩
  · rw [h1] at ha; cases ha
  · omega
  · omega

/-- Offset, length and flags of `nextWriteRpc` when `sent.bytes ≤ queued.bytes < 2^32`. -/
theorem nextWriteRpc_shape {s : ReplicatedSegment} {r : Replica}
    (hle : r.sent.bytes ≤ s.queued.bytes) (hq : s.queued.bytes < UINT32) :
    (nextWriteRpc s r).offset = r.sent.bytes ∧
    (nextWriteRpc s r).length = min (s.queued.bytes - r.sent.bytes) s.maxBytesPerWriteRpc ∧
    ((nextWriteRpc s r).flags = Flags.CLOSE ↔
      (s.queued.close = true ∧ s.queued.bytes - r.sent.bytes ≤ s.maxBytesPerWriteRpc)) ∧
    ((nextWriteRpc s r).flags ≠ Flags.CLOSE → (nextWriteRpc s r).flags = Flags.NONE) ∧
    ((nextWriteRpc s r).flags = Flags.CLOSE →
      (nextWriteRpc s r).offset + (nextWriteRpc s r).length = s.queued.bytes) := by
  have hsub := sub32_of_le hle hq
  unfold nextWriteRpc
  dsimp only
  rw [hsub]
  by_cases hbig : s.queued.bytes - r.sent.bytes > s.maxBytesPerWriteRpc
  · simp only [hbig, if_true]
    refine ⟨trivial, by omega, ?_, fun _ => trivial, fun hc => by cases hc⟩
    constructor
    · intro hc; cases hc
    · intro ⟨_, hx⟩; omega
  · simp only [hbig, if_false]
    refine ⟨trivial, by omega, ?_, ?_, ?_⟩
    · cases hc : s.queued.close
      · simp
      · simp; omega
    · cases hc : s.queued.close <;> simp
    · intro _; omega

/-- C14. In a reachable state, a write RPC that `performWrite` issues for a replica
that already exists starts at `sent.bytes`, is `min(queued.bytes - sent.bytes,
maxBytesPerWriteRpc)` long, carries `CLOSE` exactly when the segment is closed and
the remaining bytes fit one RPC (it then ends at `queued.bytes`), and `NONE`
otherwise. For `openLen = 100`, `queued = (open, 1000, closed)` and at most 256 bytes
per RPC, with backups that acknowledge everything, the RPCs of each replica are the
opening `(0,100)`, then `NONE(100,256)`, `NONE(356,256)`, `NONE(612,256)` and
`CLOSE(868,132)`; the opening RPC of the primary carries `OPENPRIMARY`, that of the
other replica `OPEN`. -/
theorem data_write_rpc_shape :
    (∀ (c : Collaborators) (e e1 : ReplicaManager) (h i : Nat) (outcome : RpcOutcome)
        (s : ReplicatedSegment) (r r1 : Replica) (rpc : WriteRpc),
      Reachable c e → e.getSegment h = some s → s.replicas[i]? = some (some r) →
      r.writeRpc = none → performWrite c e h i outcome = some e1 →
      e1.slotAt h i = some (some r1) → r1.writeRpc = some rpc →
      rpc.offset = r.sent.bytes ∧
      r.sent.bytes ≤ s.queued.bytes ∧
      rpc.length = min (s.queued.bytes - r.sent.bytes) s.maxBytesPerWriteRpc ∧
      (rpc.flags = Flags.CLOSE ↔
        (s.queued.close = true ∧ s.queued.bytes - r.sent.bytes ≤ s.maxBytesPerWriteRpc)) ∧
      (rpc.flags ≠ Flags.CLOSE → rpc.flags = Flags.NONE) ∧
      (rpc.flags = Flags.CLOSE → rpc.offset + rpc.length = s.queued.bytes) ∧
      e1.trace = e.trace ++ [Event.writeRpc h i r.backupId rpc]) ∧
    fragmentedRun.map (fun e => (writeRpcsOf e.trace 0 0, writeRpcsOf e.trace 0 1)) =
      some ([⟨0, 100, Flags.OPENPRIMARY⟩, ⟨100, 256, Flags.NONE⟩, ⟨356, 256, Flags.NONE⟩,
             ⟨612, 256, Flags.NONE⟩, ⟨868, 132, Flags.CLOSE⟩],
            [⟨0, 100, Flags.OPEN⟩, ⟨100, 256, Flags.NONE⟩, ⟨356, 256, Flags.NONE⟩,
             ⟨612, 256, Flags.NONE⟩, ⟨868, 132, Flags.CLOSE⟩]) := by
  refine ⟨?_, by decide⟩
  intro c e e1 h i outcome s r r1 rpc hr hs hi hnone hstep hafter hnew
  have hslot : e.slotAt h i = some (some r) := by rw [slotAt_of_getSegment hs]; exact hi
  have hinv := sent_bytes_le_of_inv (hr.inv h s hs) (SlotInv_of_reachable hr hs hi)
  rcases performWrite_present hs hi hstep with ⟨_, he⟩ | ⟨_, ⟨rpc0, hrpc0⟩, _⟩ | ⟨_, _, hiss⟩
  · subst he
    rw [hslot] at hafter
    injection hafter with hafter; injection hafter with hafter
    subst hafter
    rw [hnone] at hnew; cases hnew
  · rw [hnone] at hrpc0; cases hrpc0
  · obtain ⟨_, _, _, hcase⟩ := issueWrite_cases hiss
    rcases hcase with he | ⟨_, he⟩
    · subst he
      rw [slotAt_schedule, hslot] at hafter
      injection hafter with hafter; injection hafter with hafter
      subst hafter
      rw [hnone] at hnew; cases hnew
    · subst he
      rw [slotAt_schedule, slotAt_setReplica_self (some r) (by simpa using hslot)] at hafter
      injection hafter with hafter; injection hafter with hafter
      subst hafter
      simp only [issued, Option.some.injEq] at hnew
      subst hnew
      obtain ⟨n1, n2, n3, n4, n5⟩ := nextWriteRpc_shape hinv.1 hinv.2
      exact ⟨n1, hinv.1, n2, n3, n4, n5, by simp⟩


theorem write_openAcked : write openAcked 0 300 = some dataQueued := by decide

theorem reachable_dataQueued : Reachable demoCollaborators dataQueued :=
  Reachable.step _ _ reachable_openAcked
    (Step.write openAcked dataQueued 0 300 (by decide) write_openAcked)

theorem data_write_rpc_shape_witness :
    (100 : Nat) = 100 ∧ 100 ≤ 300 ∧ (200 : Nat) = min (300 - 100) 256 ∧
    (Flags.NONE = Flags.CLOSE ↔ (false = true ∧ 300 - 100 ≤ 256)) ∧
    (Flags.NONE ≠ Flags.CLOSE → Flags.NONE = Flags.NONE) ∧
    (Flags.NONE = Flags.CLOSE → 100 + 200 = 300) ∧
    dataSent.trace = dataQueued.trace ++ [Event.writeRpc 0 0 10 ⟨100, 200, Flags.NONE⟩] :=
  data_write_rpc_shape.1 demoCollaborators dataQueued dataSent 0 0 RpcOutcome.success
    { masterId := 1, segmentId := 10, openLen := 100, maxBytesPerWriteRpc := 256,
      queued := ⟨true, 300, false⟩, freeQueued := false, followingSegment := none,
      precedingSegmentCloseAcked := true,
      replicas :=
        [some { backupId := 10, client := 10, sent := ⟨true, 100, false⟩,
                acked := ⟨true, 100, false⟩, writeRpc := none, freeRpc := none }] }
    { backupId := 10, client := 10, sent := ⟨true, 100, false⟩,
      acked := ⟨true, 100, false⟩, writeRpc := none, freeRpc := none }
    { backupId := 10, client := 10, sent := ⟨true, 300, false⟩,
      acked := ⟨true, 100, false⟩,
      writeRpc := some ⟨100, 200, Flags.NONE⟩, freeRpc := none }
    ⟨100, 200, Flags.NONE⟩
    reachable_dataQueued (by decide) (by decide) rfl (by decide) (by decide) rfl


/-! ## The run of `happyPathRun`, step by step -/

theorem happyPath_write (m : Nat) :
    write (construct ReplicaManager.empty 1 10 100 2 m).1 0 500 =
      some (twoReplicas m 500 none none [0] 0 []) := by
  simp [write, construct, ReplicaManager.empty, ReplicaManager.getSegment,
    ReplicaManager.schedule, ReplicaManager.setSegment, twoReplicas, List.replicate]

theorem happyPath_open (m : Nat) :
    proceed demoCollaborators (twoReplicas m 500 none none [0] 0 []) allSucceed =
      some (twoReplicas m 500
        (some { backupId := 10, client := 10, sent := ⟨true, 100, false⟩,
                acked := ⟨false, 0, false⟩,
                writeRpc := some ⟨0, 100, Flags.OPENPRIMARY⟩, freeRpc := none })
        (some { backupId := 21, client := 21, sent := ⟨true, 100, false⟩,
                acked := ⟨false, 0, false⟩,
                writeRpc := some ⟨0, 100, Flags.OPEN⟩, freeRpc := none })
        [0] 2 openingTrace) := by
  have h1 : inc32 0 = 1 := by decide
  have h2 : inc32 1 = 2 := by decide
  simp [proceed, runTasks, performTask, writeLoop, List.range, List.range.loop, twoReplicas,
    ReplicaManager.getSegment, performWrite, openReplica, demoCollaborators, collectConflicts,
    ReplicaManager.emit, ReplicaManager.setReplica, ReplicaManager.setSegment,
    ReplicaManager.schedule, Replica.construct, Progress.zero, h1, h2,
    ReplicatedSegment.isSynced, ReplicaManager.isScheduled, openingTrace]

theorem happyPath_opened (m : Nat) :
    proceed demoCollaborators
      (twoReplicas m 500
        (some { backupId := 10, client := 10, sent := ⟨true, 100, false⟩,
                acked := ⟨false, 0, false⟩,
                writeRpc := some ⟨0, 100, Flags.OPENPRIMARY⟩, freeRpc := none })
        (some { backupId := 21, client := 21, sent := ⟨true, 100, false⟩,
                acked := ⟨false, 0, false⟩,
                writeRpc := some ⟨0, 100, Flags.OPEN⟩, freeRpc := none })
        [0] 2 openingTrace) allSucceed =
      some (twoReplicas m 500
        (some { backupId := 10, client := 10, sent := ⟨true, 100, false⟩,
                acked := ⟨true, 100, false⟩, writeRpc := none, freeRpc := none })
        (some { backupId := 21, client := 21, sent := ⟨true, 100, false⟩,
                acked := ⟨true, 100, false⟩, writeRpc := none, freeRpc := none })
        [0] 0 openingTrace) := by
  have h1 : dec32 2 = 1 := by decide
  have h2 : dec32 1 = 0 := by decide
  simp [proceed, runTasks, performTask, writeLoop, List.range, List.range.loop, twoReplicas,
    ReplicaManager.getSegment, performWrite, reapWrite, finishReap, allSucceed,
    ReplicaManager.setReplica, ReplicaManager.setSegment,
    ReplicaManager.schedule, h1, h2,
    ReplicatedSegment.isSynced, ReplicaManager.isScheduled]

theorem happyPath_acked (m : Nat) :
    proceed demoCollaborators
      (twoReplicas m 500
        (some { backupId := 10, client := 10, sent := ⟨true, 500, false⟩,
                acked := ⟨true, 100, false⟩,
                writeRpc := some ⟨100, 400, Flags.NONE⟩, freeRpc := none })
        (some { backupId := 21, client := 21, sent := ⟨true, 500, false⟩,
                acked := ⟨true, 100, false⟩,
                writeRpc := some ⟨100, 400, Flags.NONE⟩, freeRpc := none })
        [0] 0 happyPathTrace) allSucceed =
      some (twoReplicas m 500
        (some { backupId := 10, client := 10, sent := ⟨true, 500, false⟩,
                acked := ⟨true, 500, false⟩, writeRpc := none, freeRpc := none })
        (some { backupId := 21, client := 21, sent := ⟨true, 500, false⟩,
                acked := ⟨true, 500, false⟩, writeRpc := none, freeRpc := none })
        [] 4294967294 happyPathTrace) := by
  have h1 : dec32 0 = 4294967295 := by decide
  have h2 : dec32 4294967295 = 4294967294 := by decide
  simp [proceed, runTasks, performTask, writeLoop, List.range, List.range.loop, twoReplicas,
    ReplicaManager.getSegment, performWrite, reapWrite, finishReap, allSucceed,
    ReplicaManager.setReplica, ReplicaManager.setSegment,
    ReplicaManager.schedule, h1, h2,
    ReplicatedSegment.isSynced, ReplicaManager.isScheduled]


theorem happyPath_data0 (m : Nat) (hm : 400 ≤ m) :
    performWrite demoCollaborators
      (twoReplicas m 500
        (some { backupId := 10, client := 10, sent := ⟨true, 100, false⟩,
                acked := ⟨true, 100, false⟩, writeRpc := none, freeRpc := none })
        (some { backupId := 21, client := 21, sent := ⟨true, 100, false⟩,
                acked := ⟨true, 100, false⟩, writeRpc := none, freeRpc := none })
        [] 0 openingTrace) 0 0 RpcOutcome.success =
      some (twoReplicas m 500
        (some { backupId := 10, client := 10, sent := ⟨true, 500, false⟩,
                acked := ⟨true, 100, false⟩,
                writeRpc := some ⟨100, 400, Flags.NONE⟩, freeRpc := none })
        (some { backupId := 21, client := 21, sent := ⟨true, 100, false⟩,
                acked := ⟨true, 100, false⟩, writeRpc := none, freeRpc := none })
        [0] 0 (openingTrace ++ [Event.writeRpc 0 0 10 ⟨100, 400, Flags.NONE⟩])) := by
  have h1 : ¬ (400 > m) := by omega
  have h2 : sub32 500 100 = 400 := by decide
  have h3 : add32 100 400 = 500 := by decide
  simp [twoReplicas, ReplicaManager.getSegment, performWrite, issueWrite, Progress.lt,
    nextWriteRpc, h2, h1, h3, ReplicaManager.emit, ReplicaManager.setReplica,
    ReplicaManager.setSegment, ReplicaManager.schedule, issued]


theorem happyPath_data1 (m : Nat) (hm : 400 ≤ m) :
    performWrite demoCollaborators
      (twoReplicas m 500
        (some { backupId := 10, client := 10, sent := ⟨true, 500, false⟩,
                acked := ⟨true, 100, false⟩,
                writeRpc := some ⟨100, 400, Flags.NONE⟩, freeRpc := none })
        (some { backupId := 21, client := 21, sent := ⟨true, 100, false⟩,
                acked := ⟨true, 100, false⟩, writeRpc := none, freeRpc := none })
        [0] 0 (openingTrace ++ [Event.writeRpc 0 0 10 ⟨100, 400, Flags.NONE⟩]))
      0 1 RpcOutcome.success =
      some (twoReplicas m 500
        (some { backupId := 10, client := 10, sent := ⟨true, 500, false⟩,
                acked := ⟨true, 100, false⟩,
                writeRpc := some ⟨100, 400, Flags.NONE⟩, freeRpc := none })
        (some { backupId := 21, client := 21, sent := ⟨true, 500, false⟩,
                acked := ⟨true, 100, false⟩,
                writeRpc := some ⟨100, 400, Flags.NONE⟩, freeRpc := none })
        [0] 0 happyPathTrace) := by
  have h1 : ¬ (400 > m) := by omega
  have h2 : sub32 500 100 = 400 := by decide
  have h3 : add32 100 400 = 500 := by decide
  simp [twoReplicas, ReplicaManager.getSegment, performWrite, issueWrite, Progress.lt,
    nextWriteRpc, h2, h1, h3, ReplicaManager.emit, ReplicaManager.setReplica,
    ReplicaManager.setSegment, ReplicaManager.schedule, issued, openingTrace, happyPathTrace]

/-- `performTask` of a segment with two replica slots that is not being freed. -/
theorem performTask_two_writes {c : Collaborators} {e e1 e2 : ReplicaManager} {h : Nat}
    {net : Nat → RpcOutcome} {s : ReplicatedSegment} (hs : e.getSegment h = some s)
    (hfree : s.freeQueued = false) (hlen : s.replicas.length = 2)
    (h0 : performWrite c e h 0 (net 0) = some e1)
    (h1 : performWrite c e1 h 1 (net 1) = some e2)
    (hsched : (∃ s2, e2.getSegment h = some s2 ∧ s2.isSynced = true) ∨
      ((∃ s2, e2.getSegment h = some s2) ∧ e2.isScheduled h = true)) :
    performTask c e h net = some e2 := by
  unfold performTask
  rw [hs]
  simp only [hfree, hlen, Bool.false_eq_true, if_false]
  have hr : List.range 2 = [0, 1] := by decide
  rw [hr]
  simp only [writeLoop, h0, h1]
  rcases hsched with ⟨s2, hs2, hsync⟩ | ⟨⟨s2, hs2⟩, hsch⟩
  · simp [hs2, hsync]
  · simp [hs2, hsch]

/-- `proceed` when exactly one task is scheduled. -/
theorem proceed_single {c : Collaborators} {e e1 : ReplicaManager} {h : Nat}
    {net : Nat → Nat → RpcOutcome} (ht : e.tasks = [h])
    (hp : performTask c { e with tasks := [] } h (net h) = some e1) :
    proceed c e net = some e1 := by
  unfold proceed
  rw [ht]
  simp only [runTasks, hp]

theorem happyPath_data (m : Nat) (hm : 400 ≤ m) :
    proceed demoCollaborators
      (twoReplicas m 500
        (some { backupId := 10, client := 10, sent := ⟨true, 100, false⟩,
                acked := ⟨true, 100, false⟩, writeRpc := none, freeRpc := none })
        (some { backupId := 21, client := 21, sent := ⟨true, 100, false⟩,
                acked := ⟨true, 100, false⟩, writeRpc := none, freeRpc := none })
        [0] 0 openingTrace) allSucceed =
      some (twoReplicas m 500
        (some { backupId := 10, client := 10, sent := ⟨true, 500, false⟩,
                acked := ⟨true, 100, false⟩,
                writeRpc := some ⟨100, 400, Flags.NONE⟩, freeRpc := none })
        (some { backupId := 21, client := 21, sent := ⟨true, 500, false⟩,
                acked := ⟨true, 100, false⟩,
                writeRpc := some ⟨100, 400, Flags.NONE⟩, freeRpc := none })
        [0] 0 happyPathTrace) := by
  refine proceed_single rfl ?_
  exact performTask_two_writes (s :=
      { masterId := 1, segmentId := 10, openLen := 100, maxBytesPerWriteRpc := m,
        queued := ⟨true, 500, false⟩, freeQueued := false,
        followingSegment := none, precedingSegmentCloseAcked := true,
        replicas :=
          [some { backupId := 10, client := 10, sent := ⟨true, 100, false⟩,
                  acked := ⟨true, 100, false⟩, writeRpc := none, freeRpc := none },
           some { backupId := 21, client := 21, sent := ⟨true, 100, false⟩,
                  acked := ⟨true, 100, false⟩, writeRpc := none, freeRpc := none }] })
    rfl rfl rfl (happyPath_data0 m hm) (happyPath_data1 m hm)
    (Or.inr ⟨⟨_, rfl⟩, rfl⟩)


theorem proceedTimes_succ {c : Collaborators} {net : Nat → Nat → RpcOutcome} {n : Nat}
    {e e1 : ReplicaManager} (hp : proceed c e net = some e1) :
    proceedTimes c net (n + 1) e = proceedTimes c net n e1 := by
  simp only [proceedTimes, hp]

theorem happyPathRun_write (m : Nat) :
    happyPathRun m =
      proceedTimes demoCollaborators allSucceed 4 (twoReplicas m 500 none none [0] 0 []) := by
  unfold happyPathRun
  rw [happyPath_write m]

/-- The run of `happyPathRun` ends with both replicas synced. -/
theorem happyPathRun_eq (m : Nat) (hm : 400 ≤ m) :
    happyPathRun m =
      some (twoReplicas m 500
        (some { backupId := 10, client := 10, sent := ⟨true, 500, false⟩,
                acked := ⟨true, 500, false⟩, writeRpc := none, freeRpc := none })
        (some { backupId := 21, client := 21, sent := ⟨true, 500, false⟩,
                acked := ⟨true, 500, false⟩, writeRpc := none, freeRpc := none })
        [] 4294967294 happyPathTrace) := by
  rw [happyPathRun_write, proceedTimes_succ (happyPath_open m),
    proceedTimes_succ (happyPath_opened m), proceedTimes_succ (happyPath_data m hm),
    proceedTimes_succ (happyPath_acked m)]
  rfl


/-- C15. A call of `performWrite` for an absent replica slot while `writeRpcsInFlight`
differs from `MAX_WRITE_RPCS_IN_FLIGHT` creates the replica on the backup the selector
returns (`selectPrimary` for slot 0, `selectSecondary` otherwise, given the backups of
the replicas that exist), with an outstanding write RPC of offset 0 and length
`openLen` flagged `OPENPRIMARY` for slot 0 and `OPEN` otherwise, `sent = (open,
openLen, not closed)`, `acked = (not open, 0, not closed)`; it increments
`writeRpcsInFlight` (a `uint32_t`) by one and schedules the segment. With two
replicas, `openLen = 100`, `write(500)` and at least 400 bytes per write RPC, the
engine sends two opening RPCs `(0,100)`, the first flagged `OPENPRIMARY` and the second
`OPEN`, and then two `NONE` RPCs `(100,400)`. -/
theorem open_replica_spec :
    (∀ (c : Collaborators) (e : ReplicaManager) (h i : Nat) (outcome : RpcOutcome)
        (s : ReplicatedSegment),
      e.getSegment h = some s → s.replicas[i]? = some none →
      e.writeRpcsInFlight ≠ c.MAX_WRITE_RPCS_IN_FLIGHT →
      ∃ e1 backupId,
        backupId = (if i = 0 then c.selectPrimary (presentIds s.replicas)
          else c.selectSecondary (presentIds s.replicas)) ∧
        performWrite c e h i outcome = some e1 ∧
        e1.slotAt h i =
          some (some { backupId := backupId, client := c.getSession backupId,
                       sent := ⟨true, s.openLen, false⟩, acked := ⟨false, 0, false⟩,
                       writeRpc :=
                         some { offset := 0, length := s.openLen,
                                flags := if i = 0 then Flags.OPENPRIMARY else Flags.OPEN },
                       freeRpc := none }) ∧
        e1.writeRpcsInFlight = inc32 e.writeRpcsInFlight ∧
        (e.writeRpcsInFlight + 1 < UINT32 →
          e1.writeRpcsInFlight = e.writeRpcsInFlight + 1) ∧
        e1.isScheduled h = true ∧
        e1.trace = e.trace ++
          [if i = 0 then Event.selectPrimary (presentIds s.replicas)
             else Event.selectSecondary (presentIds s.replicas),
           Event.writeRpc h i backupId
             { offset := 0, length := s.openLen,
               flags := if i = 0 then Flags.OPENPRIMARY else Flags.OPEN }]) ∧
    (∀ m, 400 ≤ m →
      (happyPathRun m).map (fun e => e.trace) =
        some [Event.selectPrimary [], Event.writeRpc 0 0 10 ⟨0, 100, Flags.OPENPRIMARY⟩,
              Event.selectSecondary [10], Event.writeRpc 0 1 21 ⟨0, 100, Flags.OPEN⟩,
              Event.writeRpc 0 0 10 ⟨100, 400, Flags.NONE⟩,
              Event.writeRpc 0 1 21 ⟨100, 400, Flags.NONE⟩]) := by
  refine ⟨?_, ?_⟩
  · intro c e h i outcome s hs hi hw
    have hpw : performWrite c e h i outcome = openReplica c e h i s := by
      unfold performWrite; rw [hs]; simp only [hi]
    rw [hpw, openReplica_eq hi hw]
    refine ⟨_, _, rfl, rfl, ?_, by simp, ?_, by simp, by simp⟩
    · rw [slotAt_schedule]
      exact slotAt_setReplica_self none (by rw [← hi]; exact slotAt_of_getSegment hs) _
    · intro hlt
      simp only [writeRpcsInFlight_schedule, writeRpcsInFlight_setReplica]
      exact add32_of_lt hlt
  · intro m hm
    rw [happyPathRun_eq m hm]
    rfl

theorem open_replica_spec_witness :
    ∃ e1 backupId,
      backupId = (if (0 : Nat) = 0 then demoCollaborators.selectPrimary (presentIds [none])
        else demoCollaborators.selectSecondary (presentIds [none])) ∧
      performWrite demoCollaborators oneReplica 0 0 RpcOutcome.success = some e1 ∧
      e1.slotAt 0 0 =
        some (some { backupId := backupId, client := demoCollaborators.getSession backupId,
                     sent := ⟨true, 100, false⟩, acked := ⟨false, 0, false⟩,
                     writeRpc :=
                       some { offset := 0, length := 100,
                              flags := if (0 : Nat) = 0 then Flags.OPENPRIMARY
                                else Flags.OPEN },
                     freeRpc := none }) ∧
      e1.writeRpcsInFlight = inc32 oneReplica.writeRpcsInFlight ∧
      (oneReplica.writeRpcsInFlight + 1 < UINT32 →
        e1.writeRpcsInFlight = oneReplica.writeRpcsInFlight + 1) ∧
      e1.isScheduled 0 = true ∧
      e1.trace = oneReplica.trace ++
        [if (0 : Nat) = 0 then Event.selectPrimary (presentIds [none])
           else Event.selectSecondary (presentIds [none]),
         Event.writeRpc 0 0 backupId
           { offset := 0, length := 100,
             flags := if (0 : Nat) = 0 then Flags.OPENPRIMARY else Flags.OPEN }] :=
  open_replica_spec.1 demoCollaborators oneReplica 0 0 RpcOutcome.success
    { masterId := 1, segmentId := 10, openLen := 100, maxBytesPerWriteRpc := 256,
      queued := ⟨true, 100, false⟩, freeQueued := false, followingSegment := none,
      precedingSegmentCloseAcked := true, replicas := [none] }
    (by decide) (by decide) (by decide)


/-! ## Scheduling and the task queue -/

theorem tasks_schedule_congr {e1 e2 : ReplicaManager} (ht : e1.tasks = e2.tasks) (h : Nat) :
    (e1.schedule h).tasks = (e2.schedule h).tasks := by
  unfold ReplicaManager.schedule
  rw [ht]
  split <;> simp [ht]

theorem isScheduled_congr {e1 e2 : ReplicaManager} (ht : e1.tasks = e2.tasks) (h : Nat) :
    e1.isScheduled h = e2.isScheduled h := by
  unfold ReplicaManager.isScheduled; rw [ht]

theorem finishReap_tasks (e : ReplicaManager) (h i : Nat) (s : ReplicatedSegment)
    (r1 : Replica) :
    (finishReap e h i s r1).tasks =
      if r1.acked ≠ s.queued then (e.schedule h).tasks else e.tasks := by
  unfold finishReap
  dsimp only
  have hcong : ∀ x : ReplicaManager, x.tasks = e.tasks →
      (x.schedule h).tasks = (e.schedule h).tasks := fun x hx => tasks_schedule_congr hx h
  by_cases hq : r1.acked ≠ s.queued
  · rw [if_pos hq, if_pos hq]
    split
    · rw [tasks_setReplica]; exact hcong _ (by simp)
    · exact hcong _ (by simp)
  · rw [if_neg hq, if_neg hq]
    split <;> simp

/-- A call of `performWrite` leaves the task queue as it is or schedules the segment. -/
theorem performWrite_tasks {c : Collaborators} {e e1 : ReplicaManager} {h i : Nat}
    {outcome : RpcOutcome} (hstep : performWrite c e h i outcome = some e1) :
    e1.tasks = e.tasks ∨ e1.tasks = (e.schedule h).tasks := by
  cases hs : e.getSegment h with
  | none => unfold performWrite at hstep; rw [hs] at hstep; cases hstep
  | some s =>
    cases hi : s.replicas[i]? with
    | none => unfold performWrite at hstep; rw [hs] at hstep; simp only [hi] at hstep; cases hstep
    | some slot =>
      cases slot with
      | none =>
        have hpw : performWrite c e h i outcome = openReplica c e h i s := by
          unfold performWrite; rw [hs]; simp only [hi]
        rw [hpw] at hstep
        by_cases hw : e.writeRpcsInFlight = c.MAX_WRITE_RPCS_IN_FLIGHT
        · unfold openReplica at hstep
          rw [if_pos hw] at hstep
          injection hstep with hstep
          exact Or.inr (by rw [← hstep])
        · rw [openReplica_eq hi hw] at hstep
          injection hstep with hstep
          subst hstep
          exact Or.inr (tasks_schedule_congr (by simp) h)
      | some r =>
        rcases performWrite_present hs hi hstep with ⟨_, he⟩ | ⟨_, _, hreap⟩ | ⟨_, _, hiss⟩
        · exact Or.inl (by rw [he])
        · cases outcome with
          | notReady =>
            simp only [reapWrite] at hreap
            injection hreap with hreap
            exact Or.inr (by rw [← hreap])
          | success =>
            simp only [reapWrite] at hreap
            split at hreap
            · cases hreap
            · rename_i e2 he2
              injection hreap with hreap
              subst hreap
              have ht2 : e2.tasks = e.tasks := by
                split at he2
                · rw [(ackFollowing_trace he2).2.2]; simp
                · injection he2 with he2; subst he2; simp
              rw [finishReap_tasks]
              by_cases hq : ({ r with acked := r.sent } : Replica).acked ≠ s.queued
              · rw [if_pos hq]
                exact Or.inr (tasks_schedule_congr ht2 h)
              · rw [if_neg hq]
                exact Or.inl ht2
          | transportFailure =>
            simp only [reapWrite] at hreap
            injection hreap with hreap
            subst hreap
            rw [finishReap_tasks]
            by_cases hq : ({ r with sent := r.acked } : Replica).acked ≠ s.queued
            · rw [if_pos hq]
              exact Or.inr (tasks_schedule_congr (tasks_setReplica _ _ _ _) h)
            · rw [if_neg hq]
              exact Or.inl (tasks_setReplica _ _ _ _)
        · obtain ⟨_, _, _, hcase⟩ := issueWrite_cases hiss
          rcases hcase with he | ⟨_, he⟩
          · exact Or.inr (by rw [he])
          · subst he
            exact Or.inr (tasks_schedule_congr (by simp) h)

theorem isScheduled_of_tasks {e e1 : ReplicaManager} {h : Nat}
    (ht : e1.tasks = e.tasks ∨ e1.tasks = (e.schedule h).tasks) (k : Nat)
    (hk : e.isScheduled k = true) : e1.isScheduled k = true := by
  rcases ht with ht | ht
  · rw [isScheduled_congr ht]; exact hk
  · rw [isScheduled_congr ht]; exact isScheduled_schedule_of e h k hk

/-- A call of `performFree` leaves the task queue as it is or schedules the segment. -/
theorem performFree_tasks {c : Collaborators} {e e1 : ReplicaManager} {h i : Nat}
    {outcome : RpcOutcome} (hstep : performFree c e h i outcome = some e1) :
    e1.tasks = e.tasks ∨ e1.tasks = (e.schedule h).tasks := by
  unfold performFree at hstep
  cases hs : e.getSegment h with
  | none => rw [hs] at hstep; cases hstep
  | some s =>
    rw [hs] at hstep
    dsimp only at hstep
    cases hi : s.replicas[i]? with
    | none => simp only [hi] at hstep; cases hstep
    | some slot =>
      cases slot with
      | none =>
        simp only [hi] at hstep
        injection hstep with hstep
        exact Or.inl (by rw [hstep])
      | some r =>
        simp only [hi] at hstep
        obtain ⟨backupId, client, sent, acked, writeRpc, freeRpc⟩ := r
        cases freeRpc with
        | some frpc =>
          cases outcome with
          | notReady =>
            simp only at hstep
            injection hstep with hstep
            exact Or.inr (by rw [← hstep])
          | success =>
            simp only at hstep
            injection hstep with hstep
            exact Or.inl (by rw [← hstep]; simp)
          | transportFailure =>
            simp only at hstep
            injection hstep with hstep
            subst hstep
            exact Or.inr (tasks_schedule_congr (by simp) h)
        | none =>
          cases writeRpc with
          | some rpc =>
            simp only at hstep
            cases hpw : performWrite c e h i outcome with
            | none => simp only [hpw] at hstep; cases hstep
            | some e2 =>
              simp only [hpw] at hstep
              injection hstep with hstep
              subst hstep
              rcases performWrite_tasks hpw with ht | ht
              · exact Or.inr (tasks_schedule_congr ht h)
              · right
                rw [tasks_schedule_congr ht h]
                unfold ReplicaManager.schedule
                by_cases hm : h ∈ e.tasks
                · simp [hm]
                · simp [hm]
          | none =>
            simp only at hstep
            injection hstep with hstep
            subst hstep
            exact Or.inr (tasks_schedule_congr (by simp) h)

/-- A call of `performFree` that leaves the segment unscheduled leaves the slot
absent: the slot was absent, or its free RPC completed. -/
theorem performFree_unscheduled {c : Collaborators} {e e1 : ReplicaManager} {h i : Nat}
    {outcome : RpcOutcome} (hstep : performFree c e h i outcome = some e1)
    (hns : e1.isScheduled h = false) : e1.slotAt h i = some none := by
  unfold performFree at hstep
  cases hs : e.getSegment h with
  | none => rw [hs] at hstep; cases hstep
  | some s =>
    rw [hs] at hstep
    dsimp only at hstep
    cases hi : s.replicas[i]? with
    | none => simp only [hi] at hstep; cases hstep
    | some slot =>
      have hslot : e.slotAt h i = some slot := by rw [slotAt_of_getSegment hs]; exact hi
      cases slot with
      | none =>
        simp only [hi] at hstep
        injection hstep with hstep
        subst hstep
        exact hslot
      | some r =>
        simp only [hi] at hstep
        obtain ⟨backupId, client, sent, acked, writeRpc, freeRpc⟩ := r
        cases freeRpc with
        | some frpc =>
          cases outcome with
          | notReady =>
            simp only at hstep
            injection hstep with hstep
            subst hstep
            rw [isScheduled_schedule_self] at hns; cases hns
          | success =>
            simp only at hstep
            injection hstep with hstep
            subst hstep
            exact slotAt_setReplica_self _ hslot none
          | transportFailure =>
            simp only at hstep
            injection hstep with hstep
            subst hstep
            rw [isScheduled_schedule_self] at hns; cases hns
        | none =>
          cases writeRpc with
          | some rpc =>
            simp only at hstep
            cases hpw : performWrite c e h i outcome with
            | none => simp only [hpw] at hstep; cases hstep
            | some e2 =>
              simp only [hpw] at hstep
              injection hstep with hstep
              subst hstep
              rw [isScheduled_schedule_self] at hns; cases hns
          | none =>
            simp only at hstep
            injection hstep with hstep
            subst hstep
            rw [isScheduled_schedule_self] at hns; cases hns


/-! ## The loops of `performTask` -/

theorem slotAt_of_frame_ne {e e1 : ReplicaManager} {h i j : Nat} {new : Option Replica}
    (hf : Frame h i new e e1) (hj : j ≠ i) : e1.slotAt h j = e.slotAt h j := by
  have hk := hf h
  simp only [if_true] at hk
  unfold ReplicaManager.slotAt
  cases h1 : e1.getSegment h with
  | none =>
    rw [h1] at hk
    cases h0 : e.getSegment h with
    | none => rfl
    | some s0 => rw [h0] at hk; simp at hk
  | some s1 =>
    rw [h1] at hk
    cases h0 : e.getSegment h with
    | none => rw [h0] at hk; simp at hk
    | some s0 =>
      rw [h0] at hk
      simp only [Option.map_some', Option.some.injEq] at hk
      have hrep := congrArg ReplicatedSegment.replicas hk
      simp only [ReplicatedSegment.core] at hrep
      simp only [hrep, List.getElem?_set]
      rw [if_neg (fun x => hj x.symm)]

theorem freeLoop_isScheduled {c : Collaborators} {h : Nat} {net : Nat → RpcOutcome}
    (l : List Nat) {e e1 : ReplicaManager} (hstep : freeLoop c h net l e = some e1)
    (k : Nat) (hk : e.isScheduled k = true) : e1.isScheduled k = true := by
  induction l generalizing e with
  | nil =>
    simp only [freeLoop] at hstep
    injection hstep with hstep; subst hstep; exact hk
  | cons i rest ih =>
    simp only [freeLoop] at hstep
    cases hp : performFree c e h i (net i) with
    | none => simp only [hp] at hstep; cases hstep
    | some e2 =>
      simp only [hp] at hstep
      exact ih hstep (isScheduled_of_tasks (performFree_tasks hp) k hk)

/-- When the loop over `performFree` leaves the segment unscheduled, every slot it
visited is absent afterwards, and so is every slot that was absent before. -/
theorem freeLoop_unscheduled {c : Collaborators} {h : Nat} {net : Nat → RpcOutcome}
    (l : List Nat) {e e1 : ReplicaManager} (hstep : freeLoop c h net l e = some e1)
    (hns : e1.isScheduled h = false) :
    e.isScheduled h = false ∧
    (∀ i ∈ l, e1.slotAt h i = some none) ∧
    (∀ j, e.slotAt h j = some none → e1.slotAt h j = some none) := by
  induction l generalizing e with
  | nil =>
    simp only [freeLoop] at hstep
    injection hstep with hstep; subst hstep
    exact ⟨hns, fun i hi => (by cases hi), fun j hj => hj⟩
  | cons i rest ih =>
    simp only [freeLoop] at hstep
    cases hp : performFree c e h i (net i) with
    | none => simp only [hp] at hstep; cases hstep
    | some e2 =>
      simp only [hp] at hstep
      obtain ⟨hns2, hrest, hkeep⟩ := ih hstep
      have hslot2 : e2.slotAt h i = some none := performFree_unscheduled hp hns2
      have hns0 : e.isScheduled h = false := by
        cases hsch : e.isScheduled h with
        | false => rfl
        | true =>
          have := isScheduled_of_tasks (performFree_tasks hp) h hsch
          rw [this] at hns2; cases hns2
      refine ⟨hns0, ?_, ?_⟩
      · intro i' hi'
        rcases List.mem_cons.mp hi' with heq | hmem
        · subst heq; exact hkeep _ hslot2
        · exact hrest i' hmem
      · intro j hj
        by_cases hji : j = i
        · subst hji; exact hkeep _ hslot2
        · apply hkeep
          cases hs : e.getSegment h with
          | none => unfold performFree at hp; rw [hs] at hp; cases hp
          | some s =>
            obtain ⟨_, _, _, _, hf⟩ := performFree_frame hs hp
            rw [slotAt_of_frame_ne hf hji]; exact hj


theorem all_absent_of_slotAt {e : ReplicaManager} {h : Nat} {s : ReplicatedSegment}
    (hs : e.getSegment h = some s)
    (hall : ∀ i ∈ List.range s.replicas.length, e.slotAt h i = some none) :
    ∀ slot ∈ s.replicas, slot = none := by
  intro slot hslot
  obtain ⟨i, hi⟩ := List.mem_iff_getElem?.mp hslot
  have hlt : i < s.replicas.length := by
    by_contra hge
    rw [List.getElem?_eq_none (by omega)] at hi
    cases hi
  have := hall i (List.mem_range.mpr hlt)
  rw [slotAt_of_getSegment hs, hi] at this
  injection this

/-! ## ClusterMetrics::difference -/

theorem ServerMap.find_assign {M : Type} (servers : ServerMap M) (key key' : String)
    (value : M) :
    ServerMap.find (ServerMap.assign servers key value) key' =
      if key = key' then some value else ServerMap.find servers key' := by
  induction servers with
  | nil =>
    simp [ServerMap.assign, ServerMap.find]
  | cons p rest ih =>
    obtain ⟨k, v⟩ := p
    by_cases hk : k = key
    · subst hk
      by_cases hk' : k = key' <;> simp [ServerMap.assign, ServerMap.find, hk']
    · by_cases hk' : k = key'
      · subst hk'
        simp [ServerMap.assign, ServerMap.find, hk, Ne.symm hk]
      · simp [ServerMap.assign, ServerMap.find, hk, hk', ih]

theorem ServerMap.find_eq_none_iff {M : Type} (servers : ServerMap M) (key : String) :
    ServerMap.find servers key = none ↔ key ∉ ServerMap.keys servers := by
  induction servers with
  | nil => simp [ServerMap.find, ServerMap.keys]
  | cons p rest ih =>
    obtain ⟨k, v⟩ := p
    by_cases hk : k = key
    · simp [ServerMap.find, ServerMap.keys, hk]
    · have ih' := ih
      simp only [ServerMap.keys] at ih'
      simp [ServerMap.find, ServerMap.keys, hk, ih', Ne.symm hk]

theorem ServerMap.keys_assign_nodup {M : Type} (servers : ServerMap M) (key : String)
    (value : M) (hnd : (ServerMap.keys servers).Nodup) :
    (ServerMap.keys (ServerMap.assign servers key value)).Nodup ∧
    ∀ k, k ∈ ServerMap.keys (ServerMap.assign servers key value) ↔
      k = key ∨ k ∈ ServerMap.keys servers := by
  induction servers with
  | nil => simp [ServerMap.assign, ServerMap.keys]
  | cons p rest ih =>
    obtain ⟨k0, v0⟩ := p
    simp only [ServerMap.keys, List.map_cons, List.nodup_cons] at hnd
    obtain ⟨ih1, ih2⟩ := ih hnd.2
    simp only [ServerMap.keys] at ih1 ih2
    by_cases hk : k0 = key
    · subst hk
      simp [ServerMap.assign, ServerMap.keys, hnd.1, hnd.2]
    · simp only [ServerMap.assign, hk, if_false, ServerMap.keys, List.map_cons,
        List.nodup_cons, List.mem_cons]
      refine ⟨⟨?_, ih1⟩, ?_⟩
      · intro hmem
        rcases (ih2 k0).mp hmem with h1 | h1
        · exact hk h1
        · exact hnd.1 h1
      · intro k
        rw [ih2 k]
        constructor
        · rintro (h1 | h1 | h1)
          · exact Or.inr (Or.inl h1)
          · exact Or.inl h1
          · exact Or.inr (Or.inr h1)
        · rintro (h1 | h1 | h1)
          · exact Or.inr (Or.inl h1)
          · exact Or.inl h1
          · exact Or.inr (Or.inr h1)

theorem differenceLoop_find {M : Type} (serverDifference : M → M → M)
    (earlier : ServerMap M) (entries diff : ServerMap M)
    (hnd : (ServerMap.keys entries).Nodup) (key : String) :
    ServerMap.find (differenceLoop serverDifference earlier entries diff) key =
      match ServerMap.find entries key, ServerMap.find earlier key with
      | some v, some old => some (serverDifference v old)
      | _, _ => ServerMap.find diff key := by
  induction entries generalizing diff with
  | nil => simp [differenceLoop, ServerMap.find]
  | cons p rest ih =>
    obtain ⟨k, v⟩ := p
    simp only [ServerMap.keys, List.map_cons, List.nodup_cons] at hnd
    have hrest := fun d => ih d hnd.2
    by_cases hk : k = key
    · subst hk
      have hnone : ServerMap.find rest k = none :=
        (ServerMap.find_eq_none_iff rest k).mpr hnd.1
      cases he : ServerMap.find earlier k with
      | none => simp [differenceLoop, ServerMap.find, he, hrest, hnone]
      | some old =>
        simp [differenceLoop, ServerMap.find, he, hrest, hnone, ServerMap.find_assign]
    · cases he : ServerMap.find earlier k with
      | none => simp [differenceLoop, ServerMap.find, he, hrest, hk]
      | some old =>
        simp [differenceLoop, ServerMap.find, he, hrest, hk, ServerMap.find_assign]

theorem differenceLoop_keys {M : Type} (serverDifference : M → M → M)
    (earlier : ServerMap M) (entries diff : ServerMap M)
    (hnd : (ServerMap.keys diff).Nodup) :
    (ServerMap.keys (differenceLoop serverDifference earlier entries diff)).Nodup ∧
    ∀ k, k ∈ ServerMap.keys (differenceLoop serverDifference earlier entries diff) ↔
      (k ∈ ServerMap.keys diff ∨
        (k ∈ ServerMap.keys entries ∧ k ∈ ServerMap.keys earlier)) := by
  induction entries generalizing diff with
  | nil =>
    refine ⟨by simpa [differenceLoop] using hnd, ?_⟩
    intro k
    simp [differenceLoop, ServerMap.keys]
  | cons p rest ih =>
    obtain ⟨k0, v0⟩ := p
    cases he : ServerMap.find earlier k0 with
    | none =>
      have hnot : k0 ∉ ServerMap.keys earlier := (ServerMap.find_eq_none_iff _ _).mp he
      obtain ⟨i1, i2⟩ := ih diff hnd
      simp only [differenceLoop, he]
      refine ⟨i1, ?_⟩
      intro k
      rw [i2 k]
      simp only [ServerMap.keys, List.map_cons, List.mem_cons]
      constructor
      · rintro (h1 | ⟨h1, h2⟩)
        · exact Or.inl h1
        · exact Or.inr ⟨Or.inr h1, h2⟩
      · rintro (h1 | ⟨h1 | h1, h2⟩)
        · exact Or.inl h1
        · subst h1; exact absurd h2 hnot
        · exact Or.inr ⟨h1, h2⟩
    | some old =>
      have hin : k0 ∈ ServerMap.keys earlier := by
        by_contra hnot
        rw [(ServerMap.find_eq_none_iff _ _).mpr hnot] at he
        cases he
      obtain ⟨a1, a2⟩ := ServerMap.keys_assign_nodup diff k0 (serverDifference v0 old) hnd
      obtain ⟨i1, i2⟩ := ih _ a1
      simp only [differenceLoop, he]
      refine ⟨i1, ?_⟩
      intro k
      rw [i2 k, a2 k]
      simp only [ServerMap.keys, List.map_cons, List.mem_cons]
      constructor
      · rintro ((h1 | h1) | ⟨h1, h2⟩)
        · subst h1; exact Or.inr ⟨Or.inl rfl, hin⟩
        · exact Or.inl h1
        · exact Or.inr ⟨Or.inr h1, h2⟩
      · rintro (h1 | ⟨h1 | h1, h2⟩)
        · exact Or.inl (Or.inr h1)
        · exact Or.inl (Or.inl h1)
        · exact Or.inr ⟨h1, h2⟩

/-- C20. For two `ClusterMetrics` objects (maps with one entry for each service
locator), the result of `difference` has exactly the locators found in both; it maps
each of them to the difference of the two entries, and has one entry for each. The
operation is a function of its two arguments, so it modifies neither. -/
theorem ClusterMetrics.difference_spec {M : Type} (serverDifference : M → M → M)
    (self earlier : ServerMap M) (hself : (ServerMap.keys self).Nodup) :
    (∀ k, k ∈ ServerMap.keys (ClusterMetrics.difference serverDifference self earlier) ↔
      (k ∈ ServerMap.keys self ∧ k ∈ ServerMap.keys earlier)) ∧
    (∀ k v old, ServerMap.find self k = some v → ServerMap.find earlier k = some old →
      ServerMap.find (ClusterMetrics.difference serverDifference self earlier) k =
        some (serverDifference v old)) ∧
    (∀ k, ServerMap.find self k = none ∨ ServerMap.find earlier k = none →
      ServerMap.find (ClusterMetrics.difference serverDifference self earlier) k = none) ∧
    (ServerMap.keys (ClusterMetrics.difference serverDifference self earlier)).Nodup := by
  unfold ClusterMetrics.difference
  have hk := differenceLoop_keys serverDifference earlier self []
    (by simp [ServerMap.keys])
  refine ⟨?_, ?_, ?_, hk.1⟩
  · intro k
    rw [hk.2 k]
    simp [ServerMap.keys]
  · intro k v old hv hold
    rw [differenceLoop_find serverDifference earlier self [] hself k, hv, hold]
  · intro k hnone
    rw [differenceLoop_find serverDifference earlier self [] hself k]
    rcases hnone with h1 | h1
    · rw [h1]; rfl
    · rw [h1]
      cases ServerMap.find self k <;> rfl


theorem ClusterMetrics.difference_spec_witness :
    ServerMap.find
      (ClusterMetrics.difference (fun (a b : Int) => a - b)
        [("tcp:a", 5), ("tcp:b", 7)] [("tcp:b", 2), ("tcp:c", 1)]) "tcp:b" = some (7 - 2) :=
  (ClusterMetrics.difference_spec (fun (a b : Int) => a - b)
    [("tcp:a", 5), ("tcp:b", 7)] [("tcp:b", 2), ("tcp:c", 1)]
    (by decide)).2.1 "tcp:b" 7 2 (by decide) (by decide)


/-! ## Further invariants of the reachable states -/

theorem AllSlots_of_frame {P : Progress → Bool → Option Replica → Prop}
    {e e1 : ReplicaManager} {h i : Nat} {s : ReplicatedSegment} {new : Option Replica}
    (hall : AllSlots P e) (hs : e.getSegment h = some s)
    (hnew : P s.queued s.freeQueued new) (hf : Frame h i new e e1) : AllSlots P e1 := by
  intro h' s1 hs1 slot hslot
  have hf' := hf h'
  rw [hs1] at hf'
  cases hs0 : e.getSegment h' with
  | none => rw [hs0] at hf'; simp at hf'
  | some s0 =>
    rw [hs0] at hf'
    simp only [Option.map_some', Option.some.injEq] at hf'
    have hq := congrArg ReplicatedSegment.queued hf'
    have hfq := congrArg ReplicatedSegment.freeQueued hf'
    have hrep := congrArg ReplicatedSegment.replicas hf'
    by_cases hh : h' = h
    · subst hh
      rw [hs] at hs0
      injection hs0 with hs0
      subst hs0
      simp only [if_true, ReplicatedSegment.core] at hq hfq hrep
      rw [hq, hfq]
      rw [hrep] at hslot
      rcases List.mem_or_eq_of_mem_set hslot with hmem | heq
      · exact hall _ s hs slot hmem
      · subst heq; exact hnew
    · simp only [hh, if_false, ReplicatedSegment.core] at hq hfq hrep
      rw [hq, hfq]
      rw [hrep] at hslot
      exact hall h' s0 hs0 slot hslot

theorem AllSlots_of_segments_eq {P : Progress → Bool → Option Replica → Prop}
    {e e1 : ReplicaManager} (hall : AllSlots P e) (hseg : e1.segments = e.segments) :
    AllSlots P e1 := by
  intro h s hs
  rw [getSegment_of_segments_eq hseg] at hs
  exact hall h s hs

theorem AllSlots_setSegment {P : Progress → Bool → Option Replica → Prop}
    {e : ReplicaManager} (hall : AllSlots P e) (h : Nat) (s : ReplicatedSegment)
    (hs : ∀ slot ∈ s.replicas, P s.queued s.freeQueued slot) :
    AllSlots P (e.setSegment h s) := by
  intro h' s1 hs1
  rw [getSegment_setSegment] at hs1
  by_cases hh : h = h'
  · rw [if_pos hh] at hs1
    split at hs1
    · injection hs1 with hs1; subst hs1; exact hs
    · cases hs1
  · rw [if_neg hh] at hs1
    exact hall h' s1 hs1

theorem AllSlots_empty (P : Progress → Bool → Option Replica → Prop) :
    AllSlots P ReplicaManager.empty := by
  intro h s hs
  simp [ReplicaManager.getSegment, ReplicaManager.empty] at hs

theorem AllSlots_construct {P : Progress → Bool → Option Replica → Prop}
    {e : ReplicaManager} (hall : AllSlots P e) (hnone : ∀ q fq, P q fq none)
    (masterId : ServerId) (segmentId openLen numReplicas maxBytesPerWriteRpc : Nat) :
    AllSlots P (construct e masterId segmentId openLen numReplicas maxBytesPerWriteRpc).1 := by
  intro h s hs
  simp only [construct, getSegment_schedule] at hs
  unfold ReplicaManager.getSegment at hs
  simp only at hs
  by_cases hlt : h < e.segments.length
  · rw [List.getElem?_append_left hlt] at hs
    exact hall h s hs
  · by_cases heq : h = e.segments.length
    · subst heq
      simp at hs
      subst hs
      intro slot hslot
      rw [(List.mem_replicate.mp hslot).2]
      exact hnone _ _
    · rw [List.getElem?_eq_none (by simp; omega)] at hs
      simp at hs

theorem AllSlots_destroy {P : Progress → Bool → Option Replica → Prop}
    {e e1 : ReplicaManager} {h : Nat} (hall : AllSlots P e)
    (hstep : destroyAndFreeReplicatedSegment e h = some e1) : AllSlots P e1 := by
  unfold destroyAndFreeReplicatedSegment at hstep
  split at hstep
  · cases hstep
  · injection hstep with hstep
    subst hstep
    intro h' s hs
    unfold ReplicaManager.getSegment ReplicaManager.emit at hs
    simp only [List.getElem?_set] at hs
    by_cases hh : h = h'
    · rw [if_pos hh] at hs
      split at hs <;> simp at hs
    · rw [if_neg hh] at hs
      exact hall h' s hs

/-- The steps `write` and `close` change `queued` of one segment from a value without
the close flag, and nothing else that a slot property can see. -/
theorem AllSlots_write {P : Progress → Bool → Option Replica → Prop}
    {e e1 : ReplicaManager} {h offset : Nat} (hall : AllSlots P e)
    (hP : ∀ q fq slot, q.close = false → P q fq slot → P { q with bytes := offset } fq slot)
    (hstep : write e h offset = some e1) : AllSlots P e1 := by
  unfold write at hstep
  cases hs : e.getSegment h with
  | none => simp only [hs] at hstep; cases hstep
  | some s =>
    simp only [hs] at hstep
    split at hstep
    · cases hstep
    · split at hstep
      · cases hstep
      · rename_i hcl _
        injection hstep with hstep
        subst hstep
        refine AllSlots_of_segments_eq (AllSlots_setSegment hall h _ ?_) (segments_schedule _ _)
        intro slot hslot
        exact hP _ _ _ (by simpa using hcl) (hall h s hs slot hslot)

theorem AllSlots_close {P : Progress → Bool → Option Replica → Prop}
    {e e1 : ReplicaManager} {h : Nat} {f : Option Nat} (hall : AllSlots P e)
    (hP : ∀ q fq slot, q.close = false → P q fq slot → P { q with close := true } fq slot)
    (hstep : close e h f = some e1) : AllSlots P e1 := by
  unfold close at hstep
  cases hs : e.getSegment h with
  | none => simp only [hs] at hstep; cases hstep
  | some s =>
    simp only [hs] at hstep
    split at hstep
    · cases hstep
    · rename_i hcl
      have hall1 : AllSlots P (e.setSegment h
          { s with queued := { s.queued with close := true }, followingSegment := f }) := by
        refine AllSlots_setSegment hall h _ ?_
        intro slot hslot
        exact hP _ _ _ (by simpa using hcl) (hall h s hs slot hslot)
      cases f with
      | none =>
        simp only at hstep
        injection hstep with hstep
        subst hstep
        exact AllSlots_of_segments_eq hall1 (segments_schedule _ _)
      | some j =>
        simp only at hstep
        split at hstep
        · cases hstep
        · rename_i fs hfs
          injection hstep with hstep
          subst hstep
          refine AllSlots_of_segments_eq (AllSlots_setSegment hall1 j _ ?_)
            (segments_schedule _ _)
          exact hall1 j fs hfs


theorem SlotInv2_step {s : ReplicatedSegment} {outcome : RpcOutcome} {old new : Option Replica}
    (hseg : s.queued.opened = true ∧ s.queued.bytes < UINT32 ∧ s.openLen ≤ s.queued.bytes)
    (hold : SlotInv s.queued old) (hold2 : SlotInv2 s.queued old)
    (hstep : SlotStep s outcome old new) : SlotInv2 s.queued new := by
  obtain ⟨hqo, hqb, hol⟩ := hseg
  cases hstep with
  | same => exact hold2
  | opened backupId session flags =>
    exact ⟨fun hx => (by cases hx), fun hx => (by cases hx), fun _ => rfl⟩
  | reapedKept r rpc hrpc hne ho hop =>
    obtain ⟨h1, h2, h3, h4, h5⟩ := hold
    obtain ⟨k1, k2, k3⟩ := hold2
    cases outcome with
    | notReady => exact absurd rfl ho
    | success =>
      refine ⟨k1, k1, ?_⟩
      intro hx
      simp only [reaped] at hx
      rw [h1] at hx; cases hx
    | transportFailure => exact ⟨k2, k2, k3⟩
  | reapedReset => trivial
  | written r hrpc hne hlt hfree hcl hp =>
    obtain ⟨h1, h2, h3, h4, h5⟩ := hold
    obtain ⟨k1, k2, k3⟩ := hold2
    refine ⟨?_, k2, k3⟩
    intro hx
    have hlt' := (Progress.lt_iff _ _).mp hlt
    have hbytes : r.sent.bytes ≤ s.queued.bytes := by
      rcases hlt' with ⟨ha, _⟩ | ⟨_, hb⟩ | ⟨_, hb, _⟩
      · rw [h1] at ha; cases ha
      · omega
      · omega
    obtain ⟨n1, n2, n3, n4, n5⟩ := nextWriteRpc_shape hbytes hqb
    simp only [issued, decide_eq_true_eq] at hx
    have hend := n5 hx
    have hqc := (n3.mp hx).1
    have hadd : add32 r.sent.bytes (nextWriteRpc s r).length = s.queued.bytes := by
      rw [n1] at hend
      rw [add32_of_lt (by omega)]; exact hend
    have hsent : (issued r (nextWriteRpc s r)).sent = ⟨true, s.queued.bytes, true⟩ := by
      simp [issued, hadd, hx, h1]
    rw [hsent]
    cases hq : s.queued with
    | mk qo qb qc =>
      rw [hq] at hqo hqc
      simp only at hqo hqc
      rw [hqo, hqc]
  | freeIssued r hfr hw => exact hold2
  | freeFailed r rpc hfr => exact hold2
  | freed => trivial


/-! ## TabletProfiler -/

theorem levelsOfKey_eq : levelsOfKey = 8 := by
  unfold levelsOfKey BITS_PER_LEVEL
  have h : ⌈(64 : ℚ) / ((8 : Int) : ℚ)⌉ = 8 := by
    rw [Int.ceil_eq_iff]
    norm_num
  rw [h]
  rfl

/-- C30. With `BITS_PER_LEVEL = 8` and `BUCKET_SPLIT_BYTES = 8 * 1024 * 1024`,
`getMaximumByteError()` returns `2 * 7 * 8388608 = 117440512` and
`getMaximumReferentError()` returns `2 * 7 * 83886 = 1174404`; the products taken
without wrapping are below `2^64`, so neither computation overflows; and the merge
thresholds `6291456` and `62914` are strictly below the split thresholds. -/
theorem maximum_error_values :
    getMaximumByteError = 117440512 ∧ getMaximumReferentError = 1174404 ∧
    getMaximumByteError = 2 * (levelsOfKey - 1) * BUCKET_SPLIT_BYTES ∧
    getMaximumReferentError = 2 * (levelsOfKey - 1) * BUCKET_SPLIT_OBJS ∧
    2 * (levelsOfKey - 1) * BUCKET_SPLIT_BYTES < UINT64 ∧
    2 * (levelsOfKey - 1) * BUCKET_SPLIT_OBJS < UINT64 ∧
    BUCKET_SPLIT_BYTES = 8388608 ∧ BUCKET_SPLIT_OBJS = 83886 ∧
    BUCKET_MERGE_BYTES = 6291456 ∧ BUCKET_MERGE_OBJS = 62914 ∧
    BUCKET_MERGE_BYTES < BUCKET_SPLIT_BYTES ∧ BUCKET_MERGE_OBJS < BUCKET_SPLIT_OBJS := by
  unfold getMaximumByteError getMaximumReferentError
  rw [levelsOfKey_eq]
  decide


/-! ## What one call of `performWrite` does, branch by branch -/

/-- The data-write branch of `performWrite` when its assertions and guards pass. -/
theorem performWrite_issue_eq {c : Collaborators} {e : ReplicaManager} {h i : Nat}
    {outcome : RpcOutcome} {s : ReplicatedSegment} {r : Replica}
    (hs : e.getSegment h = some s) (hi : s.replicas[i]? = some (some r))
    (hne : r.acked ≠ s.queued) (hw : r.writeRpc = none)
    (hlt : r.sent.lt s.queued = true) (hfree : r.freeRpc = none)
    (hcl : r.sent.close = false) (hp : s.precedingSegmentCloseAcked = true)
    (hg : (nextWriteRpc s r).flags = Flags.CLOSE → ∀ f, s.followingSegment = some f →
      ∃ fs, e.getSegment f = some fs ∧ fs.getAcked.opened = true) :
    performWrite c e h i outcome =
      some (((e.emit (Event.writeRpc h i r.backupId (nextWriteRpc s r))).setReplica h i
        (some (issued r (nextWriteRpc s r)))).schedule h) := by
  unfold performWrite
  rw [hs]
  simp only [hi]
  rw [if_neg hne]
  simp only [hw]
  unfold issueWrite
  rw [if_pos hlt]
  simp only [hfree, hcl, hp, Option.isSome_none, Bool.false_eq_true, if_false]
  by_cases hfl : (nextWriteRpc s r).flags = Flags.CLOSE
  · rw [if_pos hfl]
    cases hfol : s.followingSegment with
    | none => rfl
    | some f =>
      obtain ⟨fs, hfs, hop⟩ := hg hfl f hfol
      simp only [hfs, hop]
      rfl
  · rw [if_neg hfl]
    rfl

/-- C22. What `performWrite` does when it issues a non-opening write RPC (the replica
exists, has no RPC outstanding and `sent < queued`, the assertions and the guards
pass): the call returns, `sent.bytes` grows by the length of the RPC, `sent.close`
becomes `flags == CLOSE`, `acked` stays, the segment is scheduled, and
`writeRpcsInFlight` is left as it was: the branch has no `++writeRpcsInFlight`. -/
theorem data_write_issue_effect (c : Collaborators) (e : ReplicaManager) (h i : Nat)
    (outcome : RpcOutcome) (s : ReplicatedSegment) (r : Replica)
    (hs : e.getSegment h = some s) (hi : s.replicas[i]? = some (some r))
    (hne : r.acked ≠ s.queued) (hw : r.writeRpc = none)
    (hlt : r.sent.lt s.queued = true) (hfree : r.freeRpc = none)
    (hcl : r.sent.close = false) (hp : s.precedingSegmentCloseAcked = true)
    (hg : (nextWriteRpc s r).flags = Flags.CLOSE → ∀ f, s.followingSegment = some f →
      ∃ fs, e.getSegment f = some fs ∧ fs.getAcked.opened = true) :
    ∃ e1 r1, performWrite c e h i outcome = some e1 ∧
      e1.writeRpcsInFlight = e.writeRpcsInFlight ∧
      e1.slotAt h i = some (some r1) ∧
      r1.writeRpc = some (nextWriteRpc s r) ∧
      r1.sent.bytes = add32 r.sent.bytes (nextWriteRpc s r).length ∧
      r1.sent.close = decide ((nextWriteRpc s r).flags = Flags.CLOSE) ∧
      r1.sent.opened = r.sent.opened ∧
      r1.acked = r.acked ∧ e1.isScheduled h = true := by
  refine ⟨_, issued r (nextWriteRpc s r), performWrite_issue_eq hs hi hne hw hlt hfree hcl hp hg,
    by simp, ?_, rfl, rfl, rfl, rfl, rfl, by simp⟩
  rw [slotAt_schedule]
  exact slotAt_setReplica_self (some r) (by rw [slotAt_emit, slotAt_of_getSegment hs]; exact hi) _

theorem data_write_issue_effect_witness :
    ∃ e1 r1, performWrite demoCollaborators dataQueued 0 0 RpcOutcome.notReady = some e1 ∧
      e1.writeRpcsInFlight = 0 ∧
      e1.slotAt 0 0 = some (some r1) ∧
      r1.writeRpc = some ⟨100, 200, Flags.NONE⟩ ∧
      r1.sent.bytes = 300 ∧ r1.sent.close = false ∧ r1.sent.opened = true ∧
      r1.acked = ⟨true, 100, false⟩ ∧ e1.isScheduled 0 = true :=
  data_write_issue_effect demoCollaborators dataQueued 0 0 RpcOutcome.notReady
    { masterId := 1, segmentId := 10, openLen := 100, maxBytesPerWriteRpc := 256,
      queued := ⟨true, 300, false⟩, freeQueued := false, followingSegment := none,
      precedingSegmentCloseAcked := true,
      replicas :=
        [some { backupId := 10, client := 10, sent := ⟨true, 100, false⟩,
                acked := ⟨true, 100, false⟩, writeRpc := none, freeRpc := none }] }
    { backupId := 10, client := 10, sent := ⟨true, 100, false⟩,
      acked := ⟨true, 100, false⟩, writeRpc := none, freeRpc := none }
    (by decide) (by decide) (by decide) rfl (by decide) rfl rfl rfl (by decide)


/-! ## The counter `writeRpcsInFlight` -/

/-- C2. The counter leaves its bound: a segment with one replica is constructed, its
opening write is sent and acknowledged, `write(300)` is called, the bytes 100 to 300
are sent (which does not count the RPC) and acknowledged (which decrements the
counter): `writeRpcsInFlight` wraps from 0 to `2^32 - 1`, above
`MAX_WRITE_RPCS_IN_FLIGHT = 4`. -/
theorem counter_underflow :
    underflowRun.map (fun e => e.writeRpcsInFlight) = some 4294967295 ∧
    underflowRun.map
      (fun e => decide (e.writeRpcsInFlight ≤ demoCollaborators.MAX_WRITE_RPCS_IN_FLIGHT)) =
      some false := by
  decide

/-- C10. Data writes are not throttled: with `MAX_WRITE_RPCS_IN_FLIGHT = 1` and three
segments of two replicas each, once every replica is open (seven calls of `proceed()`,
during which at most one write RPC is outstanding) and `write(300)` was called on each
segment, one call of `proceed()` leaves six write RPCs outstanding, with
`writeRpcsInFlight = 0`. -/
theorem data_writes_not_throttled :
    throttledCollaborators.MAX_WRITE_RPCS_IN_FLIGHT = 1 ∧
    (proceedTimes throttledCollaborators allSucceed 7 threeSegments).map
      (fun e => (outstandingWrites e, e.writeRpcsInFlight)) = some (0, 0) ∧
    (throttleRun 7).map (fun e => (outstandingWrites e, e.writeRpcsInFlight)) =
      some (6, 0) := by
  decide


/-! ## Branches of `performWrite` that leave the replica alone -/

/-- C28. A throttled opening leaves the state untouched: when `performWrite` runs on an
absent slot and `writeRpcsInFlight == MAX_WRITE_RPCS_IN_FLIGHT`, the result is the state
with the segment scheduled: nothing is asked of the selector and no RPC is issued (the
trace is unchanged), the table of segments (the slot, `queued`, the other replicas) and
`writeRpcsInFlight` are unchanged. And when `performWrite` is called on a replica that
exists with `acked == queued`, the state is unchanged, the task queue included. -/
theorem throttled_open_and_synced_noop (c : Collaborators) (e : ReplicaManager) (h i : Nat)
    (outcome : RpcOutcome) (s : ReplicatedSegment) (hs : e.getSegment h = some s) :
    (s.replicas[i]? = some none → e.writeRpcsInFlight = c.MAX_WRITE_RPCS_IN_FLIGHT →
      performWrite c e h i outcome = some (e.schedule h) ∧
      (e.schedule h).trace = e.trace ∧ (e.schedule h).segments = e.segments ∧
      (e.schedule h).slotAt h i = some none ∧
      (e.schedule h).writeRpcsInFlight = e.writeRpcsInFlight ∧
      (e.schedule h).isScheduled h = true) ∧
    (∀ r, s.replicas[i]? = some (some r) → r.acked = s.queued →
      performWrite c e h i outcome = some e) := by
  constructor
  · intro hi hw
    refine ⟨?_, by simp, by simp, ?_, by simp, by simp⟩
    · unfold performWrite
      rw [hs]
      simp only [hi]
      unfold openReplica
      rw [if_pos hw]
    · rw [slotAt_schedule, slotAt_of_getSegment hs]
      exact hi
  · intro r hi hq
    unfold performWrite
    rw [hs]
    simp only [hi]
    rw [if_pos hq]

theorem throttled_open_and_synced_noop_witness :
    (performWrite throttledCollaborators
        (twoReplicas 256 100
          (some ⟨10, 10, ⟨true, 100, false⟩, ⟨false, 0, false⟩,
            some ⟨0, 100, Flags.OPENPRIMARY⟩, none⟩) none [] 1 []) 0 1 RpcOutcome.success =
      some (twoReplicas 256 100
          (some ⟨10, 10, ⟨true, 100, false⟩, ⟨false, 0, false⟩,
            some ⟨0, 100, Flags.OPENPRIMARY⟩, none⟩) none [0] 1 [])) ∧
    performWrite demoCollaborators openAcked 0 0 RpcOutcome.success = some openAcked :=
  ⟨((throttled_open_and_synced_noop throttledCollaborators
      (twoReplicas 256 100
        (some ⟨10, 10, ⟨true, 100, false⟩, ⟨false, 0, false⟩,
          some ⟨0, 100, Flags.OPENPRIMARY⟩, none⟩) none [] 1 []) 0 1 RpcOutcome.success
      { masterId := 1, segmentId := 10, openLen := 100, maxBytesPerWriteRpc := 256,
        queued := ⟨true, 100, false⟩, freeQueued := false, followingSegment := none,
        precedingSegmentCloseAcked := true,
        replicas := [some ⟨10, 10, ⟨true, 100, false⟩, ⟨false, 0, false⟩,
          some ⟨0, 100, Flags.OPENPRIMARY⟩, none⟩, none] }
      (by decide)).1 (by decide) (by decide)).1,
   (throttled_open_and_synced_noop demoCollaborators openAcked 0 0 RpcOutcome.success
      { masterId := 1, segmentId := 10, openLen := 100, maxBytesPerWriteRpc := 256,
        queued := ⟨true, 100, false⟩, freeQueued := false, followingSegment := none,
        precedingSegmentCloseAcked := true,
        replicas := [some ⟨10, 10, ⟨true, 100, false⟩, ⟨true, 100, false⟩, none, none⟩] }
      (by decide)).2
      ⟨10, 10, ⟨true, 100, false⟩, ⟨true, 100, false⟩, none, none⟩ (by decide) (by decide)⟩

/-! ## The conflicts passed to the selector -/

theorem presentIds_take_length_le (l : List (Option Replica)) (k : Nat) :
    (presentIds (l.take k)).length ≤ (presentIds l).length := by
  unfold presentIds
  exact ((List.take_sublist k l).filterMap _).length_le

theorem presentIds_length_eq (l : List (Option Replica)) :
    (presentIds l).length = (l.filter (fun slot => slot.isSome)).length := by
  induction l with
  | nil => rfl
  | cons slot rest ih =>
    cases slot with
    | none => simpa [presentIds] using ih
    | some r => simpa [presentIds] using ih

/-- C29. When `performWrite` opens an absent slot, the loop that fills `conflicts`
passes its assertion at every slot and ends with exactly the backups of the replicas
that exist, in slot order; their number is the number of present slots; after each
slot the number of conflicts collected is at most `numReplicas - 1` (the size of the
array) and below `numReplicas` (the assertion); and that list is what the selector is
called with. -/
theorem conflicts_are_present_backups (c : Collaborators) (e : ReplicaManager) (h i : Nat)
    (outcome : RpcOutcome) (s : ReplicatedSegment) (hs : e.getSegment h = some s)
    (hi : s.replicas[i]? = some none)
    (hw : e.writeRpcsInFlight ≠ c.MAX_WRITE_RPCS_IN_FLIGHT) :
    1 ≤ s.replicas.length ∧
    collectConflicts s.replicas.length s.replicas [] = some (presentIds s.replicas) ∧
    (presentIds s.replicas).length = (s.replicas.filter (fun slot => slot.isSome)).length ∧
    (∀ k, (presentIds (s.replicas.take k)).length ≤ s.replicas.length - 1 ∧
      (presentIds (s.replicas.take k)).length < s.replicas.length) ∧
    ∃ e1 rpc, performWrite c e h i outcome = some e1 ∧
      e1.trace = e.trace ++
        [if i = 0 then Event.selectPrimary (presentIds s.replicas)
           else Event.selectSecondary (presentIds s.replicas),
         Event.writeRpc h i
           (if i = 0 then c.selectPrimary (presentIds s.replicas)
             else c.selectSecondary (presentIds s.replicas)) rpc] := by
  have hlt := presentIds_length_lt hi
  have hc := collectConflicts_eq s.replicas.length s.replicas [] (by simpa using hlt)
  simp only [List.nil_append] at hc
  refine ⟨by omega, hc, presentIds_length_eq _, ?_, ?_⟩
  · intro k
    have := presentIds_take_length_le s.replicas k
    omega
  · have hpw : performWrite c e h i outcome = openReplica c e h i s := by
      unfold performWrite; rw [hs]; simp only [hi]
    rw [hpw, openReplica_eq hi hw]
    exact ⟨_, { offset := 0, length := s.openLen,
                flags := if i = 0 then Flags.OPENPRIMARY else Flags.OPEN }, rfl, by simp⟩

theorem conflicts_are_present_backups_witness :
    1 ≤ 2 ∧
    collectConflicts 2
      [some ⟨10, 10, ⟨true, 100, false⟩, ⟨true, 100, false⟩, none, none⟩, none] [] =
      some [10] ∧
    (1 : Nat) = 1 ∧
    (∀ k, (presentIds (List.take k
        [some ⟨10, 10, ⟨true, 100, false⟩, ⟨true, 100, false⟩, none, none⟩, none])).length
          ≤ 2 - 1 ∧
      (presentIds (List.take k
        [some ⟨10, 10, ⟨true, 100, false⟩, ⟨true, 100, false⟩, none, none⟩, none])).length
          < 2) ∧
    ∃ e1 rpc, performWrite demoCollaborators
        (twoReplicas 256 100
          (some ⟨10, 10, ⟨true, 100, false⟩, ⟨true, 100, false⟩, none, none⟩) none [] 0 [])
        0 1 RpcOutcome.success = some e1 ∧
      e1.trace = [Event.selectSecondary [10], Event.writeRpc 0 1 21 rpc] :=
  conflicts_are_present_backups demoCollaborators
    (twoReplicas 256 100
      (some ⟨10, 10, ⟨true, 100, false⟩, ⟨true, 100, false⟩, none, none⟩) none [] 0 [])
    0 1 RpcOutcome.success
    { masterId := 1, segmentId := 10, openLen := 100, maxBytesPerWriteRpc := 256,
      queued := ⟨true, 100, false⟩, freeQueued := false, followingSegment := none,
      precedingSegmentCloseAcked := true,
      replicas := [some ⟨10, 10, ⟨true, 100, false⟩, ⟨true, 100, false⟩, none, none⟩, none] }
    (by decide) (by decide) (by decide)


/-! ## The reap branch of `performWrite` in detail -/

theorem links_modify_replicas (e : ReplicaManager) (h k : Nat)
    (g : ReplicatedSegment → ReplicatedSegment) (hg : ∀ x, (g x).links = x.links) :
    ((e.modify h g).getSegment k).map ReplicatedSegment.links =
      (e.getSegment k).map ReplicatedSegment.links := by
  rw [getSegment_modify]
  by_cases hk : h = k
  · subst hk
    rw [if_pos rfl]
    cases e.getSegment h with
    | none => rfl
    | some x => simp [hg]
  · rw [if_neg hk]

theorem links_setReplica (e : ReplicaManager) (h i k : Nat) (slot : Option Replica) :
    ((e.setReplica h i slot).getSegment k).map ReplicatedSegment.links =
      (e.getSegment k).map ReplicatedSegment.links := by
  rw [setReplica_eq_modify]
  exact links_modify_replicas e h k _ (fun x => rfl)

theorem links_finishReap (e : ReplicaManager) (h i k : Nat) (s : ReplicatedSegment)
    (r1 : Replica) :
    ((finishReap e h i s r1).getSegment k).map ReplicatedSegment.links =
      (e.getSegment k).map ReplicatedSegment.links := by
  have h3 := links_setReplica e h i k (some { r1 with writeRpc := none })
  have h4 : ∀ n, (({ e.setReplica h i (some { r1 with writeRpc := none }) with
      writeRpcsInFlight := n } : ReplicaManager).getSegment k).map ReplicatedSegment.links =
      (e.getSegment k).map ReplicatedSegment.links := fun n => h3
  unfold finishReap
  dsimp only
  by_cases hop : r1.acked.opened = false
  · rw [if_pos hop]
    rw [links_setReplica]
    by_cases hq : r1.acked ≠ s.queued
    · rw [if_pos hq, getSegment_schedule]; exact h4 _
    · rw [if_neg hq]; exact h4 _
  · rw [if_neg hop]
    by_cases hq : r1.acked ≠ s.queued
    · rw [if_pos hq, getSegment_schedule]; exact h4 _
    · rw [if_neg hq]; exact h4 _

/-- The statements run when a closing write was acknowledged, in closed form. -/
theorem ackFollowing_bound {e : ReplicaManager} {h f : Nat} {s sh fs : ReplicatedSegment}
    (hfol : s.followingSegment = some f) (hh : e.getSegment h = some sh)
    (hf : e.getSegment f = some fs) :
    ∃ e2, ackFollowing e h s = some e2 ∧
      (e2.getSegment f).map (fun x => x.precedingSegmentCloseAcked) = some true ∧
      (e2.getSegment h).map (fun x => x.followingSegment) = some none ∧
      (∀ k, k ≠ f → (e2.getSegment k).map (fun x => x.precedingSegmentCloseAcked) =
        (e.getSegment k).map (fun x => x.precedingSegmentCloseAcked)) ∧
      (∀ k, k ≠ h → (e2.getSegment k).map (fun x => x.followingSegment) =
        (e.getSegment k).map (fun x => x.followingSegment)) := by
  have hlf := getSegment_lt hf
  have hlh := getSegment_lt hh
  have hh1 : (e.setSegment f { fs with precedingSegmentCloseAcked := true }).getSegment h =
      some (if f = h then { fs with precedingSegmentCloseAcked := true } else sh) := by
    rw [getSegment_setSegment]
    by_cases hfh : f = h
    · simp [hfh, hlh]
    · simp [hfh, hh]
  have hlh1 := getSegment_lt hh1
  refine ⟨(e.setSegment f { fs with precedingSegmentCloseAcked := true }).setSegment h
      { (if f = h then { fs with precedingSegmentCloseAcked := true } else sh) with
        followingSegment := none }, ?_, ?_, ?_, ?_, ?_⟩
  · unfold ackFollowing
    simp only [hfol, hf, hh1]
  · rw [getSegment_setSegment]
    by_cases hfh : h = f
    · subst hfh
      simp [hlh1]
    · rw [if_neg hfh, getSegment_setSegment]
      simp [hlf]
  · rw [getSegment_setSegment]
    simp [hlh1]
  · intro k hk
    rw [getSegment_setSegment]
    by_cases hkh : h = k
    · subst hkh
      simp [hlh1, if_neg hk.symm, hh]
    · rw [if_neg hkh, getSegment_setSegment, if_neg hk.symm]
  · intro k hk
    rw [getSegment_setSegment, if_neg hk.symm, getSegment_setSegment]
    by_cases hkf : f = k
    · subst hkf
      simp [hlf, hf]
    · rw [if_neg hkf]


theorem exists_of_map_eq {α β : Type} {f : α → β} {a b : Option α} {x : α}
    (hab : a.map f = b.map f) (hb : b = some x) : ∃ y, a = some y := by
  subst hb
  cases a with
  | none => cases hab
  | some y => exact ⟨y, rfl⟩

theorem links_iff (a b : Option ReplicatedSegment) :
    a.map ReplicatedSegment.links = b.map ReplicatedSegment.links ↔
      (a.map (fun x => x.followingSegment) = b.map (fun x => x.followingSegment) ∧
       a.map (fun x => x.precedingSegmentCloseAcked) =
         b.map (fun x => x.precedingSegmentCloseAcked)) := by
  cases a <;> cases b <;> simp [ReplicatedSegment.links, Prod.ext_iff]

/-- With a write RPC outstanding on a replica that is not synced, `performWrite` is the
reap branch. -/
theorem performWrite_eq_reapWrite {c : Collaborators} {e : ReplicaManager} {h i : Nat}
    {outcome : RpcOutcome} {s : ReplicatedSegment} {r : Replica} {rpc : WriteRpc}
    (hs : e.getSegment h = some s) (hi : s.replicas[i]? = some (some r))
    (hne : r.acked ≠ s.queued) (hw : r.writeRpc = some rpc) :
    performWrite c e h i outcome = reapWrite e h i s r outcome := by
  unfold performWrite
  rw [hs]
  simp only [hi]
  rw [if_neg hne, hw]

theorem dec32_of_pos {n : Nat} (h1 : 1 ≤ n) (h2 : n < UINT32) : dec32 n = n - 1 :=
  sub32_of_le h1 h2

/-- The part of the reap branch between the `try` and `writeRpc.destroy()` when the
RPC succeeded: the follower, if one is bound and the write was closing, is told. -/
theorem reap_ack_stage {e : ReplicaManager} {h i : Nat} {s : ReplicatedSegment}
    (r1 : Replica) (closing : Bool) (hs : e.getSegment h = some s)
    (hvalid : closing = true → ∀ f, s.followingSegment = some f →
      ∃ fs, e.getSegment f = some fs) :
    ∃ e2, (if closing then ackFollowing (e.setReplica h i (some r1)) h s
        else some (e.setReplica h i (some r1))) = some e2 ∧
      Frame h i (some r1) e e2 ∧ e2.trace = e.trace ∧
      e2.writeRpcsInFlight = e.writeRpcsInFlight ∧ e2.tasks = e.tasks ∧
      (closing = true → ∀ f, s.followingSegment = some f →
        (e2.getSegment f).map (fun x => x.precedingSegmentCloseAcked) = some true ∧
        (e2.getSegment h).map (fun x => x.followingSegment) = some none ∧
        (∀ k, k ≠ f → (e2.getSegment k).map (fun x => x.precedingSegmentCloseAcked) =
          (e.getSegment k).map (fun x => x.precedingSegmentCloseAcked)) ∧
        (∀ k, k ≠ h → (e2.getSegment k).map (fun x => x.followingSegment) =
          (e.getSegment k).map (fun x => x.followingSegment))) ∧
      ((closing = false ∨ s.followingSegment = none) →
        ∀ k, (e2.getSegment k).map ReplicatedSegment.links =
          (e.getSegment k).map ReplicatedSegment.links) := by
  have hf0 : Frame h i (some r1) e (e.setReplica h i (some r1)) := Frame.setReplica e h i _
  have hl0 := fun k => links_setReplica e h i k (some r1)
  have hplain : ∀ e2, e2 = e.setReplica h i (some r1) →
      Frame h i (some r1) e e2 ∧ e2.trace = e.trace ∧
      e2.writeRpcsInFlight = e.writeRpcsInFlight ∧ e2.tasks = e.tasks ∧
      ∀ k, (e2.getSegment k).map ReplicatedSegment.links =
        (e.getSegment k).map ReplicatedSegment.links := by
    intro e2 he2
    subst he2
    exact ⟨hf0, by simp, by simp, by simp, hl0⟩
  cases hc : closing with
  | false =>
    obtain ⟨a1, a2, a3, a4, a5⟩ := hplain _ rfl
    exact ⟨_, by simp, a1, a2, a3, a4, fun hx => (by cases hx), fun _ => a5⟩
  | true =>
    simp only [if_true]
    cases hfol : s.followingSegment with
    | none =>
      obtain ⟨a1, a2, a3, a4, a5⟩ := hplain _ rfl
      refine ⟨_, ?_, a1, a2, a3, a4, fun _ f hf => (by cases hf), fun _ => a5⟩
      unfold ackFollowing
      simp only [hfol]
    | some f =>
      obtain ⟨fs, hfs⟩ := hvalid hc f hfol
      obtain ⟨fs0, hfs0⟩ := exists_of_map_eq (hl0 f) hfs
      obtain ⟨sh0, hsh0⟩ := exists_of_map_eq (hl0 h) hs
      obtain ⟨e2, he2, b1, b2, b3, b4⟩ := ackFollowing_bound hfol hsh0 hfs0
      obtain ⟨t1, t2, t3⟩ := ackFollowing_trace he2
      refine ⟨e2, he2, ackFollowing_frame hf0 he2, by rw [t1]; simp, by rw [t2]; simp,
        by rw [t3]; simp, ?_, ?_⟩
      · intro _ f' hf'
        injection hf' with hf'
        subst hf'
        refine ⟨b1, b2, ?_, ?_⟩
        · intro k hk
          rw [b3 k hk]
          exact ((links_iff _ _).mp (hl0 k)).2
        · intro k hk
          rw [b4 k hk]
          exact ((links_iff _ _).mp (hl0 k)).1
      · intro hx
        rcases hx with hx | hx <;> cases hx

/-- C23. What `performWrite` does when it reaps a write RPC that completed, in a
reachable state where the follower, if the write was closing and one is bound, still
exists: the call returns; `acked` becomes `sent`, the RPC handle is destroyed and the
replica stays; `writeRpcsInFlight` is decremented (as a `uint32_t`); nothing is sent;
the segment is scheduled, beyond what the queue held, exactly when the new `acked`
differs from `queued`; if `sent.close` and a follower is bound, the follower's
`precedingSegmentCloseAcked` becomes true and `followingSegment` becomes null, the
other segments keeping theirs; otherwise these fields are unchanged everywhere. -/
theorem reap_success_effect (c : Collaborators) (e : ReplicaManager) (h i : Nat)
    (s : ReplicatedSegment) (r : Replica) (rpc : WriteRpc) (hr : Reachable c e)
    (hs : e.getSegment h = some s) (hi : s.replicas[i]? = some (some r))
    (hne : r.acked ≠ s.queued) (hw : r.writeRpc = some rpc)
    (hvalid : r.sent.close = true → ∀ f, s.followingSegment = some f →
      ∃ fs, e.getSegment f = some fs) :
    ∃ e1, performWrite c e h i RpcOutcome.success = some e1 ∧
      e1.slotAt h i = some (some { r with acked := r.sent, writeRpc := none }) ∧
      e1.writeRpcsInFlight = dec32 e.writeRpcsInFlight ∧
      (1 ≤ e.writeRpcsInFlight → e.writeRpcsInFlight < UINT32 →
        e1.writeRpcsInFlight = e.writeRpcsInFlight - 1) ∧
      e1.trace = e.trace ∧
      e1.tasks = (if r.sent ≠ s.queued then e.schedule h else e).tasks ∧
      (r.sent.close = true → ∀ f, s.followingSegment = some f →
        (e1.getSegment f).map (fun x => x.precedingSegmentCloseAcked) = some true ∧
        (e1.getSegment h).map (fun x => x.followingSegment) = some none ∧
        (∀ k, k ≠ f → (e1.getSegment k).map (fun x => x.precedingSegmentCloseAcked) =
          (e.getSegment k).map (fun x => x.precedingSegmentCloseAcked)) ∧
        (∀ k, k ≠ h → (e1.getSegment k).map (fun x => x.followingSegment) =
          (e.getSegment k).map (fun x => x.followingSegment))) ∧
      ((r.sent.close = false ∨ s.followingSegment = none) →
        ∀ k, (e1.getSegment k).map ReplicatedSegment.links =
          (e.getSegment k).map ReplicatedSegment.links) := by
  have hop : r.sent.opened = true := (SlotInv_of_reachable hr hs hi).1
  obtain ⟨e2, he2, hfr, ht, hc, hq, hl1, hl2⟩ :=
    reap_ack_stage (i := i) { r with acked := r.sent } r.sent.close hs hvalid
  have hpw : performWrite c e h i RpcOutcome.success =
      some (finishReap e2 h i s { r with acked := r.sent }) := by
    rw [performWrite_eq_reapWrite hs hi hne hw]
    simp only [reapWrite]
    rw [he2]
  have hcnt : (finishReap e2 h i s { r with acked := r.sent }).writeRpcsInFlight =
      dec32 e.writeRpcsInFlight := by
    rw [finishReap_writeRpcsInFlight, hc]
  have hlk : ∀ k, ((finishReap e2 h i s { r with acked := r.sent }).getSegment k).map
      ReplicatedSegment.links = (e2.getSegment k).map ReplicatedSegment.links :=
    fun k => links_finishReap e2 h i k s _
  refine ⟨_, hpw, ?_, hcnt, ?_, ?_, ?_, ?_, ?_⟩
  · have := slotAt_of_frame hs hi (finishReap_frame s { r with acked := r.sent } hfr)
    rw [this]
    simp [hop]
  · intro h1 h2
    rw [hcnt]
    exact dec32_of_pos h1 h2
  · rw [finishReap_trace, ht]
  · rw [finishReap_tasks]
    by_cases hqq : r.sent ≠ s.queued
    · rw [if_pos hqq, if_pos hqq]
      exact tasks_schedule_congr hq h
    · rw [if_neg hqq, if_neg hqq]
      exact hq
  · intro hcl f hf
    obtain ⟨b1, b2, b3, b4⟩ := hl1 hcl f hf
    refine ⟨?_, ?_, ?_, ?_⟩
    · rw [((links_iff _ _).mp (hlk f)).2]; exact b1
    · rw [((links_iff _ _).mp (hlk h)).1]; exact b2
    · intro k hk
      rw [((links_iff _ _).mp (hlk k)).2]; exact b3 k hk
    · intro k hk
      rw [((links_iff _ _).mp (hlk k)).1]; exact b4 k hk
  · intro hx k
    rw [hlk k]
    exact hl2 hx k

theorem reap_success_effect_witness :
    ∃ e1, performWrite demoCollaborators openSent 0 0 RpcOutcome.success = some e1 ∧
      e1.slotAt 0 0 = some (some ⟨10, 10, ⟨true, 100, false⟩, ⟨true, 100, false⟩,
        none, none⟩) ∧
      e1.writeRpcsInFlight = dec32 1 ∧
      (1 ≤ 1 → 1 < UINT32 → e1.writeRpcsInFlight = 1 - 1) ∧
      e1.trace = openSent.trace ∧
      e1.tasks = openSent.tasks ∧
      (false = true → ∀ f, (none : Option Nat) = some f →
        (e1.getSegment f).map (fun x => x.precedingSegmentCloseAcked) = some true ∧
        (e1.getSegment 0).map (fun x => x.followingSegment) = some none ∧
        (∀ k, k ≠ f → (e1.getSegment k).map (fun x => x.precedingSegmentCloseAcked) =
          (openSent.getSegment k).map (fun x => x.precedingSegmentCloseAcked)) ∧
        (∀ k, k ≠ 0 → (e1.getSegment k).map (fun x => x.followingSegment) =
          (openSent.getSegment k).map (fun x => x.followingSegment))) ∧
      ((false = false ∨ (none : Option Nat) = none) →
        ∀ k, (e1.getSegment k).map ReplicatedSegment.links =
          (openSent.getSegment k).map ReplicatedSegment.links) :=
  reap_success_effect demoCollaborators openSent 0 0
    { masterId := 1, segmentId := 10, openLen := 100, maxBytesPerWriteRpc := 256,
      queued := ⟨true, 100, false⟩, freeQueued := false, followingSegment := none,
      precedingSegmentCloseAcked := true,
      replicas :=
        [some { backupId := 10, client := 10, sent := ⟨true, 100, false⟩,
                acked := ⟨false, 0, false⟩,
                writeRpc := some ⟨0, 100, Flags.OPENPRIMARY⟩, freeRpc := none }] }
    { backupId := 10, client := 10, sent := ⟨true, 100, false⟩,
      acked := ⟨false, 0, false⟩,
      writeRpc := some ⟨0, 100, Flags.OPENPRIMARY⟩, freeRpc := none }
    ⟨0, 100, Flags.OPENPRIMARY⟩ reachable_openSent (by decide) (by decide) (by decide) rfl
    (fun hx => (by cases hx))


/-- C24. What `performWrite` does when it reaps a write RPC that failed with a
`TransportException`: the call returns; `sent` is rolled back to `acked`, `acked`
stays, the RPC handle is destroyed, and the slot becomes absent exactly when
`acked.open` is false; `writeRpcsInFlight` is decremented (as a `uint32_t`); nothing is
sent; the segment is scheduled; `followingSegment` and `precedingSegmentCloseAcked` are
unchanged in every segment. And with one replica, after a failed first opening write
the slot is absent, `writeRpcsInFlight` is back at 0, and the next `proceed()` calls
`selectPrimary` with no conflicts and issues a fresh opening write. -/
theorem reap_failure_effect :
    (∀ (c : Collaborators) (e : ReplicaManager) (h i : Nat) (s : ReplicatedSegment)
        (r : Replica) (rpc : WriteRpc),
      e.getSegment h = some s → s.replicas[i]? = some (some r) →
      r.acked ≠ s.queued → r.writeRpc = some rpc →
      ∃ e1, performWrite c e h i RpcOutcome.transportFailure = some e1 ∧
        e1.slotAt h i =
          some (if r.acked.opened = false then none
            else some { r with sent := r.acked, writeRpc := none }) ∧
        e1.writeRpcsInFlight = dec32 e.writeRpcsInFlight ∧
        (1 ≤ e.writeRpcsInFlight → e.writeRpcsInFlight < UINT32 →
          e1.writeRpcsInFlight = e.writeRpcsInFlight - 1) ∧
        e1.trace = e.trace ∧
        e1.isScheduled h = true ∧ e1.tasks = (e.schedule h).tasks ∧
        ∀ k, (e1.getSegment k).map ReplicatedSegment.links =
          (e.getSegment k).map ReplicatedSegment.links) ∧
    openRetryRun.map (fun x => (x.slotAt 0 0, x.writeRpcsInFlight, x.tasks)) =
      some (some none, 0, [0]) ∧
    (openRetryRun.bind (fun x => proceed demoCollaborators x allSucceed)).map
        (fun y => y.trace) =
      some [Event.selectPrimary [], Event.writeRpc 0 0 10 ⟨0, 100, Flags.OPENPRIMARY⟩,
            Event.selectPrimary [], Event.writeRpc 0 0 10 ⟨0, 100, Flags.OPENPRIMARY⟩] := by
  refine ⟨?_, by decide, by decide⟩
  intro c e h i s r rpc hs hi hne hw
  have hpw : performWrite c e h i RpcOutcome.transportFailure =
      some (finishReap (e.setReplica h i (some { r with sent := r.acked })) h i s
        { r with sent := r.acked }) := by
    rw [performWrite_eq_reapWrite hs hi hne hw]
    simp only [reapWrite]
  have hfr : Frame h i (some { r with sent := r.acked }) e
      (e.setReplica h i (some { r with sent := r.acked })) := Frame.setReplica e h i _
  have hcnt : (finishReap (e.setReplica h i (some { r with sent := r.acked })) h i s
      { r with sent := r.acked }).writeRpcsInFlight = dec32 e.writeRpcsInFlight := by
    rw [finishReap_writeRpcsInFlight]; simp
  have htasks : (finishReap (e.setReplica h i (some { r with sent := r.acked })) h i s
      { r with sent := r.acked }).tasks = (e.schedule h).tasks := by
    rw [finishReap_tasks, if_pos hne]
    exact tasks_schedule_congr (tasks_setReplica _ _ _ _) h
  refine ⟨_, hpw, ?_, hcnt, ?_, ?_, ?_, htasks, ?_⟩
  · exact slotAt_of_frame hs hi (finishReap_frame s { r with sent := r.acked } hfr)
  · intro h1 h2
    rw [hcnt]
    exact dec32_of_pos h1 h2
  · rw [finishReap_trace]; simp
  · rw [← isScheduled_schedule_self e h]
    exact isScheduled_congr htasks h
  · intro k
    rw [links_finishReap]
    exact links_setReplica e h i k _

theorem reap_failure_effect_witness :
    ∃ e1, performWrite demoCollaborators dataSent 0 0 RpcOutcome.transportFailure = some e1 ∧
      e1.slotAt 0 0 =
        some (if (true = false) then none
          else some ⟨10, 10, ⟨true, 100, false⟩, ⟨true, 100, false⟩, none, none⟩) ∧
      e1.writeRpcsInFlight = dec32 0 ∧
      (1 ≤ 0 → 0 < UINT32 → e1.writeRpcsInFlight = 0 - 1) ∧
      e1.trace = dataSent.trace ∧
      e1.isScheduled 0 = true ∧ e1.tasks = (dataSent.schedule 0).tasks ∧
      ∀ k, (e1.getSegment k).map ReplicatedSegment.links =
        (dataSent.getSegment k).map ReplicatedSegment.links :=
  reap_failure_effect.1 demoCollaborators dataSent 0 0
    { masterId := 1, segmentId := 10, openLen := 100, maxBytesPerWriteRpc := 256,
      queued := ⟨true, 300, false⟩, freeQueued := false, followingSegment := none,
      precedingSegmentCloseAcked := true,
      replicas :=
        [some { backupId := 10, client := 10, sent := ⟨true, 300, false⟩,
                acked := ⟨true, 100, false⟩,
                writeRpc := some ⟨100, 200, Flags.NONE⟩, freeRpc := none }] }
    { backupId := 10, client := 10, sent := ⟨true, 300, false⟩,
      acked := ⟨true, 100, false⟩,
      writeRpc := some ⟨100, 200, Flags.NONE⟩, freeRpc := none }
    ⟨100, 200, Flags.NONE⟩ (by decide) (by decide) (by decide) rfl


/-! ## `performFree`, branch by branch -/

/-- A call of `performWrite` on a replica with a write RPC outstanding leaves
`writeRpcsInFlight` as it is or decrements it. -/
theorem reap_counter {c : Collaborators} {e e1 : ReplicaManager} {h i : Nat}
    {outcome : RpcOutcome} {s : ReplicatedSegment} {r : Replica} {rpc : WriteRpc}
    (hs : e.getSegment h = some s) (hi : s.replicas[i]? = some (some r))
    (hw : r.writeRpc = some rpc) (hstep : performWrite c e h i outcome = some e1) :
    e1.writeRpcsInFlight = e.writeRpcsInFlight ∨
      e1.writeRpcsInFlight = dec32 e.writeRpcsInFlight := by
  rcases performWrite_present hs hi hstep with ⟨_, he⟩ | ⟨_, _, hreap⟩ | ⟨_, hnone, _⟩
  · exact Or.inl (by rw [he])
  · cases outcome with
    | notReady =>
      simp only [reapWrite] at hreap
      injection hreap with hreap
      subst hreap
      exact Or.inl (by simp)
    | success =>
      simp only [reapWrite] at hreap
      split at hreap
      · cases hreap
      · rename_i e2 he2
        injection hreap with hreap
        subst hreap
        rw [finishReap_writeRpcsInFlight]
        split at he2
        · rw [(ackFollowing_trace he2).2.1]; exact Or.inr (by simp)
        · injection he2 with he2; subst he2; exact Or.inr (by simp)
    | transportFailure =>
      simp only [reapWrite] at hreap
      injection hreap with hreap
      subst hreap
      rw [finishReap_writeRpcsInFlight]
      exact Or.inr (by simp)
  · rw [hw] at hnone; cases hnone

/-- Every branch of `performFree` in closed form, and what the call does to
`writeRpcsInFlight`. -/
theorem performFree_branches (c : Collaborators) (e : ReplicaManager) (h i : Nat)
    (outcome : RpcOutcome) (s : ReplicatedSegment) (slot : Option Replica)
    (hs : e.getSegment h = some s) (hi : s.replicas[i]? = some slot) :
    (slot = none → performFree c e h i outcome = some e) ∧
    (∀ r rpc, slot = some r → r.freeRpc = some rpc → outcome = RpcOutcome.success →
      performFree c e h i outcome = some (e.setReplica h i none) ∧
      (e.setReplica h i none).slotAt h i = some none ∧
      (e.setReplica h i none).tasks = e.tasks) ∧
    (∀ r rpc, slot = some r → r.freeRpc = some rpc →
      outcome = RpcOutcome.transportFailure →
      performFree c e h i outcome =
        some ((e.setReplica h i (some { r with freeRpc := none })).schedule h) ∧
      ((e.setReplica h i (some { r with freeRpc := none })).schedule h).slotAt h i =
        some (some { r with freeRpc := none })) ∧
    (∀ r rpc, slot = some r → r.freeRpc = some rpc → outcome = RpcOutcome.notReady →
      performFree c e h i outcome = some (e.schedule h)) ∧
    (∀ r rpc, slot = some r → r.freeRpc = none → r.writeRpc = some rpc →
      performFree c e h i outcome =
        (performWrite c e h i outcome).map (fun e1 => e1.schedule h) ∧
      ∀ e1, performFree c e h i outcome = some e1 →
        e1.trace = e.trace ∧ e1.isScheduled h = true ∧
        ∀ r1, e1.slotAt h i = some (some r1) → r1.freeRpc = none) ∧
    (∀ r, slot = some r → r.freeRpc = none → r.writeRpc = none →
      performFree c e h i outcome =
        some (((e.emit (Event.freeRpc h i r.backupId)).setReplica h i
          (some { r with freeRpc := some { masterId := s.masterId,
                                           segmentId := s.segmentId } })).schedule h) ∧
      (((e.emit (Event.freeRpc h i r.backupId)).setReplica h i
          (some { r with freeRpc := some { masterId := s.masterId,
                                           segmentId := s.segmentId } })).schedule h).slotAt h i =
        some (some { r with freeRpc := some { masterId := s.masterId,
                                              segmentId := s.segmentId } })) ∧
    (∀ e1, performFree c e h i outcome = some e1 →
      e1.writeRpcsInFlight = e.writeRpcsInFlight ∨
        e1.writeRpcsInFlight = dec32 e.writeRpcsInFlight) := by
  have hslot : e.slotAt h i = some slot := by rw [slotAt_of_getSegment hs]; exact hi
  have hfree : ∀ r, slot = some r → ∀ rpc, r.freeRpc = none → r.writeRpc = some rpc →
      performFree c e h i outcome =
        (performWrite c e h i outcome).map (fun e1 => e1.schedule h) := by
    intro r hr rpc hfr hw
    subst hr
    unfold performFree
    rw [hs]
    simp only [hi]
    rw [hfr]
    simp only []
    rw [hw]
    simp only []
    cases performWrite c e h i outcome <;> rfl
  refine ⟨?_, ?_, ?_, ?_, ?_, ?_, ?_⟩
  · intro hn
    subst hn
    unfold performFree
    rw [hs]
    simp only [hi]
  · intro r rpc hr hfr ho
    subst hr ho
    refine ⟨?_, slotAt_setReplica_self _ hslot _, by simp⟩
    unfold performFree
    rw [hs]
    simp only [hi]
    rw [hfr]
  · intro r rpc hr hfr ho
    subst hr ho
    refine ⟨?_, by rw [slotAt_schedule]; exact slotAt_setReplica_self _ hslot _⟩
    unfold performFree
    rw [hs]
    simp only [hi]
    rw [hfr]
  · intro r rpc hr hfr ho
    subst hr ho
    unfold performFree
    rw [hs]
    simp only [hi]
    rw [hfr]
  · intro r rpc hr hfr hw
    refine ⟨hfree r hr rpc hfr hw, ?_⟩
    intro e1 hstep
    subst hr
    have htr := trace_of_outstanding hslot hw (Or.inr hstep)
    rw [hfree r rfl rpc hfr hw] at hstep
    cases hpw : performWrite c e h i outcome with
    | none => rw [hpw] at hstep; cases hstep
    | some e2 =>
      rw [hpw] at hstep
      simp only [Option.map_some', Option.some.injEq] at hstep
      subst hstep
      refine ⟨htr, by simp, ?_⟩
      intro r1 hr1
      rw [slotAt_schedule] at hr1
      obtain ⟨new, hnew, hss⟩ := slot_step hs hi (Or.inl hpw)
      rw [hr1] at hnew
      injection hnew with hnew
      subst hnew
      generalize hn : some r1 = new at hss
      generalize ho : some r = old at hss
      cases hss with
      | same => rw [← ho] at hn; injection hn with hn; subst hn; exact hfr
      | opened => cases ho
      | reapedKept r0 rpc0 hrpc hne hoo hop =>
        injection ho with ho; subst ho
        injection hn with hn; subst hn
        cases outcome <;> simpa [reaped] using hfr
      | reapedReset => cases hn
      | written r0 hrpc hne hlt hfree0 hcl hp =>
        injection ho with ho; subst ho
        rw [hw] at hrpc; cases hrpc
      | freeIssued r0 hfr0 hw0 =>
        injection ho with ho; subst ho
        rw [hw] at hw0; cases hw0
      | freeFailed r0 rpc0 hfr0 =>
        injection ho with ho; subst ho
        rw [hfr] at hfr0; cases hfr0
      | freed => cases hn
  · intro r hr hfr hw
    subst hr
    refine ⟨?_, by
      rw [slotAt_schedule]
      exact slotAt_setReplica_self (some r) (by rw [slotAt_emit]; exact hslot) _⟩
    unfold performFree
    rw [hs]
    simp only [hi]
    rw [hfr]
    simp only []
    rw [hw]
  · intro e1 hstep
    cases slot with
    | none =>
      unfold performFree at hstep
      rw [hs] at hstep
      simp only [hi] at hstep
      injection hstep with hstep
      subst hstep
      exact Or.inl rfl
    | some r =>
      cases hfr : r.freeRpc with
      | some frpc =>
        unfold performFree at hstep
        rw [hs] at hstep
        simp only [hi] at hstep
        rw [hfr] at hstep
        cases outcome <;> simp only at hstep <;> injection hstep with hstep <;>
          subst hstep <;> exact Or.inl (by simp)
      | none =>
        cases hw : r.writeRpc with
        | some rpc =>
          rw [hfree r rfl rpc hfr hw] at hstep
          cases hpw : performWrite c e h i outcome with
          | none => rw [hpw] at hstep; cases hstep
          | some e2 =>
            rw [hpw] at hstep
            simp only [Option.map_some', Option.some.injEq] at hstep
            subst hstep
            rw [writeRpcsInFlight_schedule]
            exact reap_counter hs hi hw hpw
        | none =>
          unfold performFree at hstep
          rw [hs] at hstep
          simp only [hi] at hstep
          rw [hfr] at hstep
          simp only [] at hstep
          rw [hw] at hstep
          injection hstep with hstep
          subst hstep
          exact Or.inl (by simp)

/-- C25. The decision tree of `performFree` for a slot of the segment: an absent slot
leaves the state as it is (not scheduled); a free RPC that completed makes the slot
absent without scheduling; a free RPC that failed is destroyed, the replica stays with
its other fields and the segment is scheduled; a free RPC that is not ready only
schedules; with no free RPC and a write RPC outstanding the call is one step of
`performWrite` followed by `schedule()`, which sends nothing and leaves the replica
without free RPC; with no RPC at all a free RPC is constructed and the segment is
scheduled. In no case is `writeRpcsInFlight` incremented: it stays or is decremented
by the reaping of a write RPC. -/
theorem performFree_decision_tree (c : Collaborators) (e : ReplicaManager) (h i : Nat)
    (outcome : RpcOutcome) (s : ReplicatedSegment) (slot : Option Replica)
    (hs : e.getSegment h = some s) (hi : s.replicas[i]? = some slot) :
    (slot = none → performFree c e h i outcome = some e) ∧
    (∀ r rpc, slot = some r → r.freeRpc = some rpc → outcome = RpcOutcome.success →
      performFree c e h i outcome = some (e.setReplica h i none) ∧
      (e.setReplica h i none).slotAt h i = some none ∧
      (e.setReplica h i none).tasks = e.tasks) ∧
    (∀ r rpc, slot = some r → r.freeRpc = some rpc →
      outcome = RpcOutcome.transportFailure →
      performFree c e h i outcome =
        some ((e.setReplica h i (some { r with freeRpc := none })).schedule h) ∧
      ((e.setReplica h i (some { r with freeRpc := none })).schedule h).slotAt h i =
        some (some { r with freeRpc := none })) ∧
    (∀ r rpc, slot = some r → r.freeRpc = some rpc → outcome = RpcOutcome.notReady →
      performFree c e h i outcome = some (e.schedule h)) ∧
    (∀ r rpc, slot = some r → r.freeRpc = none → r.writeRpc = some rpc →
      performFree c e h i outcome =
        (performWrite c e h i outcome).map (fun e1 => e1.schedule h) ∧
      ∀ e1, performFree c e h i outcome = some e1 →
        e1.trace = e.trace ∧ e1.isScheduled h = true ∧
        ∀ r1, e1.slotAt h i = some (some r1) → r1.freeRpc = none) ∧
    (∀ r, slot = some r → r.freeRpc = none → r.writeRpc = none →
      performFree c e h i outcome =
        some (((e.emit (Event.freeRpc h i r.backupId)).setReplica h i
          (some { r with freeRpc := some { masterId := s.masterId,
                                           segmentId := s.segmentId } })).schedule h) ∧
      (((e.emit (Event.freeRpc h i r.backupId)).setReplica h i
          (some { r with freeRpc := some { masterId := s.masterId,
                                           segmentId := s.segmentId } })).schedule h).slotAt h i =
        some (some { r with freeRpc := some { masterId := s.masterId,
                                              segmentId := s.segmentId } })) ∧
    (∀ e1, performFree c e h i outcome = some e1 →
      e1.writeRpcsInFlight = e.writeRpcsInFlight ∨
        e1.writeRpcsInFlight = dec32 e.writeRpcsInFlight) :=
  performFree_branches c e h i outcome s slot hs hi

theorem performFree_decision_tree_witness :
    (performFree demoCollaborators
        (freeingManager (some ⟨10, 10, ⟨true, 100, false⟩, ⟨true, 100, false⟩, none, none⟩))
        0 0 RpcOutcome.notReady =
      some ((((freeingManager
          (some ⟨10, 10, ⟨true, 100, false⟩, ⟨true, 100, false⟩, none, none⟩)).emit
            (Event.freeRpc 0 0 10)).setReplica 0 0
          (some ⟨10, 10, ⟨true, 100, false⟩, ⟨true, 100, false⟩, none,
            some ⟨1, 10⟩⟩)).schedule 0) ∧
      ((((freeingManager
          (some ⟨10, 10, ⟨true, 100, false⟩, ⟨true, 100, false⟩, none, none⟩)).emit
            (Event.freeRpc 0 0 10)).setReplica 0 0
          (some ⟨10, 10, ⟨true, 100, false⟩, ⟨true, 100, false⟩, none,
            some ⟨1, 10⟩⟩)).schedule 0).slotAt 0 0 =
        some (some ⟨10, 10, ⟨true, 100, false⟩, ⟨true, 100, false⟩, none,
          some ⟨1, 10⟩⟩)) ∧
    (performFree demoCollaborators
        (freeingManager
          (some ⟨10, 10, ⟨true, 100, false⟩, ⟨true, 100, false⟩, none, some ⟨1, 10⟩⟩))
        0 0 RpcOutcome.success =
      some ((freeingManager
          (some ⟨10, 10, ⟨true, 100, false⟩, ⟨true, 100, false⟩, none,
            some ⟨1, 10⟩⟩)).setReplica 0 0 none) ∧
      ((freeingManager
          (some ⟨10, 10, ⟨true, 100, false⟩, ⟨true, 100, false⟩, none,
            some ⟨1, 10⟩⟩)).setReplica 0 0 none).slotAt 0 0 = some none ∧
      ((freeingManager
          (some ⟨10, 10, ⟨true, 100, false⟩, ⟨true, 100, false⟩, none,
            some ⟨1, 10⟩⟩)).setReplica 0 0 none).tasks = []) :=
  ⟨(performFree_decision_tree demoCollaborators
      (freeingManager (some ⟨10, 10, ⟨true, 100, false⟩, ⟨true, 100, false⟩, none, none⟩))
      0 0 RpcOutcome.notReady
      { freedSegment with
        replicas := [some ⟨10, 10, ⟨true, 100, false⟩, ⟨true, 100, false⟩, none, none⟩] }
      (some ⟨10, 10, ⟨true, 100, false⟩, ⟨true, 100, false⟩, none, none⟩)
      (by decide) (by decide)).2.2.2.2.2.1
      ⟨10, 10, ⟨true, 100, false⟩, ⟨true, 100, false⟩, none, none⟩ rfl rfl rfl,
   (performFree_decision_tree demoCollaborators
      (freeingManager
        (some ⟨10, 10, ⟨true, 100, false⟩, ⟨true, 100, false⟩, none, some ⟨1, 10⟩⟩))
      0 0 RpcOutcome.success
      { freedSegment with
        replicas :=
          [some ⟨10, 10, ⟨true, 100, false⟩, ⟨true, 100, false⟩, none, some ⟨1, 10⟩⟩] }
      (some ⟨10, 10, ⟨true, 100, false⟩, ⟨true, 100, false⟩, none, some ⟨1, 10⟩⟩)
      (by decide) (by decide)).2.1
      ⟨10, 10, ⟨true, 100, false⟩, ⟨true, 100, false⟩, none, some ⟨1, 10⟩⟩ ⟨1, 10⟩
      rfl rfl rfl⟩


/-! ## The slot after a call of `performWrite` or `performFree`, exactly -/

/-- The slot `i` after a call of `performWrite`: unchanged; or opened on the backup the
selector returned for the backups of the present replicas; or, for a replica that
existed, destroyed or kept on the same backup with the same free RPC. -/
theorem performWrite_slot_cases {c : Collaborators} {e e1 : ReplicaManager} {h i : Nat}
    {s : ReplicatedSegment} {outcome : RpcOutcome} {old : Option Replica}
    (hs : e.getSegment h = some s) (hi : s.replicas[i]? = some old)
    (hstep : performWrite c e h i outcome = some e1) :
    ∃ new, Frame h i new e e1 ∧
      (new = old ∨
       (old = none ∧ ∃ r1, new = some r1 ∧ r1.freeRpc = none ∧
          r1.backupId = (if i = 0 then c.selectPrimary (presentIds s.replicas)
            else c.selectSecondary (presentIds s.replicas))) ∨
       (∃ r, old = some r ∧
          (new = none ∨ ∃ r1, new = some r1 ∧ r1.backupId = r.backupId ∧
            r1.freeRpc = r.freeRpc))) := by
  have hsame : Frame h i old e e := Frame.same (by rw [slotAt_of_getSegment hs]; exact hi)
  cases old with
  | none =>
    have hpw : performWrite c e h i outcome = openReplica c e h i s := by
      unfold performWrite; rw [hs]; simp only [hi]
    rw [hpw] at hstep
    by_cases hw : e.writeRpcsInFlight = c.MAX_WRITE_RPCS_IN_FLIGHT
    · unfold openReplica at hstep
      rw [if_pos hw] at hstep
      injection hstep with hstep
      subst hstep
      exact ⟨none, hsame.schedule h, Or.inl rfl⟩
    · rw [openReplica_eq hi hw] at hstep
      injection hstep with hstep
      subst hstep
      refine ⟨_, Frame.schedule
        (Frame.setReplica_after (((hsame.emit _).emit _).setInFlight _) _) h, ?_⟩
      exact Or.inr (Or.inl ⟨rfl, _, rfl, rfl, rfl⟩)
  | some r =>
    rcases performWrite_present hs hi hstep with ⟨_, he⟩ | ⟨_, _, hreap⟩ | ⟨_, _, hiss⟩
    · subst he
      exact ⟨some r, hsame, Or.inl rfl⟩
    · have hfin : ∀ (r1 : Replica) (e2 : ReplicaManager), r1.backupId = r.backupId →
          r1.freeRpc = r.freeRpc → Frame h i (some r1) e e2 →
          ∃ new, Frame h i new e (finishReap e2 h i s r1) ∧
            (new = some r ∨
             (some r = none ∧ ∃ r1, new = some r1 ∧ r1.freeRpc = none ∧
                r1.backupId = (if i = 0 then c.selectPrimary (presentIds s.replicas)
                  else c.selectSecondary (presentIds s.replicas))) ∨
             (∃ r0, some r = some r0 ∧
                (new = none ∨ ∃ r1, new = some r1 ∧ r1.backupId = r0.backupId ∧
                  r1.freeRpc = r0.freeRpc))) := by
        intro r1 e2 hb hfr hf2
        refine ⟨_, finishReap_frame s r1 hf2, Or.inr (Or.inr ⟨r, rfl, ?_⟩)⟩
        by_cases hop : r1.acked.opened = false
        · rw [if_pos hop]; exact Or.inl rfl
        · rw [if_neg hop]; exact Or.inr ⟨_, rfl, hb, hfr⟩
      cases outcome with
      | notReady =>
        simp only [reapWrite] at hreap
        injection hreap with hreap
        subst hreap
        exact ⟨some r, hsame.schedule h, Or.inl rfl⟩
      | success =>
        simp only [reapWrite] at hreap
        split at hreap
        · cases hreap
        · rename_i e2 he2
          injection hreap with hreap
          subst hreap
          have hfr1 : Frame h i (some { r with acked := r.sent }) e
              (e.setReplica h i (some { r with acked := r.sent })) := Frame.setReplica e h i _
          refine hfin { r with acked := r.sent } e2 rfl rfl ?_
          split at he2
          · exact ackFollowing_frame hfr1 he2
          · injection he2 with he2; subst he2; exact hfr1
      | transportFailure =>
        simp only [reapWrite] at hreap
        injection hreap with hreap
        subst hreap
        exact hfin { r with sent := r.acked } _ rfl rfl (Frame.setReplica e h i _)
    · obtain ⟨_, _, _, hcase⟩ := issueWrite_cases hiss
      rcases hcase with he | ⟨_, he⟩
      · subst he
        exact ⟨some r, hsame.schedule h, Or.inl rfl⟩
      · subst he
        exact ⟨_, ((hsame.emit _).setReplica_after _).schedule h,
          Or.inr (Or.inr ⟨r, rfl, Or.inr ⟨_, rfl, rfl, rfl⟩⟩)⟩

/-- The slot `i` after a call of `performFree`: unchanged, destroyed, or kept on the
same backup. -/
theorem performFree_slot_cases {c : Collaborators} {e e1 : ReplicaManager} {h i : Nat}
    {s : ReplicatedSegment} {outcome : RpcOutcome} {old : Option Replica}
    (hs : e.getSegment h = some s) (hi : s.replicas[i]? = some old)
    (hstep : performFree c e h i outcome = some e1) :
    ∃ new, Frame h i new e e1 ∧
      (new = old ∨
       (∃ r, old = some r ∧
          (new = none ∨ ∃ r1, new = some r1 ∧ r1.backupId = r.backupId))) := by
  obtain ⟨t1, t2, t3, t4, t5, t6, _⟩ := performFree_branches c e h i outcome s old hs hi
  have hsame : Frame h i old e e := Frame.same (by rw [slotAt_of_getSegment hs]; exact hi)
  cases old with
  | none =>
    rw [t1 rfl] at hstep
    injection hstep with hstep
    subst hstep
    exact ⟨none, hsame, Or.inl rfl⟩
  | some r =>
    cases hfr : r.freeRpc with
    | some frpc =>
      cases outcome with
      | notReady =>
        rw [t4 r frpc rfl hfr rfl] at hstep
        injection hstep with hstep
        subst hstep
        exact ⟨some r, hsame.schedule h, Or.inl rfl⟩
      | success =>
        rw [(t2 r frpc rfl hfr rfl).1] at hstep
        injection hstep with hstep
        subst hstep
        exact ⟨none, hsame.setReplica_after none, Or.inr ⟨r, rfl, Or.inl rfl⟩⟩
      | transportFailure =>
        rw [(t3 r frpc rfl hfr rfl).1] at hstep
        injection hstep with hstep
        subst hstep
        exact ⟨_, (hsame.setReplica_after _).schedule h,
          Or.inr ⟨r, rfl, Or.inr ⟨_, rfl, rfl⟩⟩⟩
    | none =>
      cases hw : r.writeRpc with
      | some rpc =>
        rw [(t5 r rpc rfl hfr hw).1] at hstep
        cases hpw : performWrite c e h i outcome with
        | none => rw [hpw] at hstep; cases hstep
        | some e2 =>
          rw [hpw] at hstep
          simp only [Option.map_some', Option.some.injEq] at hstep
          subst hstep
          obtain ⟨new, hf, hcase⟩ := performWrite_slot_cases hs hi hpw
          refine ⟨new, hf.schedule h, ?_⟩
          rcases hcase with hc | ⟨hc, _⟩ | ⟨r0, hr0, hc⟩
          · exact Or.inl hc
          · cases hc
          · refine Or.inr ⟨r0, hr0, ?_⟩
            rcases hc with hc | ⟨r1, hr1, hb, _⟩
            · exact Or.inl hc
            · exact Or.inr ⟨r1, hr1, hb⟩
      | none =>
        rw [(t6 r rfl hfr hw).1] at hstep
        injection hstep with hstep
        subst hstep
        exact ⟨_, ((hsame.emit _).setReplica_after _).schedule h,
          Or.inr ⟨r, rfl, Or.inr ⟨_, rfl, rfl⟩⟩⟩


/-! ## The second invariant -/

theorem frame_slot_unique {e e1 : ReplicaManager} {h i : Nat} {s : ReplicatedSegment}
    {old new new1 : Option Replica} (hs : e.getSegment h = some s)
    (hold : s.replicas[i]? = some old) (hf : Frame h i new e e1)
    (hf1 : Frame h i new1 e e1) : new = new1 := by
  have h1 := slotAt_of_frame hs hold hf
  have h2 := slotAt_of_frame hs hold hf1
  rw [h1] at h2
  injection h2

theorem SlotInv2_queued {q q1 : Progress} {slot : Option Replica} (hq : q.close = false)
    (hold : SlotInv2 q slot) : SlotInv2 q1 slot := by
  cases slot with
  | none => trivial
  | some r =>
    obtain ⟨a1, a2, a3⟩ := hold
    refine ⟨?_, ?_, a3⟩
    · intro hc
      have := a1 hc
      rw [this] at hc
      rw [hq] at hc
      cases hc
    · intro hc
      have := a2 hc
      rw [this] at hc
      rw [hq] at hc
      cases hc

theorem Inv2_step {c : Collaborators} {e e1 : ReplicaManager} (hinv : Inv e)
    (hinv2 : Inv2 e) (hstep : Step c e e1) : Inv2 e1 := by
  cases hstep with
  | construct masterId segmentId openLen numReplicas maxBytesPerWriteRpc hol =>
    exact AllSlots_construct hinv2 (fun _ _ => ⟨trivial, fun _ r hr => (by cases hr)⟩) _ _ _ _ _
  | write _ h offset ho hw =>
    exact AllSlots_write hinv2 (fun q fq slot hq hp => ⟨SlotInv2_queued hq hp.1, hp.2⟩) hw
  | close _ h f hc =>
    exact AllSlots_close hinv2 (fun q fq slot hq hp => ⟨SlotInv2_queued hq hp.1, hp.2⟩) hc
  | freeQueued h s hs =>
    exact AllSlots_setSegment hinv2 h _
      (fun slot hslot => ⟨(hinv2 h s hs slot hslot).1, fun hfq => (by cases hfq)⟩)
  | schedule h => exact AllSlots_of_segments_eq hinv2 (segments_schedule _ _)
  | dequeue keep => exact AllSlots_of_segments_eq hinv2 rfl
  | performWrite _ h i outcome hw =>
    cases hs : e.getSegment h with
    | none => unfold performWrite at hw; rw [hs] at hw; cases hw
    | some s =>
      obtain ⟨old, new, h0, h1, h2⟩ := performWrite_frame hs hw
      obtain ⟨new1, hf1, hcase⟩ := performWrite_slot_cases hs h0 hw
      have hnn := frame_slot_unique hs h0 hf1 h2
      subst hnn
      obtain ⟨a1, a2, a3, a4⟩ := hinv h s hs
      have hmem := List.getElem?_mem h0
      obtain ⟨b1, b2⟩ := hinv2 h s hs old hmem
      refine AllSlots_of_frame hinv2 hs ⟨SlotInv2_step ⟨a1, a2, a3⟩ (a4 old hmem) b1 h1, ?_⟩ h2
      intro hfq r1 hr1
      rcases hcase with hc | ⟨_, r2, hr2, hfree, _⟩ | ⟨r, hr, hc⟩
      · rw [hc] at hr1; exact b2 hfq r1 hr1
      · rw [hr1] at hr2; injection hr2 with hr2; rw [hr2]; exact hfree
      · rcases hc with hc | ⟨r2, hr2, _, hfree⟩
        · rw [hr1] at hc; cases hc
        · rw [hr1] at hr2; injection hr2 with hr2
          rw [hr2, hfree]
          exact b2 hfq r hr
  | performFree _ h i outcome s hs hfq hw =>
    obtain ⟨old, new, h0, h1, h2⟩ := performFree_frame hs hw
    obtain ⟨a1, a2, a3, a4⟩ := hinv h s hs
    have hmem := List.getElem?_mem h0
    obtain ⟨b1, b2⟩ := hinv2 h s hs old hmem
    refine AllSlots_of_frame hinv2 hs ⟨SlotInv2_step ⟨a1, a2, a3⟩ (a4 old hmem) b1 h1, ?_⟩ h2
    intro hx
    rw [hfq] at hx
    cases hx
  | destroy _ h hd => exact AllSlots_destroy hinv2 hd

/-- Every reachable state satisfies the second invariant. -/
theorem Reachable.inv2 {c : Collaborators} {e : ReplicaManager} (hr : Reachable c e) :
    Inv2 e := by
  induction hr with
  | init => exact AllSlots_empty _
  | step e e1 hr hstep ih => exact Inv2_step hr.inv ih hstep


/-! ## Consequences of the invariants -/

theorem Progress.lt_of_le_of_ne {a b : Progress} (h1 : a.le b = true) (h2 : a ≠ b) :
    a.lt b = true := by
  unfold Progress.le at h1
  simp only [Bool.or_eq_true, decide_eq_true_eq] at h1
  rcases h1 with h1 | h1
  · exact absurd h1 h2
  · exact h1

theorem Progress.lt_irrefl (a : Progress) : a.lt a = false := by
  obtain ⟨ao, ab, ac⟩ := a
  unfold Progress.lt
  cases ac <;> simp

/-- In a reachable state, a replica that exists, is not synced and has no write RPC
outstanding has `sent = acked`, `sent < queued` and `sent.close` not set; and it has no
free RPC if its segment is not being freed. -/
theorem idle_replica_facts {c : Collaborators} {e : ReplicaManager} {h i : Nat}
    {s : ReplicatedSegment} {r : Replica} (hr : Reachable c e)
    (hs : e.getSegment h = some s) (hi : s.replicas[i]? = some (some r))
    (hw : r.writeRpc = none) :
    r.sent = r.acked ∧
    (r.acked ≠ s.queued → r.sent.lt s.queued = true ∧ r.sent.close = false) ∧
    (r.sent.lt s.queued = true → r.acked ≠ s.queued ∧ r.sent.close = false) ∧
    (s.freeQueued = false → r.freeRpc = none) := by
  obtain ⟨h1, h2, h3, h4, h5⟩ := SlotInv_of_reachable hr hs hi
  obtain ⟨⟨b1, b2, b3⟩, b4⟩ := hr.inv2 h s hs (some r) (List.getElem?_mem hi)
  have hsa := h4 hw
  have hclose : r.sent ≠ s.queued → r.sent.close = false := by
    intro hne
    cases hc : r.sent.close with
    | false => rfl
    | true => exact absurd (b1 hc) hne
  refine ⟨hsa, ?_, ?_, fun hfq => b4 hfq r rfl⟩
  · intro hne
    have hne' : r.sent ≠ s.queued := by rw [hsa]; exact hne
    exact ⟨Progress.lt_of_le_of_ne h3 hne', hclose hne'⟩
  · intro hlt
    have hne' : r.sent ≠ s.queued := by
      intro heq
      rw [heq, Progress.lt_irrefl] at hlt
      cases hlt
    exact ⟨by rw [← hsa]; exact hne', hclose hne'⟩

/-- C1. In every reachable state, every replica that exists satisfies
`acked ≤ sent ≤ queued` in the order of progress tuples. The reachable states are
those reached from a manager without segments by the steps of `Step`: construction,
`write` (when its assertions pass), `close`, the statements of `free`, and the calls of
`performWrite` and `performFree` with any answer of the transport, which include
every `performTask`. -/
theorem progress_order_invariant (c : Collaborators) (e : ReplicaManager)
    (hr : Reachable c e) (h : Nat) (s : ReplicatedSegment) (hs : e.getSegment h = some s)
    (r : Replica) (hmem : some r ∈ s.replicas) :
    r.acked.le r.sent = true ∧ r.sent.le s.queued = true := by
  obtain ⟨_, h2, h3, _, _⟩ := (hr.inv h s hs).2.2.2 (some r) hmem
  exact ⟨h2, h3⟩

theorem progress_order_invariant_witness :
    Progress.le ⟨true, 100, false⟩ ⟨true, 300, false⟩ = true ∧
    Progress.le ⟨true, 300, false⟩ ⟨true, 300, false⟩ = true :=
  progress_order_invariant demoCollaborators dataSent reachable_dataSent 0
    { masterId := 1, segmentId := 10, openLen := 100, maxBytesPerWriteRpc := 256,
      queued := ⟨true, 300, false⟩, freeQueued := false, followingSegment := none,
      precedingSegmentCloseAcked := true,
      replicas :=
        [some { backupId := 10, client := 10, sent := ⟨true, 300, false⟩,
                acked := ⟨true, 100, false⟩,
                writeRpc := some ⟨100, 200, Flags.NONE⟩, freeRpc := none }] }
    (by decide)
    { backupId := 10, client := 10, sent := ⟨true, 300, false⟩,
      acked := ⟨true, 100, false⟩,
      writeRpc := some ⟨100, 200, Flags.NONE⟩, freeRpc := none }
    (by decide)

/-- C27. The branches of `performWrite` marked unreachable are unreachable: in a
reachable state, when `performWrite` finds a replica that exists with `acked != queued`
and no write RPC outstanding, `sent < queued` holds and `sent.close` is false, so
neither `assert(false)` nor `assert(!replica->sent.close)` fails. -/
theorem unreachable_branches (c : Collaborators) (e : ReplicaManager) (hr : Reachable c e)
    (h i : Nat) (s : ReplicatedSegment) (r : Replica) (hs : e.getSegment h = some s)
    (hi : s.replicas[i]? = some (some r)) (hne : r.acked ≠ s.queued)
    (hw : r.writeRpc = none) :
    r.sent.lt s.queued = true ∧ r.sent.close = false :=
  (idle_replica_facts hr hs hi hw).2.1 hne

theorem unreachable_branches_witness :
    Progress.lt ⟨true, 100, false⟩ ⟨true, 300, false⟩ = true ∧ false = false :=
  unreachable_branches demoCollaborators dataQueued reachable_dataQueued 0 0
    { masterId := 1, segmentId := 10, openLen := 100, maxBytesPerWriteRpc := 256,
      queued := ⟨true, 300, false⟩, freeQueued := false, followingSegment := none,
      precedingSegmentCloseAcked := true,
      replicas :=
        [some { backupId := 10, client := 10, sent := ⟨true, 100, false⟩,
                acked := ⟨true, 100, false⟩, writeRpc := none, freeRpc := none }] }
    { backupId := 10, client := 10, sent := ⟨true, 100, false⟩,
      acked := ⟨true, 100, false⟩, writeRpc := none, freeRpc := none }
    (by decide) (by decide) (by decide) rfl

/-- A call of `performWrite` on a replica without write RPC that leaves it with one
took the data-write branch with its guards passed. -/
theorem issued_of_new_rpc {c : Collaborators} {e e1 : ReplicaManager} {h i : Nat}
    {outcome : RpcOutcome} {s : ReplicatedSegment} {r r1 : Replica} {rpc : WriteRpc}
    (hs : e.getSegment h = some s) (hi : s.replicas[i]? = some (some r))
    (hw : r.writeRpc = none) (hstep : performWrite c e h i outcome = some e1)
    (hafter : e1.slotAt h i = some (some r1)) (hnew : r1.writeRpc = some rpc) :
    r.freeRpc = none ∧ r.sent.close = false ∧ s.precedingSegmentCloseAcked = true ∧
    r1 = issued r (nextWriteRpc s r) ∧
    e1 = ((e.emit (Event.writeRpc h i r.backupId (nextWriteRpc s r))).setReplica h i
      (some (issued r (nextWriteRpc s r)))).schedule h := by
  have hslot : e.slotAt h i = some (some r) := by rw [slotAt_of_getSegment hs]; exact hi
  rcases performWrite_present hs hi hstep with ⟨_, he⟩ | ⟨_, ⟨rpc0, hrpc0⟩, _⟩ | ⟨_, _, hiss⟩
  · subst he
    rw [hslot] at hafter
    injection hafter with hafter; injection hafter with hafter
    subst hafter
    rw [hw] at hnew; cases hnew
  · rw [hw] at hrpc0; cases hrpc0
  · obtain ⟨_, hfree, hcl, hcase⟩ := issueWrite_cases hiss
    rcases hcase with he | ⟨hp, he⟩
    · subst he
      rw [slotAt_schedule, hslot] at hafter
      injection hafter with hafter; injection hafter with hafter
      subst hafter
      rw [hw] at hnew; cases hnew
    · subst he
      rw [slotAt_schedule, slotAt_setReplica_self (some r) (by simpa using hslot)] at hafter
      injection hafter with hafter; injection hafter with hafter
      exact ⟨hfree, hcl, hp, hafter.symm, rfl⟩

/-- C4. A call of `performWrite` that constructs a write RPC for a replica that exists
already finds `precedingSegmentCloseAcked` true; and in a reachable state, when
`precedingSegmentCloseAcked` is false, `performWrite` on a replica that exists, has no
RPC outstanding and `sent < queued`, in a segment that is not being freed, returns the
state with the segment scheduled: no RPC is issued (the trace is unchanged) and the
table of segments is unchanged. -/
theorem preceding_close_guard (c : Collaborators) (e : ReplicaManager) (h i : Nat)
    (outcome : RpcOutcome) (s : ReplicatedSegment) (r : Replica) (hr : Reachable c e)
    (hs : e.getSegment h = some s) (hi : s.replicas[i]? = some (some r))
    (hw : r.writeRpc = none) :
    (∀ e1 r1 rpc, performWrite c e h i outcome = some e1 →
      e1.slotAt h i = some (some r1) → r1.writeRpc = some rpc →
      s.precedingSegmentCloseAcked = true) ∧
    (s.precedingSegmentCloseAcked = false → s.freeQueued = false →
      r.sent.lt s.queued = true →
      performWrite c e h i outcome = some (e.schedule h) ∧
      (e.schedule h).trace = e.trace ∧ (e.schedule h).segments = e.segments ∧
      (e.schedule h).writeRpcsInFlight = e.writeRpcsInFlight ∧
      (e.schedule h).isScheduled h = true) := by
  constructor
  · intro e1 r1 rpc hstep hafter hnew
    exact (issued_of_new_rpc hs hi hw hstep hafter hnew).2.2.1
  · intro hp hfq hlt
    obtain ⟨_, _, f3, f4⟩ := idle_replica_facts hr hs hi hw
    obtain ⟨hne, hcl⟩ := f3 hlt
    refine ⟨?_, by simp, by simp, by simp, by simp⟩
    unfold performWrite
    rw [hs]
    simp only [hi]
    rw [if_neg hne, hw]
    simp only []
    unfold issueWrite
    rw [if_pos hlt]
    simp [f4 hfq, hcl, hp]


/-! ## Runs stay among the reachable states -/

theorem Reachable.proceedTimes {c : Collaborators} {net : Nat → Nat → RpcOutcome} (n : Nat)
    {e e1 : ReplicaManager} (hr : Reachable c e)
    (hstep : proceedTimes c net n e = some e1) : Reachable c e1 := by
  induction n generalizing e with
  | zero =>
    simp only [RAMCloud.proceedTimes] at hstep
    injection hstep with hstep
    subst hstep
    exact hr
  | succ n ih =>
    simp only [RAMCloud.proceedTimes] at hstep
    cases hp : RAMCloud.proceed c e net with
    | none => rw [hp] at hstep; cases hstep
    | some e2 =>
      rw [hp] at hstep
      exact ih (hr.proceed hp) hstep

theorem Reachable.of_bind {c : Collaborators} {o : Option ReplicaManager}
    {f : ReplicaManager → Option ReplicaManager}
    (ho : ∀ e, o = some e → Reachable c e)
    (hf : ∀ e e1, Reachable c e → f e = some e1 → Reachable c e1)
    {e1 : ReplicaManager} (hstep : o.bind f = some e1) : Reachable c e1 := by
  cases o with
  | none => cases hstep
  | some e => exact hf e e1 (ho e rfl) hstep

theorem Reachable.of_write {c : Collaborators} {e e1 : ReplicaManager} {h offset : Nat}
    (hr : Reachable c e) (ho : offset < UINT32) (hstep : write e h offset = some e1) :
    Reachable c e1 :=
  Reachable.step e e1 hr (Step.write e e1 h offset ho hstep)

theorem Reachable.of_close {c : Collaborators} {e e1 : ReplicaManager} {h : Nat}
    {f : Option Nat} (hr : Reachable c e) (hstep : close e h f = some e1) :
    Reachable c e1 :=
  Reachable.step e e1 hr (Step.close e e1 h f hstep)

theorem Reachable.of_construct {c : Collaborators} {e : ReplicaManager}
    (hr : Reachable c e) (masterId : ServerId)
    (segmentId openLen numReplicas maxBytesPerWriteRpc : Nat) (hol : openLen < UINT32) :
    Reachable c (construct e masterId segmentId openLen numReplicas maxBytesPerWriteRpc).1 :=
  Reachable.step e _ hr
    (Step.construct e masterId segmentId openLen numReplicas maxBytesPerWriteRpc hol)

theorem Reachable.of_getD {c : Collaborators} {o : Option ReplicaManager}
    (ho : ∀ e, o = some e → Reachable c e) : Reachable c (o.getD ReplicaManager.empty) := by
  cases o with
  | none => exact Reachable.init
  | some e => exact ho e rfl

theorem reachable_closedPair (e : ReplicaManager) (he : closedPair = some e) :
    Reachable demoCollaborators e := by
  unfold closedPair at he
  refine Reachable.of_bind ?_ ?_ he
  · intro e1 h1
    exact Reachable.proceedTimes 2
      (Reachable.of_construct Reachable.init 1 1 100 1 256 (by decide)) h1
  · intro e1 e2 hr1 h2
    refine Reachable.of_bind (fun e3 h3 => hr1.of_write (by decide) h3) ?_ h2
    intro e3 e4 hr3 h4
    exact (Reachable.of_construct hr3 1 2 100 1 256 (by decide)).of_close h4

theorem reachable_blockedFollower (e : ReplicaManager) (he : blockedFollower = some e) :
    Reachable demoCollaborators e := by
  unfold blockedFollower at he
  refine Reachable.of_bind reachable_closedPair ?_ he
  intro e1 e2 hr1 h2
  refine Reachable.of_bind (fun e3 h3 => Reachable.proceedTimes 2 hr1 h3) ?_ h2
  intro e3 e4 hr3 h4
  exact hr3.of_write (by decide) h4

theorem preceding_close_guard_witness :
    performWrite demoCollaborators (blockedFollower.getD ReplicaManager.empty) 1 0
        RpcOutcome.notReady =
      some ((blockedFollower.getD ReplicaManager.empty).schedule 1) ∧
    ((blockedFollower.getD ReplicaManager.empty).schedule 1).trace =
      (blockedFollower.getD ReplicaManager.empty).trace ∧
    ((blockedFollower.getD ReplicaManager.empty).schedule 1).segments =
      (blockedFollower.getD ReplicaManager.empty).segments ∧
    ((blockedFollower.getD ReplicaManager.empty).schedule 1).writeRpcsInFlight =
      (blockedFollower.getD ReplicaManager.empty).writeRpcsInFlight ∧
    ((blockedFollower.getD ReplicaManager.empty).schedule 1).isScheduled 1 = true :=
  (preceding_close_guard demoCollaborators (blockedFollower.getD ReplicaManager.empty) 1 0
    RpcOutcome.notReady
    { masterId := 1, segmentId := 2, openLen := 100, maxBytesPerWriteRpc := 256,
      queued := ⟨true, 200, false⟩, freeQueued := false, followingSegment := none,
      precedingSegmentCloseAcked := false,
      replicas :=
        [some { backupId := 10, client := 10, sent := ⟨true, 100, false⟩,
                acked := ⟨true, 100, false⟩, writeRpc := none, freeRpc := none }] }
    { backupId := 10, client := 10, sent := ⟨true, 100, false⟩,
      acked := ⟨true, 100, false⟩, writeRpc := none, freeRpc := none }
    (Reachable.of_getD reachable_blockedFollower) (by decide) (by decide) rfl).2
    rfl rfl (by decide)


/-! ## The progress sent, step by step -/

theorem Progress.le_antisymm {a b : Progress} (h1 : a.le b = true) (h2 : b.le a = true) :
    a = b := by
  rw [Progress.le_iff] at h1 h2
  obtain ⟨ao, ab, ac⟩ := a
  obtain ⟨bo, bb, bc⟩ := b
  cases ao <;> cases bo <;> cases ac <;> cases bc <;> simp at * <;> omega

/-- The slot after `performWrite` found a write RPC that failed with a
`TransportException`. -/
theorem performWrite_failure_slot {c : Collaborators} {e e1 : ReplicaManager} {h i : Nat}
    {s : ReplicatedSegment} {r : Replica} {rpc : WriteRpc}
    (hs : e.getSegment h = some s) (hi : s.replicas[i]? = some (some r))
    (hw : r.writeRpc = some rpc)
    (hstep : performWrite c e h i RpcOutcome.transportFailure = some e1) :
    e1.slotAt h i =
      some (if r.acked = s.queued then some r
        else if r.acked.opened = false then none
        else some { r with sent := r.acked, writeRpc := none }) := by
  by_cases hq : r.acked = s.queued
  · rw [if_pos hq]
    rcases performWrite_present hs hi hstep with ⟨_, he⟩ | ⟨hne, _, _⟩ | ⟨hne, _, _⟩
    · rw [he, slotAt_of_getSegment hs]; exact hi
    · exact absurd hq hne
    · exact absurd hq hne
  · rw [if_neg hq]
    rw [performWrite_eq_reapWrite hs hi hq hw] at hstep
    simp only [reapWrite] at hstep
    injection hstep with hstep
    subst hstep
    exact slotAt_of_frame hs hi
      (finishReap_frame s { r with sent := r.acked } (Frame.setReplica e h i _))

/-- C17, amended. In a reachable state, a call of `performWrite` or of `performFree`
for a replica that exists before and after the call leaves `sent` at least what it
was, unless the call finds a write RPC that failed with a `TransportException`: in
that case `sent` is set back to `acked`, which is at most what `sent` was. -/
theorem sent_monotone_unless_rollback (c : Collaborators) (e e1 : ReplicaManager) (h i : Nat)
    (outcome : RpcOutcome) (r r1 : Replica) (hr : Reachable c e)
    (hstep : performWrite c e h i outcome = some e1 ∨ performFree c e h i outcome = some e1)
    (hbefore : e.slotAt h i = some (some r)) (hafter : e1.slotAt h i = some (some r1)) :
    (outcome ≠ RpcOutcome.transportFailure → r.sent.le r1.sent = true) ∧
    (r.writeRpc = none → r.sent.le r1.sent = true) ∧
    (outcome = RpcOutcome.transportFailure → ∀ rpc, r.writeRpc = some rpc →
      r1.sent = r.acked ∧ r1.sent.le r.sent = true) := by
  obtain ⟨s, hs, hold⟩ := getSegment_of_slotAt hbefore
  obtain ⟨a1, a2, _, _⟩ := hr.inv h s hs
  obtain ⟨h1, h2, h3, h4, h5⟩ := SlotInv_of_reachable hr hs hold
  have hmono : (outcome ≠ RpcOutcome.transportFailure → r.sent.le r1.sent = true) ∧
      (r.writeRpc = none → r.sent.le r1.sent = true) := by
    obtain ⟨new, hnew, hss⟩ := slot_step hs hold hstep
    rw [hafter] at hnew
    injection hnew with hnew
    subst hnew
    have hall : ∀ x : Replica, x.sent = r.sent →
        (outcome ≠ RpcOutcome.transportFailure → r.sent.le x.sent = true) ∧
        (r.writeRpc = none → r.sent.le x.sent = true) := by
      intro x hx
      rw [hx]
      exact ⟨fun _ => Progress.le_refl _, fun _ => Progress.le_refl _⟩
    generalize hn : some r1 = new at hss
    cases hss with
    | same => injection hn with hn; subst hn; exact hall _ rfl
    | reapedKept r rpc hrpc hne ho hop =>
      injection hn with hn; subst hn
      cases outcome with
      | notReady => exact absurd rfl ho
      | success => exact hall _ rfl
      | transportFailure =>
        refine ⟨fun hx => absurd rfl hx, fun hx => ?_⟩
        rw [hrpc] at hx; cases hx
    | reapedReset => cases hn
    | written r hrpc hne hlt hfree hcl hp =>
      injection hn with hn; subst hn
      have hle := sent_le_issued a2 h1 hlt hcl
      exact ⟨fun _ => hle, fun _ => hle⟩
    | freeIssued r hfr hw => injection hn with hn; subst hn; exact hall _ rfl
    | freeFailed r rpc hfr => injection hn with hn; subst hn; exact hall _ rfl
    | freed => cases hn
  refine ⟨hmono.1, hmono.2, ?_⟩
  intro ho rpc hw
  subst ho
  have hfr : r.freeRpc = none := by
    rcases h5 with h5 | h5
    · rw [hw] at h5; cases h5
    · exact h5
  have hkey : ∀ e2, performWrite c e h i RpcOutcome.transportFailure = some e2 →
      e2.slotAt h i = some (some r1) → r1.sent = r.acked ∧ r1.sent.le r.sent = true := by
    intro e2 hpw hslot
    rw [performWrite_failure_slot hs hold hw hpw] at hslot
    injection hslot with hslot
    by_cases hq : r.acked = s.queued
    · rw [if_pos hq] at hslot
      injection hslot with hslot
      subst hslot
      have hsa : r.sent = r.acked := by
        rw [← hq] at h3
        exact Progress.le_antisymm h3 h2
      exact ⟨hsa, Progress.le_refl _⟩
    · rw [if_neg hq] at hslot
      by_cases hop : r.acked.opened = false
      · rw [if_pos hop] at hslot; cases hslot
      · rw [if_neg hop] at hslot
        injection hslot with hslot
        subst hslot
        exact ⟨rfl, h2⟩
  rcases hstep with hpw | hpf
  · exact hkey e1 hpw hafter
  · rw [(performFree_branches c e h i RpcOutcome.transportFailure s (some r) hs
      hold).2.2.2.2.1 r rpc rfl hfr hw |>.1] at hpf
    cases hpw : performWrite c e h i RpcOutcome.transportFailure with
    | none => rw [hpw] at hpf; cases hpf
    | some e2 =>
      rw [hpw] at hpf
      simp only [Option.map_some', Option.some.injEq] at hpf
      subst hpf
      rw [slotAt_schedule] at hafter
      exact hkey e2 hpw hafter

theorem sent_monotone_unless_rollback_witness :
    (RpcOutcome.transportFailure ≠ RpcOutcome.transportFailure →
      Progress.le ⟨true, 300, false⟩ ⟨true, 100, false⟩ = true) ∧
    ((some ⟨100, 200, Flags.NONE⟩ : Option WriteRpc) = none →
      Progress.le ⟨true, 300, false⟩ ⟨true, 100, false⟩ = true) ∧
    (RpcOutcome.transportFailure = RpcOutcome.transportFailure →
      ∀ rpc, (some ⟨100, 200, Flags.NONE⟩ : Option WriteRpc) = some rpc →
      (⟨true, 100, false⟩ : Progress) = ⟨true, 100, false⟩ ∧
      Progress.le ⟨true, 100, false⟩ ⟨true, 300, false⟩ = true) :=
  sent_monotone_unless_rollback demoCollaborators dataSent dataRolledBack 0 0
    RpcOutcome.transportFailure
    { backupId := 10, client := 10, sent := ⟨true, 300, false⟩,
      acked := ⟨true, 100, false⟩,
      writeRpc := some ⟨100, 200, Flags.NONE⟩, freeRpc := none }
    { backupId := 10, client := 10, sent := ⟨true, 100, false⟩,
      acked := ⟨true, 100, false⟩, writeRpc := none, freeRpc := none }
    reachable_dataSent (Or.inl (by decide)) (by decide) (by decide)


/-! ## What a call adds to the trace -/

/-- What a call of `performWrite` adds to the trace: nothing; or the call of the
selector and the opening write; or, for a replica that exists, is not synced and has
no write RPC outstanding, the data write computed by `nextWriteRpc`. -/
theorem performWrite_trace_cases {c : Collaborators} {e e1 : ReplicaManager} {h i : Nat}
    {s : ReplicatedSegment} {outcome : RpcOutcome} {old : Option Replica}
    (hs : e.getSegment h = some s) (hi : s.replicas[i]? = some old)
    (hstep : performWrite c e h i outcome = some e1) :
    e1.trace = e.trace ∨
    (old = none ∧ ∃ b flags, (flags = Flags.OPEN ∨ flags = Flags.OPENPRIMARY) ∧
      e1.trace = e.trace ++
        [if i = 0 then Event.selectPrimary (presentIds s.replicas)
           else Event.selectSecondary (presentIds s.replicas),
         Event.writeRpc h i b { offset := 0, length := s.openLen, flags := flags }]) ∨
    (∃ r, old = some r ∧ r.writeRpc = none ∧ r.acked ≠ s.queued ∧
      issueWrite e h i s r = some e1 ∧
      e1 = ((e.emit (Event.writeRpc h i r.backupId (nextWriteRpc s r))).setReplica h i
        (some (issued r (nextWriteRpc s r)))).schedule h ∧
      e1.trace = e.trace ++ [Event.writeRpc h i r.backupId (nextWriteRpc s r)]) := by
  cases old with
  | none =>
    have hpw : performWrite c e h i outcome = openReplica c e h i s := by
      unfold performWrite; rw [hs]; simp only [hi]
    rw [hpw] at hstep
    by_cases hw : e.writeRpcsInFlight = c.MAX_WRITE_RPCS_IN_FLIGHT
    · unfold openReplica at hstep
      rw [if_pos hw] at hstep
      injection hstep with hstep
      subst hstep
      exact Or.inl (by simp)
    · rw [openReplica_eq hi hw] at hstep
      injection hstep with hstep
      subst hstep
      refine Or.inr (Or.inl ⟨rfl,
        (if i = 0 then c.selectPrimary (presentIds s.replicas)
          else c.selectSecondary (presentIds s.replicas)),
        (if i = 0 then Flags.OPENPRIMARY else Flags.OPEN), ?_, ?_⟩)
      · by_cases h0 : i = 0
        · exact Or.inr (by simp [h0])
        · exact Or.inl (by simp [h0])
      · simp
  | some r =>
    rcases performWrite_present hs hi hstep with ⟨_, he⟩ | ⟨_, _, hreap⟩ | ⟨hne, hw, hiss⟩
    · exact Or.inl (by rw [he])
    · exact Or.inl (reapWrite_trace hreap)
    · obtain ⟨_, _, _, hcase⟩ := issueWrite_cases hiss
      rcases hcase with he | ⟨_, he⟩
      · exact Or.inl (by rw [he]; simp)
      · exact Or.inr (Or.inr ⟨r, rfl, hw, hne, hiss, he, by rw [he]; simp⟩)

/-- A call of `performWrite` or `performFree` does not ask the deleter for anything. -/
theorem step_no_destroy {c : Collaborators} {e e1 : ReplicaManager} {h i : Nat}
    {outcome : RpcOutcome}
    (hstep : performWrite c e h i outcome = some e1 ∨ performFree c e h i outcome = some e1)
    (k : Nat) (hk : Event.destroy k ∈ e1.trace) : Event.destroy k ∈ e.trace := by
  have hw : ∀ e2, performWrite c e h i outcome = some e2 → Event.destroy k ∈ e2.trace →
      Event.destroy k ∈ e.trace := by
    intro e2 hpw hk2
    cases hs : e.getSegment h with
    | none => unfold performWrite at hpw; rw [hs] at hpw; cases hpw
    | some s =>
      cases hi : s.replicas[i]? with
      | none =>
        unfold performWrite at hpw; rw [hs] at hpw; simp only [hi] at hpw; cases hpw
      | some old =>
        rcases performWrite_trace_cases hs hi hpw with ht | ⟨_, b, fl, _, ht⟩ |
          ⟨r, _, _, _, _, _, ht⟩
        · rw [ht] at hk2; exact hk2
        · rw [ht] at hk2
          rcases List.mem_append.mp hk2 with hm | hm
          · exact hm
          · by_cases h0 : i = 0 <;> simp [h0] at hm
        · rw [ht] at hk2
          rcases List.mem_append.mp hk2 with hm | hm
          · exact hm
          · simp at hm
  rcases hstep with hpw | hpf
  · exact hw e1 hpw hk
  · cases hs : e.getSegment h with
    | none => unfold performFree at hpf; rw [hs] at hpf; cases hpf
    | some s =>
      cases hi : s.replicas[i]? with
      | none =>
        unfold performFree at hpf; rw [hs] at hpf; simp only [hi] at hpf; cases hpf
      | some old =>
        obtain ⟨t1, t2, t3, t4, t5, t6, _⟩ := performFree_branches c e h i outcome s old hs hi
        cases old with
        | none =>
          rw [t1 rfl] at hpf
          injection hpf with hpf
          rw [← hpf] at hk; exact hk
        | some r =>
          cases hfr : r.freeRpc with
          | some frpc =>
            cases outcome with
            | notReady =>
              rw [t4 r frpc rfl hfr rfl] at hpf
              injection hpf with hpf
              rw [← hpf] at hk; simpa using hk
            | success =>
              rw [(t2 r frpc rfl hfr rfl).1] at hpf
              injection hpf with hpf
              rw [← hpf] at hk; simpa using hk
            | transportFailure =>
              rw [(t3 r frpc rfl hfr rfl).1] at hpf
              injection hpf with hpf
              rw [← hpf] at hk; simpa using hk
          | none =>
            cases hwr : r.writeRpc with
            | some rpc =>
              have := ((t5 r rpc rfl hfr hwr).2 e1 hpf).1
              rw [this] at hk; exact hk
            | none =>
              rw [(t6 r rfl hfr hwr).1] at hpf
              injection hpf with hpf
              rw [← hpf] at hk
              simpa using hk

theorem freeLoop_no_destroy {c : Collaborators} {h : Nat} {net : Nat → RpcOutcome}
    (l : List Nat) {e e1 : ReplicaManager} (hstep : freeLoop c h net l e = some e1)
    (k : Nat) (hk : Event.destroy k ∈ e1.trace) : Event.destroy k ∈ e.trace := by
  induction l generalizing e with
  | nil =>
    simp only [freeLoop] at hstep
    injection hstep with hstep; subst hstep; exact hk
  | cons i rest ih =>
    simp only [freeLoop] at hstep
    cases hp : performFree c e h i (net i) with
    | none => simp only [hp] at hstep; cases hstep
    | some e2 =>
      simp only [hp] at hstep
      exact step_no_destroy (Or.inr hp) k (ih hstep)

theorem writeLoop_no_destroy {c : Collaborators} {h : Nat} {net : Nat → RpcOutcome}
    (l : List Nat) {e e1 : ReplicaManager} (hstep : writeLoop c h net l e = some e1)
    (k : Nat) (hk : Event.destroy k ∈ e1.trace) : Event.destroy k ∈ e.trace := by
  induction l generalizing e with
  | nil =>
    simp only [writeLoop] at hstep
    injection hstep with hstep; subst hstep; exact hk
  | cons i rest ih =>
    simp only [writeLoop] at hstep
    cases hp : performWrite c e h i (net i) with
    | none => simp only [hp] at hstep; cases hstep
    | some e2 =>
      simp only [hp] at hstep
      exact step_no_destroy (Or.inl hp) k (ih hstep)

/-- C19. `performTask` and the deleter. With `freeQueued` set, once the pass of
`performFree` over the replicas has ended in the state `e2` (a pass which asks nothing
of the deleter): if the segment is scheduled in `e2`, `performTask` returns `e2`, with
the segment still in the table and the deleter not invoked; if it is not scheduled,
every replica slot is absent (so no RPC is outstanding), and `performTask` returns the
state in which the deleter has removed the segment, the destructor's
`assert(!isScheduled())` holding. With `freeQueued` not set, `performTask` is the pass
of `performWrite` followed by its assertion: it returns the state the pass ended in,
with the segment in the table, or fails the assertion; the deleter is not invoked. -/
theorem deleter_only_after_free (c : Collaborators) (e : ReplicaManager) (h : Nat)
    (net : Nat → RpcOutcome) (s : ReplicatedSegment) (hs : e.getSegment h = some s) :
    (s.freeQueued = true → ∀ e2,
      freeLoop c h net (List.range s.replicas.length) e = some e2 →
      (∀ k, Event.destroy k ∈ e2.trace → Event.destroy k ∈ e.trace) ∧
      (e2.isScheduled h = true →
        performTask c e h net = some e2 ∧ ∃ s2, e2.getSegment h = some s2) ∧
      (e2.isScheduled h = false →
        (∃ s2, e2.getSegment h = some s2 ∧ s2.freeQueued = true ∧
          ∀ slot ∈ s2.replicas, slot = none) ∧
        destroyAndFreeReplicatedSegment e2 h =
          some (({ e2 with segments := e2.segments.set h none } : ReplicaManager).emit
            (Event.destroy h)) ∧
        performTask c e h net =
          some (({ e2 with segments := e2.segments.set h none } : ReplicaManager).emit
            (Event.destroy h)) ∧
        (({ e2 with segments := e2.segments.set h none } : ReplicaManager).emit
            (Event.destroy h)).getSegment h = none)) ∧
    (s.freeQueued = false → ∀ e2,
      writeLoop c h net (List.range s.replicas.length) e = some e2 →
      (∀ k, Event.destroy k ∈ e2.trace → Event.destroy k ∈ e.trace) ∧
      ∃ s2, e2.getSegment h = some s2 ∧
        performTask c e h net =
          if (s2.isSynced || e2.isScheduled h) = true then some e2 else none) := by
  constructor
  · intro hfq e2 hl
    obtain ⟨s2, hs2, hlen, hfq2⟩ := (SameShape.of_freeLoop _ hl).getSegment hs
    refine ⟨fun k hk => freeLoop_no_destroy _ hl k hk, ?_, ?_⟩
    · intro hsch
      refine ⟨?_, s2, hs2⟩
      unfold performTask
      rw [hs]
      simp only [hfq, if_true, hl, hsch]
      rfl
    · intro hns
      have hd : destroyAndFreeReplicatedSegment e2 h =
          some (({ e2 with segments := e2.segments.set h none } : ReplicaManager).emit
            (Event.destroy h)) := by
        unfold destroyAndFreeReplicatedSegment
        rw [hns]
        rfl
      refine ⟨⟨s2, hs2, by rw [hfq2, hfq], ?_⟩, hd, ?_, ?_⟩
      · apply all_absent_of_slotAt hs2
        rw [hlen]
        exact (freeLoop_unscheduled _ hl hns).2.1
      · unfold performTask
        rw [hs]
        simp only [hfq, if_true, hl, hns]
        exact hd
      · unfold ReplicaManager.getSegment ReplicaManager.emit
        simp only [List.getElem?_set, if_true]
        split <;> rfl
  · intro hfq e2 hl
    obtain ⟨s2, hs2, _, _⟩ := (SameShape.of_writeLoop _ hl).getSegment hs
    refine ⟨fun k hk => writeLoop_no_destroy _ hl k hk, s2, hs2, ?_⟩
    unfold performTask
    rw [hs]
    simp only [hfq, hl, hs2]
    rfl

theorem deleter_only_after_free_witness :
    (performTask demoCollaborators
        (freeingManager (some ⟨10, 10, ⟨true, 100, false⟩, ⟨true, 100, false⟩, none, none⟩))
        0 (allSucceed 0) = some freeIssuedManager ∧
      ∃ s2, freeIssuedManager.getSegment 0 = some s2) ∧
    ((∃ s2, freedManager.getSegment 0 = some s2 ∧ s2.freeQueued = true ∧
        ∀ slot ∈ s2.replicas, slot = none) ∧
      destroyAndFreeReplicatedSegment freedManager 0 =
        some (({ freedManager with segments := freedManager.segments.set 0 none } :
          ReplicaManager).emit (Event.destroy 0)) ∧
      performTask demoCollaborators freedManager 0 (allSucceed 0) =
        some (({ freedManager with segments := freedManager.segments.set 0 none } :
          ReplicaManager).emit (Event.destroy 0)) ∧
      (({ freedManager with segments := freedManager.segments.set 0 none } :
          ReplicaManager).emit (Event.destroy 0)).getSegment 0 = none) :=
  ⟨((deleter_only_after_free demoCollaborators
      (freeingManager (some ⟨10, 10, ⟨true, 100, false⟩, ⟨true, 100, false⟩, none, none⟩))
      0 (allSucceed 0)
      { freedSegment with
        replicas := [some ⟨10, 10, ⟨true, 100, false⟩, ⟨true, 100, false⟩, none, none⟩] }
      (by decide)).1 rfl freeIssuedManager (by decide)).2.1 (by decide),
   ((deleter_only_after_free demoCollaborators freedManager 0 (allSucceed 0) freedSegment
      (by decide)).1 rfl freedManager (by decide)).2.2 (by decide)⟩


/-! ## Write RPCs and free RPCs exclude each other -/

/-- C8. In a reachable state no replica has both a write RPC and a free RPC outstanding,
and a replica of a segment that is not being freed has no free RPC, so
`assert(!replica->freeRpc)` in the data-write branch, which is reached only from the
write pass of `performTask`, does not fail. A call of `performFree` that constructs a
free RPC does so on a replica without write RPC, and a call of `performWrite` that
constructs a write RPC on a replica that exists does so on a replica without free
RPC. With a write RPC outstanding (the only case in which `performFree` calls
`performWrite`), `performWrite` is the synced branch or the reap branch, not the
data-write branch. -/
theorem write_and_free_rpc_exclusive (c : Collaborators) (e : ReplicaManager)
    (hr : Reachable c e) (h i : Nat) (s : ReplicatedSegment) (r : Replica)
    (hs : e.getSegment h = some s) (hi : s.replicas[i]? = some (some r)) :
    (r.writeRpc = none ∨ r.freeRpc = none) ∧
    (s.freeQueued = false → r.freeRpc = none) ∧
    (∀ outcome e1 r1 frpc, r.freeRpc = none → performFree c e h i outcome = some e1 →
      e1.slotAt h i = some (some r1) → r1.freeRpc = some frpc →
      r.writeRpc = none ∧ r1.writeRpc = none) ∧
    (∀ outcome e1 r1 rpc, r.writeRpc = none → performWrite c e h i outcome = some e1 →
      e1.slotAt h i = some (some r1) → r1.writeRpc = some rpc →
      r.freeRpc = none ∧ r1.freeRpc = none) ∧
    (∀ outcome rpc, r.writeRpc = some rpc →
      performWrite c e h i outcome =
        if r.acked = s.queued then some e else reapWrite e h i s r outcome) := by
  obtain ⟨_, _, _, _, h5⟩ := SlotInv_of_reachable hr hs hi
  obtain ⟨_, b4⟩ := hr.inv2 h s hs (some r) (List.getElem?_mem hi)
  have hslot : e.slotAt h i = some (some r) := by rw [slotAt_of_getSegment hs]; exact hi
  refine ⟨h5, fun hfq => b4 hfq r rfl, ?_, ?_, ?_⟩
  · intro outcome e1 r1 frpc hfr hstep hafter hnew
    obtain ⟨_, _, _, _, t5, t6, _⟩ := performFree_branches c e h i outcome s (some r) hs hi
    cases hw : r.writeRpc with
    | some rpc =>
      have := (t5 r rpc rfl hfr hw).2 e1 hstep
      rw [this.2.2 r1 hafter] at hnew
      cases hnew
    | none =>
      obtain ⟨t61, t62⟩ := t6 r rfl hfr hw
      rw [t61] at hstep
      injection hstep with hstep
      rw [← hstep, t62] at hafter
      injection hafter with hafter
      injection hafter with hafter
      subst hafter
      exact ⟨rfl, hw⟩
  · intro outcome e1 r1 rpc hw hstep hafter hnew
    obtain ⟨hfree, _, _, hr1, _⟩ := issued_of_new_rpc hs hi hw hstep hafter hnew
    subst hr1
    exact ⟨hfree, hfree⟩
  · intro outcome rpc hw
    by_cases hq : r.acked = s.queued
    · rw [if_pos hq]
      unfold performWrite
      rw [hs]
      simp only [hi]
      rw [if_pos hq]
    · rw [if_neg hq]
      exact performWrite_eq_reapWrite hs hi hq hw

theorem write_and_free_rpc_exclusive_witness :
    ((some ⟨100, 200, Flags.NONE⟩ : Option WriteRpc) = none ∨
      (none : Option FreeRpc) = none) ∧
    (false = false → (none : Option FreeRpc) = none) ∧
    (∀ outcome e1 r1 frpc, (none : Option FreeRpc) = none →
      performFree demoCollaborators dataSent 0 0 outcome = some e1 →
      e1.slotAt 0 0 = some (some r1) → r1.freeRpc = some frpc →
      (some ⟨100, 200, Flags.NONE⟩ : Option WriteRpc) = none ∧ r1.writeRpc = none) ∧
    (∀ outcome e1 r1 rpc, (some ⟨100, 200, Flags.NONE⟩ : Option WriteRpc) = none →
      performWrite demoCollaborators dataSent 0 0 outcome = some e1 →
      e1.slotAt 0 0 = some (some r1) → r1.writeRpc = some rpc →
      (none : Option FreeRpc) = none ∧ r1.freeRpc = none) ∧
    (∀ outcome rpc, (some ⟨100, 200, Flags.NONE⟩ : Option WriteRpc) = some rpc →
      performWrite demoCollaborators dataSent 0 0 outcome =
        if (⟨true, 100, false⟩ : Progress) = ⟨true, 300, false⟩ then some dataSent
        else reapWrite dataSent 0 0
          { masterId := 1, segmentId := 10, openLen := 100, maxBytesPerWriteRpc := 256,
            queued := ⟨true, 300, false⟩, freeQueued := false, followingSegment := none,
            precedingSegmentCloseAcked := true,
            replicas :=
              [some { backupId := 10, client := 10, sent := ⟨true, 300, false⟩,
                      acked := ⟨true, 100, false⟩,
                      writeRpc := some ⟨100, 200, Flags.NONE⟩, freeRpc := none }] }
          { backupId := 10, client := 10, sent := ⟨true, 300, false⟩,
            acked := ⟨true, 100, false⟩,
            writeRpc := some ⟨100, 200, Flags.NONE⟩, freeRpc := none } outcome) :=
  write_and_free_rpc_exclusive demoCollaborators dataSent reachable_dataSent 0 0
    { masterId := 1, segmentId := 10, openLen := 100, maxBytesPerWriteRpc := 256,
      queued := ⟨true, 300, false⟩, freeQueued := false, followingSegment := none,
      precedingSegmentCloseAcked := true,
      replicas :=
        [some { backupId := 10, client := 10, sent := ⟨true, 300, false⟩,
                acked := ⟨true, 100, false⟩,
                writeRpc := some ⟨100, 200, Flags.NONE⟩, freeRpc := none }] }
    { backupId := 10, client := 10, sent := ⟨true, 300, false⟩,
      acked := ⟨true, 100, false⟩,
      writeRpc := some ⟨100, 200, Flags.NONE⟩, freeRpc := none }
    (by decide) (by decide)


/-! ## The assertion at the end of the write pass -/

theorem queued_of_frame {e e1 : ReplicaManager} {h i : Nat} {new : Option Replica}
    (hf : Frame h i new e e1) (k : Nat) :
    (e1.getSegment k).map (fun x => x.queued) = (e.getSegment k).map (fun x => x.queued) := by
  have hk := hf k
  cases h1 : e1.getSegment k with
  | none =>
    rw [h1] at hk
    cases h0 : e.getSegment k with
    | none => rfl
    | some s0 => rw [h0] at hk; simp at hk
  | some s1 =>
    rw [h1] at hk
    cases h0 : e.getSegment k with
    | none => rw [h0] at hk; simp at hk
    | some s0 =>
      rw [h0] at hk
      simp only [Option.map_some', Option.some.injEq] at hk
      have hq := congrArg ReplicatedSegment.queued hk
      by_cases hkh : k = h
      · simp only [hkh, if_true, ReplicatedSegment.core] at hq
        simp [hq]
      · simp only [hkh, if_false, ReplicatedSegment.core] at hq
        simp [hq]

/-- After a call of `performWrite` from a reachable state, the segment is scheduled or
the replica exists and is synced. -/
theorem performWrite_scheduled_or_synced {c : Collaborators} {e e1 : ReplicaManager}
    {h i : Nat} {outcome : RpcOutcome} {s : ReplicatedSegment} (hr : Reachable c e)
    (hs : e.getSegment h = some s) (hstep : performWrite c e h i outcome = some e1) :
    e1.isScheduled h = true ∨ ∃ r, e1.slotAt h i = some (some r) ∧ r.acked = s.queued := by
  cases hi : s.replicas[i]? with
  | none => unfold performWrite at hstep; rw [hs] at hstep; simp only [hi] at hstep; cases hstep
  | some old =>
    cases old with
    | none =>
      have hpw : performWrite c e h i outcome = openReplica c e h i s := by
        unfold performWrite; rw [hs]; simp only [hi]
      rw [hpw] at hstep
      by_cases hw : e.writeRpcsInFlight = c.MAX_WRITE_RPCS_IN_FLIGHT
      · unfold openReplica at hstep
        rw [if_pos hw] at hstep
        injection hstep with hstep
        subst hstep
        exact Or.inl (by simp)
      · rw [openReplica_eq hi hw] at hstep
        injection hstep with hstep
        subst hstep
        exact Or.inl (by simp)
    | some r =>
      obtain ⟨h1, _, _, _, _⟩ := SlotInv_of_reachable hr hs hi
      rcases performWrite_present hs hi hstep with ⟨hq, he⟩ | ⟨hne, _, hreap⟩ | ⟨_, _, hiss⟩
      · subst he
        exact Or.inr ⟨r, by rw [slotAt_of_getSegment hs]; exact hi, hq⟩
      · cases outcome with
        | notReady =>
          simp only [reapWrite] at hreap
          injection hreap with hreap
          subst hreap
          exact Or.inl (by simp)
        | success =>
          simp only [reapWrite] at hreap
          split at hreap
          · cases hreap
          · rename_i e2 he2
            injection hreap with hreap
            subst hreap
            have hfr1 : Frame h i (some { r with acked := r.sent }) e
                (e.setReplica h i (some { r with acked := r.sent })) :=
              Frame.setReplica e h i _
            have hfr2 : Frame h i (some { r with acked := r.sent }) e e2 := by
              split at he2
              · exact ackFollowing_frame hfr1 he2
              · injection he2 with he2; subst he2; exact hfr1
            by_cases hq : r.sent = s.queued
            · right
              have := slotAt_of_frame hs hi
                (finishReap_frame s { r with acked := r.sent } hfr2)
              rw [this]
              exact ⟨{ r with acked := r.sent, writeRpc := none }, by simp [h1], hq⟩
            · left
              have ht := finishReap_tasks e2 h i s { r with acked := r.sent }
              rw [if_pos hq] at ht
              rw [isScheduled_congr ht]
              simp
        | transportFailure =>
          simp only [reapWrite] at hreap
          injection hreap with hreap
          subst hreap
          left
          have ht := finishReap_tasks (e.setReplica h i (some { r with sent := r.acked }))
            h i s { r with sent := r.acked }
          rw [if_pos hne] at ht
          rw [isScheduled_congr ht]
          simp
      · obtain ⟨_, _, _, hcase⟩ := issueWrite_cases hiss
        rcases hcase with he | ⟨_, he⟩
        · subst he; exact Or.inl (by simp)
        · subst he; exact Or.inl (by simp)

theorem writeLoop_isScheduled {c : Collaborators} {h : Nat} {net : Nat → RpcOutcome}
    (l : List Nat) {e e1 : ReplicaManager} (hstep : writeLoop c h net l e = some e1)
    (k : Nat) (hk : e.isScheduled k = true) : e1.isScheduled k = true := by
  induction l generalizing e with
  | nil =>
    simp only [writeLoop] at hstep
    injection hstep with hstep; subst hstep; exact hk
  | cons i rest ih =>
    simp only [writeLoop] at hstep
    cases hp : performWrite c e h i (net i) with
    | none => simp only [hp] at hstep; cases hstep
    | some e2 =>
      simp only [hp] at hstep
      exact ih hstep (isScheduled_of_tasks (performWrite_tasks hp) k hk)

/-- The pass of `performWrite` over the slots of `l` leaves the other slots and
`queued` as they are. -/
theorem writeLoop_other_slots {c : Collaborators} {h : Nat} {net : Nat → RpcOutcome}
    (l : List Nat) {e e1 : ReplicaManager} (hstep : writeLoop c h net l e = some e1) :
    (∀ j, j ∉ l → e1.slotAt h j = e.slotAt h j) ∧
    (e1.getSegment h).map (fun x => x.queued) = (e.getSegment h).map (fun x => x.queued) := by
  induction l generalizing e with
  | nil =>
    simp only [writeLoop] at hstep
    injection hstep with hstep; subst hstep
    exact ⟨fun _ _ => rfl, rfl⟩
  | cons i rest ih =>
    simp only [writeLoop] at hstep
    cases hp : performWrite c e h i (net i) with
    | none => simp only [hp] at hstep; cases hstep
    | some e2 =>
      simp only [hp] at hstep
      obtain ⟨ih1, ih2⟩ := ih hstep
      cases hs : e.getSegment h with
      | none => unfold performWrite at hp; rw [hs] at hp; cases hp
      | some s =>
        obtain ⟨_, _, _, _, hf⟩ := performWrite_frame hs hp
        refine ⟨?_, ?_⟩
        · intro j hj
          have hji : j ≠ i := fun hx => hj (by rw [hx]; exact List.mem_cons_self _ _)
          have hjr : j ∉ rest := fun hx => hj (List.mem_cons_of_mem _ hx)
          rw [ih1 j hjr, slotAt_of_frame_ne hf hji]
        · rw [ih2, queued_of_frame hf h, hs]

theorem writeLoop_scheduled_or_synced {c : Collaborators} {h : Nat} {net : Nat → RpcOutcome}
    (l : List Nat) (hnd : l.Nodup) {e e1 : ReplicaManager} {s : ReplicatedSegment}
    (hr : Reachable c e) (hs : e.getSegment h = some s)
    (hstep : writeLoop c h net l e = some e1) :
    e1.isScheduled h = true ∨
      ∀ i ∈ l, ∃ r, e1.slotAt h i = some (some r) ∧ r.acked = s.queued := by
  induction l generalizing e s with
  | nil => exact Or.inr (fun i hi => (by cases hi))
  | cons i rest ih =>
    simp only [writeLoop] at hstep
    cases hp : performWrite c e h i (net i) with
    | none => simp only [hp] at hstep; cases hstep
    | some e2 =>
      simp only [hp] at hstep
      obtain ⟨hni, hnr⟩ := List.nodup_cons.mp hnd
      have hr2 : Reachable c e2 :=
        Reachable.step e e2 hr (Step.performWrite e e2 h i (net i) hp)
      obtain ⟨_, _, _, _, hf⟩ := performWrite_frame hs hp
      have hq := queued_of_frame hf h
      rw [hs] at hq
      cases hs2 : e2.getSegment h with
      | none => rw [hs2] at hq; simp at hq
      | some s2 =>
        rw [hs2] at hq
        simp only [Option.map_some', Option.some.injEq] at hq
        rcases performWrite_scheduled_or_synced hr hs hp with hsch | ⟨r, hslot, hacked⟩
        · exact Or.inl (writeLoop_isScheduled _ hstep h hsch)
        · rcases ih hnr hr2 hs2 hstep with hsch | hall
          · exact Or.inl hsch
          · right
            intro j hj
            rcases List.mem_cons.mp hj with heq | hmem
            · subst heq
              exact ⟨r, by rw [(writeLoop_other_slots _ hstep).1 j hni]; exact hslot, hacked⟩
            · obtain ⟨r', h1, h2⟩ := hall j hmem
              exact ⟨r', h1, by rw [h2, hq]⟩

/-- C26. The assertion at the end of the write pass of `performTask` does not fail: from
a reachable state with `freeQueued` not set, once `performWrite` has run on every
replica slot, the segment is scheduled or every slot holds a replica with
`acked == queued` (`isSynced`), and `performTask` returns the state the pass ended in;
with no replica slot at all the pass changes nothing and `isSynced` holds. -/
theorem write_pass_assertion (c : Collaborators) (e e2 : ReplicaManager) (h : Nat)
    (net : Nat → RpcOutcome) (s : ReplicatedSegment) (hr : Reachable c e)
    (hs : e.getSegment h = some s) (hfq : s.freeQueued = false)
    (hloop : writeLoop c h net (List.range s.replicas.length) e = some e2) :
    (∃ s2, e2.getSegment h = some s2 ∧ s2.queued = s.queued ∧
      (e2.isScheduled h = true ∨
        (s2.isSynced = true ∧ ∀ slot ∈ s2.replicas, ∃ r, slot = some r ∧ r.acked = s2.queued)) ∧
      (s2.isSynced || e2.isScheduled h) = true) ∧
    performTask c e h net = some e2 ∧
    (s.replicas = [] → e2 = e ∧ s.isSynced = true) := by
  obtain ⟨s2, hs2, hlen, _⟩ := (SameShape.of_writeLoop _ hloop).getSegment hs
  have hq : s2.queued = s.queued := by
    have := (writeLoop_other_slots _ hloop).2
    rw [hs, hs2] at this
    simpa using this
  have hcase := writeLoop_scheduled_or_synced _ (List.nodup_range _) hr hs hloop
  have hgood : e2.isScheduled h = true ∨
      (s2.isSynced = true ∧ ∀ slot ∈ s2.replicas, ∃ r, slot = some r ∧ r.acked = s2.queued) := by
    rcases hcase with hsch | hall
    · exact Or.inl hsch
    · right
      have hslots : ∀ slot ∈ s2.replicas, ∃ r, slot = some r ∧ r.acked = s2.queued := by
        intro slot hslot
        obtain ⟨i, hi⟩ := List.mem_iff_getElem?.mp hslot
        have hlt : i < s.replicas.length := by
          by_contra hge
          rw [List.getElem?_eq_none (by omega)] at hi
          cases hi
        obtain ⟨r, h1, h2⟩ := hall i (List.mem_range.mpr hlt)
        rw [slotAt_of_getSegment hs2, hi] at h1
        injection h1 with h1
        exact ⟨r, h1, by rw [h2, hq]⟩
      refine ⟨?_, hslots⟩
      unfold ReplicatedSegment.isSynced
      rw [List.all_eq_true]
      intro slot hslot
      obtain ⟨r, h1, h2⟩ := hslots slot hslot
      subst h1
      simp [h2]
  have hassert : (s2.isSynced || e2.isScheduled h) = true := by
    rcases hgood with hsch | ⟨hsy, _⟩
    · simp [hsch]
    · simp [hsy]
  refine ⟨⟨s2, hs2, hq, hgood, hassert⟩, ?_, ?_⟩
  · unfold performTask
    rw [hs]
    simp only [hfq, hloop, hs2]
    rw [if_pos hassert]
    rfl
  · intro hnil
    rw [hnil] at hloop
    simp only [List.length_nil, List.range_zero, writeLoop] at hloop
    injection hloop with hloop
    exact ⟨hloop.symm, by unfold ReplicatedSegment.isSynced; rw [hnil]; rfl⟩

theorem reachable_dataDequeued : Reachable demoCollaborators dataDequeued :=
  Reachable.step dataQueued dataDequeued reachable_dataQueued
    (Step.dequeue dataQueued (fun _ => false))

theorem write_pass_assertion_witness :
    (∃ s2, dataSent.getSegment 0 = some s2 ∧ s2.queued = ⟨true, 300, false⟩ ∧
      (dataSent.isScheduled 0 = true ∨
        (s2.isSynced = true ∧ ∀ slot ∈ s2.replicas, ∃ r, slot = some r ∧ r.acked = s2.queued)) ∧
      (s2.isSynced || dataSent.isScheduled 0) = true) ∧
    performTask demoCollaborators dataDequeued 0 (allSucceed 0) = some dataSent ∧
    (([some { backupId := 10, client := 10, sent := ⟨true, 100, false⟩,
              acked := ⟨true, 100, false⟩, writeRpc := none, freeRpc := none }] :
        List (Option Replica)) = [] →
      dataSent = dataDequeued ∧
      ReplicatedSegment.isSynced
        { masterId := 1, segmentId := 10, openLen := 100, maxBytesPerWriteRpc := 256,
          queued := ⟨true, 300, false⟩, freeQueued := false, followingSegment := none,
          precedingSegmentCloseAcked := true,
          replicas :=
            [some { backupId := 10, client := 10, sent := ⟨true, 100, false⟩,
                    acked := ⟨true, 100, false⟩, writeRpc := none, freeRpc := none }] } = true) :=
  write_pass_assertion demoCollaborators dataDequeued dataSent 0 (allSucceed 0)
    { masterId := 1, segmentId := 10, openLen := 100, maxBytesPerWriteRpc := 256,
      queued := ⟨true, 300, false⟩, freeQueued := false, followingSegment := none,
      precedingSegmentCloseAcked := true,
      replicas :=
        [some { backupId := 10, client := 10, sent := ⟨true, 100, false⟩,
                acked := ⟨true, 100, false⟩, writeRpc := none, freeRpc := none }] }
    reachable_dataDequeued (by decide) rfl (by decide)


/-! ## `sync` and the acknowledged progress of the segment -/

theorem Progress.le_of_not_lt {a b : Progress} (h : b.lt a = false) : a.le b = true := by
  rw [Progress.le_iff]
  have h' : ¬ (b.lt a = true) := by rw [h]; simp
  rw [Progress.lt_iff] at h'
  obtain ⟨ao, ab, ac⟩ := a
  obtain ⟨bo, bb, bc⟩ := b
  cases ao <;> cases bo <;> cases ac <;> cases bc <;> simp at * <;> omega

theorem Progress.min_le_left (a b : Progress) : (a.min b).le a = true := by
  unfold Progress.min
  by_cases h : b.lt a = true
  · rw [if_pos h]; exact Progress.le_of_lt h
  · rw [if_neg h]; exact Progress.le_refl _

theorem Progress.min_le_right (a b : Progress) : (a.min b).le b = true := by
  unfold Progress.min
  by_cases h : b.lt a = true
  · rw [if_pos h]; exact Progress.le_refl _
  · rw [if_neg h]; exact Progress.le_of_not_lt (by simpa using h)

theorem Progress.min_cases (a b : Progress) : a.min b = a ∨ a.min b = b := by
  unfold Progress.min
  by_cases h : b.lt a = true
  · rw [if_pos h]; exact Or.inr rfl
  · rw [if_neg h]; exact Or.inl rfl

/-- The fold of `getAcked`: the result is at most the start and at most the `acked` of
every replica in the list, and it satisfies any property that the start, the zero
progress and the `acked` of every replica satisfy. -/
theorem getAcked_fold (Q : Progress → Prop) (l : List (Option Replica)) (p : Progress)
    (hp : Q p) (hz : Q Progress.zero) (hl : ∀ r, some r ∈ l → Q r.acked) :
    Q (l.foldl
        (fun p slot =>
          match slot with
          | none => p.min Progress.zero
          | some r => p.min r.acked) p) ∧
    (l.foldl
        (fun p slot =>
          match slot with
          | none => p.min Progress.zero
          | some r => p.min r.acked) p).le p = true ∧
    (∀ r, some r ∈ l →
      (l.foldl
        (fun p slot =>
          match slot with
          | none => p.min Progress.zero
          | some r => p.min r.acked) p).le r.acked = true) ∧
    (none ∈ l →
      (l.foldl
        (fun p slot =>
          match slot with
          | none => p.min Progress.zero
          | some r => p.min r.acked) p).le Progress.zero = true) := by
  induction l generalizing p with
  | nil =>
    exact ⟨hp, Progress.le_refl _, fun r hr => (by cases hr), fun hn => (by cases hn)⟩
  | cons slot rest ih =>
    simp only [List.foldl_cons]
    have hrest : ∀ r, some r ∈ rest → Q r.acked :=
      fun r hr => hl r (List.mem_cons_of_mem _ hr)
    cases slot with
    | none =>
      have hq : Q (p.min Progress.zero) := by
        rcases Progress.min_cases p Progress.zero with h | h <;> rw [h]
        · exact hp
        · exact hz
      obtain ⟨i1, i2, i3, i4⟩ := ih (p.min Progress.zero) hq hrest
      refine ⟨i1, Progress.le_trans i2 (Progress.min_le_left _ _), ?_, ?_⟩
      · intro r hr
        rcases List.mem_cons.mp hr with heq | hmem
        · cases heq
        · exact i3 r hmem
      · intro _
        exact Progress.le_trans i2 (Progress.min_le_right _ _)
    | some r0 =>
      have hq : Q (p.min r0.acked) := by
        rcases Progress.min_cases p r0.acked with h | h <;> rw [h]
        · exact hp
        · exact hl r0 (List.mem_cons_self _ _)
      obtain ⟨i1, i2, i3, i4⟩ := ih (p.min r0.acked) hq hrest
      refine ⟨i1, Progress.le_trans i2 (Progress.min_le_left _ _), ?_, ?_⟩
      · intro r hr
        rcases List.mem_cons.mp hr with heq | hmem
        · injection heq with heq
          subst heq
          exact Progress.le_trans i2 (Progress.min_le_right _ _)
        · exact i3 r hmem
      · intro hn
        rcases List.mem_cons.mp hn with heq | hmem
        · cases heq
        · exact i4 hmem

/-- In a reachable state, `getAcked().bytes` is at most the acknowledged bytes of every
replica, and is 0 when a slot is absent. -/
theorem getAcked_bytes_le {c : Collaborators} {e : ReplicaManager} {h : Nat}
    {s : ReplicatedSegment} (hr : Reachable c e) (hs : e.getSegment h = some s) :
    (∀ r, some r ∈ s.replicas → s.getAcked.bytes ≤ r.acked.bytes) ∧
    (none ∈ s.replicas → s.getAcked.bytes = 0) := by
  obtain ⟨a1, _, _, _⟩ := hr.inv h s hs
  have hq3 : ∀ r, some r ∈ s.replicas → (r.acked.opened = false → r.acked.bytes = 0) := by
    intro r hmem hop
    have := (hr.inv2 h s hs (some r) hmem).1.2.2 hop
    rw [this]; rfl
  obtain ⟨g1, _, g3, g4⟩ := getAcked_fold (fun p => p.opened = false → p.bytes = 0)
    s.replicas s.queued (fun hx => by rw [a1] at hx; cases hx) (fun _ => rfl) hq3
  have hbytes : ∀ x : Progress, s.getAcked.le x = true → s.getAcked.bytes ≤ x.bytes := by
    intro x hx
    rcases (Progress.le_iff _ _).mp hx with ⟨ha, _⟩ | ⟨_, hb⟩ | ⟨_, hb, _⟩
    · have := g1 ha
      unfold ReplicatedSegment.getAcked
      omega
    · omega
    · omega
  refine ⟨fun r hmem => hbytes _ (g3 r hmem), ?_⟩
  intro hn
  have := hbytes _ (g4 hn)
  simp only [Progress.zero] at this
  omega

/-- C6. When `sync(k)` returns, from a reachable state, `getAcked().bytes >= k` holds in
the state it returns, so every replica of the segment has `acked.bytes >= k`, and for
`k > 0` no slot is absent. When the condition holds on entry, `sync(k)` returns the
state it was called in without calling `proceed()`; otherwise it calls `proceed()` and
checks again. -/
theorem sync_spec (c : Collaborators) (h k : Nat) (nets : List (Nat → Nat → RpcOutcome))
    (e e1 : ReplicaManager) (hr : Reachable c e) (hstep : sync c h k nets e = some e1) :
    (∃ s1, e1.getSegment h = some s1 ∧ k ≤ s1.getAcked.bytes ∧
      (∀ r, some r ∈ s1.replicas → k ≤ r.acked.bytes) ∧
      (0 < k → ∀ slot ∈ s1.replicas, slot ≠ none)) ∧
    (∀ s, e.getSegment h = some s → k ≤ s.getAcked.bytes →
      e1 = e ∧ ∀ nets1, sync c h k nets1 e = some e) ∧
    (∀ s net rest, e.getSegment h = some s → ¬ k ≤ s.getAcked.bytes →
      sync c h k (net :: rest) e = (proceed c e net).bind (sync c h k rest)) := by
  have hexit : ∀ (e0 : ReplicaManager), Reachable c e0 → ∀ s0, e0.getSegment h = some s0 →
      k ≤ s0.getAcked.bytes →
      ∃ s1, e0.getSegment h = some s1 ∧ k ≤ s1.getAcked.bytes ∧
        (∀ r, some r ∈ s1.replicas → k ≤ r.acked.bytes) ∧
        (0 < k → ∀ slot ∈ s1.replicas, slot ≠ none) := by
    intro e0 hr0 s0 hs0 hk
    obtain ⟨b1, b2⟩ := getAcked_bytes_le hr0 hs0
    refine ⟨s0, hs0, hk, fun r hmem => Nat.le_trans hk (b1 r hmem), ?_⟩
    intro hpos slot hslot hnone
    subst hnone
    have := b2 hslot
    omega
  have hnow : ∀ s, e.getSegment h = some s → k ≤ s.getAcked.bytes →
      ∀ nets1, sync c h k nets1 e = some e := by
    intro s hs hk nets1
    cases nets1 with
    | nil => unfold sync; rw [hs]; simp only [hk, if_true]
    | cons net rest => unfold sync; rw [hs]; simp only [hk, if_true]
  refine ⟨?_, ?_, ?_⟩
  · induction nets generalizing e with
    | nil =>
      unfold sync at hstep
      cases hs : e.getSegment h with
      | none => rw [hs] at hstep; cases hstep
      | some s =>
        rw [hs] at hstep
        simp only at hstep
        by_cases hk : k ≤ s.getAcked.bytes
        · rw [if_pos hk] at hstep
          injection hstep with hstep
          subst hstep
          exact hexit e hr s hs hk
        · rw [if_neg hk] at hstep; cases hstep
    | cons net rest ih =>
      unfold sync at hstep
      cases hs : e.getSegment h with
      | none => rw [hs] at hstep; cases hstep
      | some s =>
        rw [hs] at hstep
        simp only at hstep
        by_cases hk : k ≤ s.getAcked.bytes
        · rw [if_pos hk] at hstep
          injection hstep with hstep
          subst hstep
          exact hexit e hr s hs hk
        · rw [if_neg hk] at hstep
          cases hp : proceed c e net with
          | none => rw [hp] at hstep; cases hstep
          | some e2 =>
            rw [hp] at hstep
            exact ih e2 (hr.proceed hp) hstep (fun s2 hs2 hk2 nets1 => by
              cases nets1 with
              | nil => unfold sync; rw [hs2]; simp only [hk2, if_true]
              | cons net1 rest1 => unfold sync; rw [hs2]; simp only [hk2, if_true])
  · intro s hs hk
    have := hnow s hs hk nets
    rw [this] at hstep
    injection hstep with hstep
    exact ⟨hstep.symm, hnow s hs hk⟩
  · intro s net rest hs hk
    conv => lhs; unfold sync
    rw [hs]
    simp only [hk, if_false]
    cases proceed c e net <;> rfl

theorem sync_spec_witness :
    (∃ s1, ((proceedTimes demoCollaborators allSucceed 2 dataQueued).getD
          ReplicaManager.empty).getSegment 0 = some s1 ∧
      300 ≤ s1.getAcked.bytes ∧
      (∀ r, some r ∈ s1.replicas → 300 ≤ r.acked.bytes) ∧
      (0 < 300 → ∀ slot ∈ s1.replicas, slot ≠ none)) ∧
    (∀ s, dataQueued.getSegment 0 = some s → 300 ≤ s.getAcked.bytes →
      (proceedTimes demoCollaborators allSucceed 2 dataQueued).getD ReplicaManager.empty =
        dataQueued ∧
      ∀ nets1, sync demoCollaborators 0 300 nets1 dataQueued = some dataQueued) ∧
    (∀ s net rest, dataQueued.getSegment 0 = some s → ¬ 300 ≤ s.getAcked.bytes →
      sync demoCollaborators 0 300 (net :: rest) dataQueued =
        (proceed demoCollaborators dataQueued net).bind (sync demoCollaborators 0 300 rest)) :=
  sync_spec demoCollaborators 0 300 [allSucceed, allSucceed] dataQueued
    ((proceedTimes demoCollaborators allSucceed 2 dataQueued).getD ReplicaManager.empty)
    reachable_dataQueued (by decide)


/-! ## `free` and the task loop -/

theorem Survives.unchanged (e : ReplicaManager) : Survives e e := fun _ s1 hs1 => ⟨s1, hs1, rfl⟩

theorem Survives.chain {e e1 e2 : ReplicaManager} (h1 : Survives e e1)
    (h2 : Survives e1 e2) : Survives e e2 := by
  intro k s2 hs2
  obtain ⟨s1, hs1, hfq1⟩ := h2 k s2 hs2
  obtain ⟨s0, hs0, hfq0⟩ := h1 k s1 hs1
  exact ⟨s0, hs0, by rw [hfq0, hfq1]⟩

theorem Survives.of_sameShape {e e1 : ReplicaManager} (hsh : SameShape e e1) :
    Survives e e1 := by
  intro k s1 hs1
  have hk := hsh k
  rw [hs1] at hk
  cases hs0 : e.getSegment k with
  | none => rw [hs0] at hk; simp at hk
  | some s0 =>
    rw [hs0] at hk
    simp only [Option.map_some', Option.some.injEq, Prod.mk.injEq] at hk
    exact ⟨s0, rfl, hk.2.symm⟩

theorem Survives.of_destroy {e e1 : ReplicaManager} {h : Nat}
    (hstep : destroyAndFreeReplicatedSegment e h = some e1) : Survives e e1 := by
  unfold destroyAndFreeReplicatedSegment at hstep
  split at hstep
  · cases hstep
  · injection hstep with hstep
    subst hstep
    intro k s1 hs1
    unfold ReplicaManager.getSegment ReplicaManager.emit at hs1
    simp only [List.getElem?_set] at hs1
    by_cases hh : h = k
    · rw [if_pos hh] at hs1
      split at hs1 <;> simp at hs1
    · rw [if_neg hh] at hs1
      exact ⟨s1, hs1, rfl⟩

theorem Survives.of_performTask {c : Collaborators} {h : Nat} {net : Nat → RpcOutcome}
    {e e1 : ReplicaManager} (hstep : performTask c e h net = some e1) : Survives e e1 := by
  unfold performTask at hstep
  cases hs : e.getSegment h with
  | none => simp only [hs] at hstep; cases hstep
  | some s =>
    simp only [hs] at hstep
    split at hstep
    · cases hl : freeLoop c h net (List.range s.replicas.length) e with
      | none => simp only [hl] at hstep; cases hstep
      | some e2 =>
        simp only [hl] at hstep
        have h2 := Survives.of_sameShape (SameShape.of_freeLoop _ hl)
        split at hstep
        · exact h2.chain (Survives.of_destroy hstep)
        · injection hstep with hstep; subst hstep; exact h2
    · cases hl : writeLoop c h net (List.range s.replicas.length) e with
      | none => simp only [hl] at hstep; cases hstep
      | some e2 =>
        simp only [hl] at hstep
        have h2 := Survives.of_sameShape (SameShape.of_writeLoop _ hl)
        split at hstep
        · cases hstep
        · split at hstep
          · injection hstep with hstep; subst hstep; exact h2
          · cases hstep

theorem Survives.of_runTasks {c : Collaborators} {net : Nat → Nat → RpcOutcome}
    (l : List Nat) {e e1 : ReplicaManager} (hstep : runTasks c net l e = some e1) :
    Survives e e1 := by
  induction l generalizing e with
  | nil =>
    simp only [runTasks] at hstep
    injection hstep with hstep; subst hstep; exact Survives.unchanged _
  | cons i rest ih =>
    simp only [runTasks] at hstep
    cases hp : performTask c e i (net i) with
    | none => simp only [hp] at hstep; cases hstep
    | some e2 =>
      simp only [hp] at hstep
      exact (Survives.of_performTask hp).chain (ih hstep)

theorem Survives.of_proceed {c : Collaborators} {net : Nat → Nat → RpcOutcome}
    {e e1 : ReplicaManager} (hstep : proceed c e net = some e1) : Survives e e1 := by
  unfold proceed at hstep
  have := Survives.of_runTasks _ hstep
  intro k s1 hs1
  exact this k s1 hs1

/-- The loop `checkAgain` of `free()` returns only a state in which the segment exists
and has no write RPC outstanding; no segment was added meanwhile. -/
theorem freeWait_exit {c : Collaborators} {h : Nat} (nets : List (Nat → Nat → RpcOutcome))
    {e e1 : ReplicaManager} (hstep : freeWait c h nets e = some e1) :
    Survives e e1 ∧ ∃ s1, e1.getSegment h = some s1 ∧ s1.writeOutstanding = false := by
  induction nets generalizing e with
  | nil =>
    unfold freeWait at hstep
    cases hs : e.getSegment h with
    | none => simp only [hs] at hstep; cases hstep
    | some s =>
      simp only [hs] at hstep
      by_cases hw : s.writeOutstanding = true
      · rw [if_pos hw] at hstep; cases hstep
      · rw [if_neg hw] at hstep
        injection hstep with hstep; subst hstep
        exact ⟨Survives.unchanged _, s, hs, by simpa using hw⟩
  | cons net rest ih =>
    unfold freeWait at hstep
    cases hs : e.getSegment h with
    | none => simp only [hs] at hstep; cases hstep
    | some s =>
      simp only [hs] at hstep
      by_cases hw : s.writeOutstanding = true
      · rw [if_pos hw] at hstep
        cases hp : proceed c e net with
        | none => simp only [hp] at hstep; cases hstep
        | some e2 =>
          simp only [hp] at hstep
          obtain ⟨i1, i2⟩ := ih hstep
          exact ⟨(Survives.of_proceed hp).chain i1, i2⟩
      · rw [if_neg hw] at hstep
        injection hstep with hstep; subst hstep
        exact ⟨Survives.unchanged _, s, hs, by simpa using hw⟩

/-- C7. When `free()` returns, the segment has `freeQueued` set, is scheduled, and no
replica slot has a write RPC outstanding. When no write RPC is outstanding on entry,
`free()` sets `freeQueued`, schedules the segment and returns without calling
`proceed()`; while one is outstanding it calls `proceed()` and checks again. -/
theorem free_spec (c : Collaborators) (e e1 : ReplicaManager) (h : Nat)
    (nets : List (Nat → Nat → RpcOutcome)) (s : ReplicatedSegment)
    (hs : e.getSegment h = some s) (hstep : free c e h nets = some e1) :
    (∃ s1, e1.getSegment h = some s1 ∧ s1.freeQueued = true ∧ e1.isScheduled h = true ∧
      s1.writeOutstanding = false ∧ ∀ r, some r ∈ s1.replicas → r.writeRpc = none) ∧
    (s.writeOutstanding = false →
      e1 = (e.setSegment h { s with freeQueued := true }).schedule h) ∧
    (s.writeOutstanding = true → ∀ net rest, nets = net :: rest →
      free c e h nets =
        ((proceed c (e.setSegment h { s with freeQueued := true }) net).bind
          (freeWait c h rest)).map (fun e2 => e2.schedule h)) := by
  have hfree : free c e h nets =
      (freeWait c h nets (e.setSegment h { s with freeQueued := true })).map
        (fun e2 => e2.schedule h) := by
    unfold free
    rw [hs]
    simp only []
    cases freeWait c h nets (e.setSegment h { s with freeQueued := true }) <;> rfl
  have hs0 : (e.setSegment h { s with freeQueued := true }).getSegment h =
      some { s with freeQueued := true } := getSegment_setSegment_self hs _
  refine ⟨?_, ?_, ?_⟩
  · rw [hfree] at hstep
    cases hw : freeWait c h nets (e.setSegment h { s with freeQueued := true }) with
    | none => rw [hw] at hstep; cases hstep
    | some e2 =>
      rw [hw] at hstep
      simp only [Option.map_some', Option.some.injEq] at hstep
      subst hstep
      obtain ⟨hsurv, s1, hs1, hout⟩ := freeWait_exit nets hw
      obtain ⟨s0, hs0', hfq⟩ := hsurv h s1 hs1
      rw [hs0] at hs0'
      injection hs0' with hs0'
      subst hs0'
      refine ⟨s1, by simpa using hs1, hfq.symm, by simp, hout, ?_⟩
      intro r hmem
      unfold ReplicatedSegment.writeOutstanding at hout
      have := List.any_eq_false.mp hout (some r) hmem
      cases hwr : r.writeRpc with
      | none => rfl
      | some rpc => simp [hwr] at this
  · intro hout
    rw [hfree] at hstep
    have hw : freeWait c h nets (e.setSegment h { s with freeQueued := true }) =
        some (e.setSegment h { s with freeQueued := true }) := by
      have hout' : ({ s with freeQueued := true } : ReplicatedSegment).writeOutstanding
          = false := hout
      cases nets with
      | nil => unfold freeWait; rw [hs0]; simp only [hout']; rfl
      | cons net rest => unfold freeWait; rw [hs0]; simp only [hout']; rfl
    rw [hw] at hstep
    simp only [Option.map_some', Option.some.injEq] at hstep
    exact hstep.symm
  · intro hout net rest hn
    subst hn
    rw [hfree]
    have hout' : ({ s with freeQueued := true } : ReplicatedSegment).writeOutstanding
        = true := hout
    congr 1
    conv => lhs; unfold freeWait
    rw [hs0]
    simp only [hout', if_true]
    cases proceed c (e.setSegment h { s with freeQueued := true }) net <;> rfl

theorem free_spec_witness :
    (∃ s1, ((free demoCollaborators dataSent 0 [allSucceed]).getD
          ReplicaManager.empty).getSegment 0 = some s1 ∧
      s1.freeQueued = true ∧
      ((free demoCollaborators dataSent 0 [allSucceed]).getD
          ReplicaManager.empty).isScheduled 0 = true ∧
      s1.writeOutstanding = false ∧ ∀ r, some r ∈ s1.replicas → r.writeRpc = none) ∧
    (true = false →
      (free demoCollaborators dataSent 0 [allSucceed]).getD ReplicaManager.empty =
        (dataSent.setSegment 0
          { masterId := 1, segmentId := 10, openLen := 100, maxBytesPerWriteRpc := 256,
            queued := ⟨true, 300, false⟩, freeQueued := true, followingSegment := none,
            precedingSegmentCloseAcked := true,
            replicas :=
              [some { backupId := 10, client := 10, sent := ⟨true, 300, false⟩,
                      acked := ⟨true, 100, false⟩,
                      writeRpc := some ⟨100, 200, Flags.NONE⟩, freeRpc := none }] }).schedule 0) ∧
    (true = true → ∀ net rest, [allSucceed] = net :: rest →
      free demoCollaborators dataSent 0 [allSucceed] =
        ((proceed demoCollaborators (dataSent.setSegment 0
          { masterId := 1, segmentId := 10, openLen := 100, maxBytesPerWriteRpc := 256,
            queued := ⟨true, 300, false⟩, freeQueued := true, followingSegment := none,
            precedingSegmentCloseAcked := true,
            replicas :=
              [some { backupId := 10, client := 10, sent := ⟨true, 300, false⟩,
                      acked := ⟨true, 100, false⟩,
                      writeRpc := some ⟨100, 200, Flags.NONE⟩, freeRpc := none }] }) net).bind
          (freeWait demoCollaborators 0 rest)).map (fun e2 => e2.schedule 0)) :=
  free_spec demoCollaborators dataSent
    ((free demoCollaborators dataSent 0 [allSucceed]).getD ReplicaManager.empty) 0
    [allSucceed]
    { masterId := 1, segmentId := 10, openLen := 100, maxBytesPerWriteRpc := 256,
      queued := ⟨true, 300, false⟩, freeQueued := false, followingSegment := none,
      precedingSegmentCloseAcked := true,
      replicas :=
        [some { backupId := 10, client := 10, sent := ⟨true, 300, false⟩,
                acked := ⟨true, 100, false⟩,
                writeRpc := some ⟨100, 200, Flags.NONE⟩, freeRpc := none }] }
    (by decide) (by decide)


/-! ## The replicas of a segment are on different backups -/

theorem mem_presentIds {l : List (Option Replica)} {j : Nat} {r : Replica}
    (hj : l[j]? = some (some r)) : r.backupId ∈ presentIds l := by
  unfold presentIds
  rw [List.mem_filterMap]
  exact ⟨some r, List.getElem?_mem hj, rfl⟩

/-- Storing into slot `i` a replica on a backup that no present replica uses, or a
replica on the backup of the replica it replaces, or nothing, keeps the backups
distinct. -/
theorem DistinctBackups.set {l : List (Option Replica)} {i : Nat} {old new : Option Replica}
    (hd : DistinctBackups l) (hold : l[i]? = some old)
    (hnew : ∀ r1, new = some r1 →
      r1.backupId ∉ presentIds l ∨ ∃ r, old = some r ∧ r1.backupId = r.backupId) :
    DistinctBackups (l.set i new) := by
  have hlt : i < l.length := by
    by_contra hge
    rw [List.getElem?_eq_none (by omega)] at hold
    cases hold
  have hget : ∀ a, (l.set i new)[a]? = if i = a then some new else l[a]? := by
    intro a
    rw [List.getElem?_set]
    by_cases hia : i = a
    · subst hia; simp [hlt]
    · simp [hia]
  have hside : ∀ a r1 r2, a ≠ i → new = some r1 → l[a]? = some (some r2) →
      r1.backupId ≠ r2.backupId := by
    intro a r1 r2 hai hn ha
    rcases hnew r1 hn with hfresh | ⟨r, hr, hb⟩
    · intro heq
      exact hfresh (by rw [heq]; exact mem_presentIds ha)
    · rw [hb]
      subst hr
      exact hd i a r r2 (fun hx => hai hx.symm) hold ha
  intro a b r1 r2 hab ha hb
  rw [hget] at ha hb
  by_cases hia : i = a
  · rw [if_pos hia] at ha
    injection ha with ha
    have hib : ¬ i = b := fun hx => hab (by rw [← hia, hx])
    rw [if_neg hib] at hb
    exact hside b r1 r2 (fun hx => hib hx.symm) ha hb
  · rw [if_neg hia] at ha
    by_cases hib : i = b
    · rw [if_pos hib] at hb
      injection hb with hb
      exact fun heq => hside a r2 r1 (fun hx => hia hx.symm) hb ha heq.symm
    · rw [if_neg hib] at hb
      exact hd a b r1 r2 hab ha hb

theorem distinct_of_frame {e e1 : ReplicaManager} {h i : Nat} {s : ReplicatedSegment}
    {old new : Option Replica}
    (hall : ∀ k sk, e.getSegment k = some sk → DistinctBackups sk.replicas)
    (hs : e.getSegment h = some s) (hold : s.replicas[i]? = some old)
    (hnew : ∀ r1, new = some r1 →
      r1.backupId ∉ presentIds s.replicas ∨ ∃ r, old = some r ∧ r1.backupId = r.backupId)
    (hf : Frame h i new e e1) :
    ∀ k sk, e1.getSegment k = some sk → DistinctBackups sk.replicas := by
  intro k s1 hs1
  have hf' := hf k
  rw [hs1] at hf'
  cases hs0 : e.getSegment k with
  | none => rw [hs0] at hf'; simp at hf'
  | some s0 =>
    rw [hs0] at hf'
    simp only [Option.map_some', Option.some.injEq] at hf'
    have hrep := congrArg ReplicatedSegment.replicas hf'
    by_cases hh : k = h
    · subst hh
      rw [hs] at hs0
      injection hs0 with hs0
      subst hs0
      simp only [if_true, ReplicatedSegment.core] at hrep
      rw [hrep]
      exact (hall _ s hs).set hold hnew
    · simp only [hh, if_false, ReplicatedSegment.core] at hrep
      rw [hrep]
      exact hall k s0 hs0

theorem distinct_of_replicas_eq {e e1 : ReplicaManager}
    (hall : ∀ k sk, e.getSegment k = some sk → DistinctBackups sk.replicas)
    (heq : ∀ k s1, e1.getSegment k = some s1 →
      ∃ s0, e.getSegment k = some s0 ∧ s1.replicas = s0.replicas) :
    ∀ k sk, e1.getSegment k = some sk → DistinctBackups sk.replicas := by
  intro k s1 hs1
  obtain ⟨s0, hs0, hrep⟩ := heq k s1 hs1
  rw [hrep]
  exact hall k s0 hs0

theorem replicas_setSegment {e : ReplicaManager} {h : Nat} {s sn : ReplicatedSegment}
    (hs : e.getSegment h = some s) (k : Nat) (s1 : ReplicatedSegment)
    (hs1 : (e.setSegment h sn).getSegment k = some s1) (hrep : sn.replicas = s.replicas) :
    ∃ s0, e.getSegment k = some s0 ∧ s1.replicas = s0.replicas := by
  rw [getSegment_setSegment] at hs1
  by_cases hh : h = k
  · subst hh
    rw [if_pos rfl] at hs1
    split at hs1
    · injection hs1 with hs1
      subst hs1
      exact ⟨s, hs, hrep⟩
    · cases hs1
  · rw [if_neg hh] at hs1
    exact ⟨s1, hs1, rfl⟩

theorem distinct_step {c : Collaborators}
    (hsel : ∀ conflicts, c.selectPrimary conflicts ∉ conflicts ∧
      c.selectSecondary conflicts ∉ conflicts)
    {e e1 : ReplicaManager}
    (hall : ∀ k sk, e.getSegment k = some sk → DistinctBackups sk.replicas)
    (hstep : Step c e e1) :
    ∀ k sk, e1.getSegment k = some sk → DistinctBackups sk.replicas := by
  cases hstep with
  | construct masterId segmentId openLen numReplicas maxBytesPerWriteRpc hol =>
    intro k sk hsk
    simp only [construct, getSegment_schedule] at hsk
    unfold ReplicaManager.getSegment at hsk
    simp only at hsk
    by_cases hlt : k < e.segments.length
    · rw [List.getElem?_append_left hlt] at hsk
      exact hall k sk hsk
    · by_cases heq : k = e.segments.length
      · subst heq
        simp at hsk
        subst hsk
        intro i j r1 r2 _ hi _
        simp only at hi
        have := List.getElem?_mem hi
        rw [List.mem_replicate] at this
        cases this.2
      · rw [List.getElem?_eq_none (by simp; omega)] at hsk
        simp at hsk
  | write _ h offset ho hw =>
    unfold write at hw
    cases hs : e.getSegment h with
    | none => simp only [hs] at hw; cases hw
    | some s =>
      simp only [hs] at hw
      split at hw
      · cases hw
      · split at hw
        · cases hw
        · injection hw with hw
          subst hw
          refine distinct_of_replicas_eq hall ?_
          intro k s1 hs1
          rw [getSegment_schedule] at hs1
          exact replicas_setSegment hs k s1 hs1 rfl
  | close _ h f hc =>
    unfold close at hc
    cases hs : e.getSegment h with
    | none => simp only [hs] at hc; cases hc
    | some s =>
      simp only [hs] at hc
      split at hc
      · cases hc
      · have h1 : ∀ k s1, (e.setSegment h
            { s with queued := { s.queued with close := true },
                     followingSegment := f }).getSegment k = some s1 →
            ∃ s0, e.getSegment k = some s0 ∧ s1.replicas = s0.replicas :=
          fun k s1 hs1 => replicas_setSegment hs k s1 hs1 rfl
        cases f with
        | none =>
          simp only at hc
          injection hc with hc
          subst hc
          refine distinct_of_replicas_eq hall ?_
          intro k s1 hs1
          rw [getSegment_schedule] at hs1
          exact h1 k s1 hs1
        | some j =>
          simp only at hc
          split at hc
          · cases hc
          · rename_i fs hfs
            injection hc with hc
            subst hc
            refine distinct_of_replicas_eq (distinct_of_replicas_eq hall h1) ?_
            intro k s1 hs1
            rw [getSegment_schedule] at hs1
            exact replicas_setSegment hfs k s1 hs1 rfl
  | freeQueued h s hs =>
    exact distinct_of_replicas_eq hall (fun k s1 hs1 => replicas_setSegment hs k s1 hs1 rfl)
  | schedule h =>
    intro k sk hsk
    rw [getSegment_schedule] at hsk
    exact hall k sk hsk
  | dequeue keep => exact fun k sk hsk => hall k sk hsk
  | performWrite _ h i outcome hw =>
    cases hs : e.getSegment h with
    | none => unfold performWrite at hw; rw [hs] at hw; cases hw
    | some s =>
      obtain ⟨old, _, h0, _, _⟩ := performWrite_frame hs hw
      obtain ⟨new, hf, hcase⟩ := performWrite_slot_cases hs h0 hw
      refine distinct_of_frame hall hs h0 ?_ hf
      intro r1 hr1
      rcases hcase with hc | ⟨_, r2, hr2, _, hb⟩ | ⟨r, hr, hc⟩
      · exact Or.inr ⟨r1, by rw [← hc, hr1], rfl⟩
      · rw [hr1] at hr2
        injection hr2 with hr2
        subst hr2
        left
        rw [hb]
        by_cases hi0 : i = 0
        · rw [if_pos hi0]; exact (hsel _).1
        · rw [if_neg hi0]; exact (hsel _).2
      · rcases hc with hc | ⟨r2, hr2, hb, _⟩
        · rw [hr1] at hc; cases hc
        · rw [hr1] at hr2
          injection hr2 with hr2
          subst hr2
          exact Or.inr ⟨r, hr, hb⟩
  | performFree _ h i outcome s hs _ hw =>
    obtain ⟨old, _, h0, _, _⟩ := performFree_frame hs hw
    obtain ⟨new, hf, hcase⟩ := performFree_slot_cases hs h0 hw
    refine distinct_of_frame hall hs h0 ?_ hf
    intro r1 hr1
    rcases hcase with hc | ⟨r, hr, hc⟩
    · exact Or.inr ⟨r1, by rw [← hc, hr1], rfl⟩
    · rcases hc with hc | ⟨r2, hr2, hb⟩
      · rw [hr1] at hc; cases hc
      · rw [hr1] at hr2
        injection hr2 with hr2
        subst hr2
        exact Or.inr ⟨r, hr, hb⟩
  | destroy _ h hd =>
    unfold destroyAndFreeReplicatedSegment at hd
    split at hd
    · cases hd
    · injection hd with hd
      subst hd
      intro k sk hsk
      unfold ReplicaManager.getSegment ReplicaManager.emit at hsk
      simp only [List.getElem?_set] at hsk
      by_cases hh : h = k
      · rw [if_pos hh] at hsk
        split at hsk <;> simp at hsk
      · rw [if_neg hh] at hsk
        exact hall k sk hsk

theorem distinct_of_reachable {c : Collaborators}
    (hsel : ∀ conflicts, c.selectPrimary conflicts ∉ conflicts ∧
      c.selectSecondary conflicts ∉ conflicts)
    {e : ReplicaManager} (hr : Reachable c e) :
    ∀ k sk, e.getSegment k = some sk → DistinctBackups sk.replicas := by
  induction hr with
  | init =>
    intro k sk hsk
    simp [ReplicaManager.getSegment, ReplicaManager.empty] at hsk
  | step e0 e1 _ hstep ih => exact distinct_step hsel ih hstep

/-- C9. If the selector never returns one of the conflicts it is given, then in every
reachable state the replicas that exist in different slots of one segment are on
different backups. -/
theorem backups_distinct (c : Collaborators)
    (hsel : ∀ conflicts, c.selectPrimary conflicts ∉ conflicts ∧
      c.selectSecondary conflicts ∉ conflicts)
    (e : ReplicaManager) (hr : Reachable c e) (h : Nat) (s : ReplicatedSegment)
    (hs : e.getSegment h = some s) (i j : Nat) (r1 r2 : Replica) (hij : i ≠ j)
    (hi : s.replicas[i]? = some (some r1)) (hj : s.replicas[j]? = some (some r2)) :
    r1.backupId ≠ r2.backupId ∧ (presentIds s.replicas).Nodup := by
  have hall := distinct_of_reachable hsel hr
  refine ⟨hall h s hs i j r1 r2 hij hi hj, ?_⟩
  have hd := hall h s hs
  generalize s.replicas = l at hd
  clear hi hj hs
  induction l with
  | nil => simp [presentIds]
  | cons slot rest ih =>
    have hrest : DistinctBackups rest := by
      intro a b x y hab ha hb
      exact hd (a + 1) (b + 1) x y (by omega) (by simpa using ha) (by simpa using hb)
    cases slot with
    | none => simpa [presentIds] using ih hrest
    | some r =>
      have hp : presentIds (some r :: rest) = r.backupId :: presentIds rest := by
        simp [presentIds]
      rw [hp, List.nodup_cons]
      refine ⟨?_, ih hrest⟩
      intro hmem
      unfold presentIds at hmem
      rw [List.mem_filterMap] at hmem
      obtain ⟨slot, hslot, hmap⟩ := hmem
      cases slot with
      | none => cases hmap
      | some r' =>
        simp only [Option.map_some', Option.some.injEq] at hmap
        obtain ⟨b, hb⟩ := List.mem_iff_getElem?.mp hslot
        exact hd 0 (b + 1) r r' (by omega) (by simp) (by simpa using hb) hmap.symm

theorem sum_not_mem (conflicts : List Nat) : conflicts.sum + 1 ∉ conflicts := by
  have hle : ∀ l : List Nat, ∀ x ∈ l, x ≤ l.sum := by
    intro l
    induction l with
    | nil => intro x hx; cases hx
    | cons a rest ih =>
      intro x hx
      rcases List.mem_cons.mp hx with heq | hmem
      · subst heq; simp
      · have := ih x hmem
        simp only [List.sum_cons]
        omega
  intro hmem
  have := hle conflicts _ hmem
  omega

theorem backups_distinct_witness :
    (1 : Nat) ≠ 2 ∧
    (presentIds
      [some ⟨1, 1, ⟨true, 100, false⟩, ⟨false, 0, false⟩,
         some ⟨0, 100, Flags.OPENPRIMARY⟩, none⟩,
       some ⟨2, 2, ⟨true, 100, false⟩, ⟨false, 0, false⟩,
         some ⟨0, 100, Flags.OPEN⟩, none⟩]).Nodup :=
  backups_distinct freshCollaborators (fun conflicts => ⟨sum_not_mem _, sum_not_mem _⟩)
    ((proceed freshCollaborators (construct ReplicaManager.empty 1 10 100 2 256).1
      allSucceed).getD ReplicaManager.empty)
    (Reachable.of_getD (fun e1 h1 =>
      (Reachable.of_construct Reachable.init 1 10 100 2 256 (by decide)).proceed h1))
    0
    { masterId := 1, segmentId := 10, openLen := 100, maxBytesPerWriteRpc := 256,
      queued := ⟨true, 100, false⟩, freeQueued := false, followingSegment := none,
      precedingSegmentCloseAcked := true,
      replicas :=
        [some ⟨1, 1, ⟨true, 100, false⟩, ⟨false, 0, false⟩,
           some ⟨0, 100, Flags.OPENPRIMARY⟩, none⟩,
         some ⟨2, 2, ⟨true, 100, false⟩, ⟨false, 0, false⟩,
           some ⟨0, 100, Flags.OPEN⟩, none⟩] }
    (by decide) 0 1
    ⟨1, 1, ⟨true, 100, false⟩, ⟨false, 0, false⟩, some ⟨0, 100, Flags.OPENPRIMARY⟩, none⟩
    ⟨2, 2, ⟨true, 100, false⟩, ⟨false, 0, false⟩, some ⟨0, 100, Flags.OPEN⟩, none⟩
    (by decide) (by decide) (by decide)


/-! ## The guard on closing writes -/

/-- The data-write branch when the RPC to send carries `CLOSE` and the following
segment has no acknowledged opening: the segment is scheduled and nothing else. -/
theorem issueWrite_blocked {e : ReplicaManager} {h i f : Nat} {s fs : ReplicatedSegment}
    {r : Replica} (hlt : r.sent.lt s.queued = true) (hfree : r.freeRpc = none)
    (hcl : r.sent.close = false) (hp : s.precedingSegmentCloseAcked = true)
    (hfl : (nextWriteRpc s r).flags = Flags.CLOSE) (hfol : s.followingSegment = some f)
    (hfs : e.getSegment f = some fs) (hop : fs.getAcked.opened = false) :
    issueWrite e h i s r = some (e.schedule h) := by
  unfold issueWrite
  rw [if_pos hlt]
  simp only [hfree, hcl, hp, Option.isSome_none, Bool.false_eq_true, if_false]
  rw [if_pos hfl]
  simp only [hfol, hfs, hop]
  rfl

theorem close_guard_core {c : Collaborators} {e : ReplicaManager} {h i f : Nat}
    {outcome : RpcOutcome} {s fs : ReplicatedSegment} {old : Option Replica}
    (hs : e.getSegment h = some s) (hi : s.replicas[i]? = some old)
    (hfol : s.followingSegment = some f) (hfs : e.getSegment f = some fs)
    {e1 : ReplicaManager} {evs : List Event}
    (hstep : performWrite c e h i outcome = some e1) (htr : e1.trace = e.trace ++ evs)
    {k j : Nat} {b : ServerId} {rpc : WriteRpc} (hmem : Event.writeRpc k j b rpc ∈ evs)
    (hflag : rpc.flags = Flags.CLOSE) : fs.getAcked.opened = true := by
  rcases performWrite_trace_cases hs hi hstep with ht | ⟨_, b0, fl, hfl, ht⟩ |
    ⟨r, _, _, _, hiss, he, ht⟩
  · rw [ht] at htr
    have : evs = [] := by simpa using htr.symm
    rw [this] at hmem
    cases hmem
  · rw [ht] at htr
    have hev := List.append_cancel_left htr
    rw [← hev] at hmem
    by_cases h0 : i = 0
    · simp only [h0, if_true, List.mem_cons, List.mem_singleton, Event.writeRpc.injEq,
        List.not_mem_nil, or_false] at hmem
      rcases hmem with hm | hm
      · cases hm
      · rw [hm.2.2.2] at hflag
        rcases hfl with hfl | hfl <;> rw [hfl] at hflag <;> cases hflag
    · simp only [h0, if_false, List.mem_cons, List.mem_singleton, Event.writeRpc.injEq,
        List.not_mem_nil, or_false] at hmem
      rcases hmem with hm | hm
      · cases hm
      · rw [hm.2.2.2] at hflag
        rcases hfl with hfl | hfl <;> rw [hfl] at hflag <;> cases hflag
  · rw [ht] at htr
    have hev := List.append_cancel_left htr
    rw [← hev] at hmem
    simp only [List.mem_singleton, Event.writeRpc.injEq] at hmem
    rw [hmem.2.2.2] at hflag
    obtain ⟨hlt, hfree, hcl, hcase⟩ := issueWrite_cases hiss
    cases hop : fs.getAcked.opened with
    | true => rfl
    | false =>
      exfalso
      have hp : s.precedingSegmentCloseAcked = true := by
        rcases hcase with hc | ⟨hp, _⟩
        · rw [hc] at ht
          simp at ht
        · exact hp
      have hb := issueWrite_blocked (e := e) (h := h) (i := i) hlt hfree hcl hp hflag hfol hfs hop
      rw [hiss] at hb
      injection hb with hb
      rw [hb] at ht
      simp at ht

/-- C3, as stated, fails: in the state of `closedPair` the segment `s1` is closed with
`s2` bound as following segment, no replica of `s2` exists (`getAcked().open` is
false), and 900 bytes of `s1` are still to be sent. `performWrite` sends the fragment
`NONE(100, 256)` and advances `sent` from 100 to 356 bytes. -/
theorem close_guard_counterexample :
    closedPair.map
      (fun e => ((e.getSegment 0).map (fun s => s.followingSegment),
        (e.getSegment 1).map (fun s => s.getAcked.opened),
        (e.slotAt 0 0).map (fun slot => slot.map (fun r => r.sent)))) =
      some (some (some 1), some false, some (some ⟨true, 100, false⟩)) ∧
    (closedPair.bind
        (fun e => performWrite demoCollaborators e 0 0 RpcOutcome.notReady)).map
      (fun e1 => ((e1.slotAt 0 0).map (fun slot => slot.map (fun r => r.sent)),
        e1.trace.getLast?)) =
      some (some (some ⟨true, 356, false⟩),
        some (Event.writeRpc 0 0 10 ⟨100, 256, Flags.NONE⟩)) := by
  decide

/-- C3, amended. For a segment whose `followingSegment` is bound to a segment that
exists: a call of `performWrite` that issues a write RPC carrying `CLOSE` finds
`followingSegment->getAcked().open` true; so when it is false no `CLOSE` RPC is issued.
And in a reachable state, when it is false and the RPC that the call would construct
carries `CLOSE` (the replica exists, is not synced, has no write RPC outstanding, the
segment is not being freed and `precedingSegmentCloseAcked` holds), `performWrite`
returns the state with the segment scheduled: the replica, its `sent` included, and
the trace are unchanged. -/
theorem close_guard (c : Collaborators) (e : ReplicaManager) (h i f : Nat)
    (outcome : RpcOutcome) (s fs : ReplicatedSegment) (old : Option Replica)
    (hr : Reachable c e) (hs : e.getSegment h = some s) (hi : s.replicas[i]? = some old)
    (hfol : s.followingSegment = some f) (hfs : e.getSegment f = some fs) :
    (∀ e1 evs, performWrite c e h i outcome = some e1 → e1.trace = e.trace ++ evs →
      ∀ k j b rpc, Event.writeRpc k j b rpc ∈ evs → rpc.flags = Flags.CLOSE →
        fs.getAcked.opened = true) ∧
    (fs.getAcked.opened = false →
      ∀ e1 evs, performWrite c e h i outcome = some e1 → e1.trace = e.trace ++ evs →
      ∀ k j b rpc, Event.writeRpc k j b rpc ∈ evs → rpc.flags ≠ Flags.CLOSE) ∧
    (fs.getAcked.opened = false → ∀ r, old = some r → r.writeRpc = none →
      r.acked ≠ s.queued → s.freeQueued = false → s.precedingSegmentCloseAcked = true →
      (nextWriteRpc s r).flags = Flags.CLOSE →
      performWrite c e h i outcome = some (e.schedule h) ∧
      (e.schedule h).slotAt h i = some (some r) ∧
      (e.schedule h).trace = e.trace ∧ (e.schedule h).segments = e.segments) := by
  refine ⟨?_, ?_, ?_⟩
  · intro e1 evs hstep htr k j b rpc hmem hflag
    exact close_guard_core hs hi hfol hfs hstep htr hmem hflag
  · intro hop e1 evs hstep htr k j b rpc hmem hflag
    have := close_guard_core hs hi hfol hfs hstep htr hmem hflag
    rw [hop] at this
    cases this
  · intro hop r hold hw hne hfq hp hfl
    subst hold
    obtain ⟨_, f2, _, f4⟩ := idle_replica_facts hr hs hi hw
    obtain ⟨hlt, hcl⟩ := f2 hne
    refine ⟨?_, ?_, by simp, by simp⟩
    · unfold performWrite
      rw [hs]
      simp only [hi]
      rw [if_neg hne, hw]
      exact issueWrite_blocked hlt (f4 hfq) hcl hp hfl hfol hfs hop
    · rw [slotAt_schedule, slotAt_of_getSegment hs]
      exact hi

theorem reachable_closeBlocked (e : ReplicaManager) (he : closeBlocked = some e) :
    Reachable demoCollaborators e := by
  unfold closeBlocked at he
  refine Reachable.of_bind ?_ ?_ he
  · intro e1 h1
    exact Reachable.proceedTimes 2
      (Reachable.of_construct Reachable.init 1 1 100 1 256 (by decide)) h1
  · intro e1 e2 hr1 h2
    exact (Reachable.of_construct hr1 1 2 100 1 256 (by decide)).of_close h2

theorem close_guard_witness :
    performWrite demoCollaborators (closeBlocked.getD ReplicaManager.empty) 0 0
        RpcOutcome.notReady =
      some ((closeBlocked.getD ReplicaManager.empty).schedule 0) ∧
    ((closeBlocked.getD ReplicaManager.empty).schedule 0).slotAt 0 0 =
      some (some ⟨10, 10, ⟨true, 100, false⟩, ⟨true, 100, false⟩, none, none⟩) ∧
    ((closeBlocked.getD ReplicaManager.empty).schedule 0).trace =
      (closeBlocked.getD ReplicaManager.empty).trace ∧
    ((closeBlocked.getD ReplicaManager.empty).schedule 0).segments =
      (closeBlocked.getD ReplicaManager.empty).segments :=
  (close_guard demoCollaborators (closeBlocked.getD ReplicaManager.empty) 0 0 1
    RpcOutcome.notReady
    { masterId := 1, segmentId := 1, openLen := 100, maxBytesPerWriteRpc := 256,
      queued := ⟨true, 100, true⟩, freeQueued := false, followingSegment := some 1,
      precedingSegmentCloseAcked := true,
      replicas := [some ⟨10, 10, ⟨true, 100, false⟩, ⟨true, 100, false⟩, none, none⟩] }
    { masterId := 1, segmentId := 2, openLen := 100, maxBytesPerWriteRpc := 256,
      queued := ⟨true, 100, false⟩, freeQueued := false, followingSegment := none,
      precedingSegmentCloseAcked := false, replicas := [none] }
    (some ⟨10, 10, ⟨true, 100, false⟩, ⟨true, 100, false⟩, none, none⟩)
    (Reachable.of_getD reachable_closeBlocked) (by decide) (by decide) rfl
    (by decide)).2.2 (by decide)
    ⟨10, 10, ⟨true, 100, false⟩, ⟨true, 100, false⟩, none, none⟩ rfl rfl (by decide) rfl rfl
    (by decide)


/-! ## The table of segments never shrinks -/

@[simp] theorem length_setSegment (e : ReplicaManager) (h : Nat) (s : ReplicatedSegment) :
    (e.setSegment h s).segments.length = e.segments.length := by
  simp [ReplicaManager.setSegment]

@[simp] theorem length_setReplica (e : ReplicaManager) (h i : Nat) (slot : Option Replica) :
    (e.setReplica h i slot).segments.length = e.segments.length := by
  unfold ReplicaManager.setReplica
  cases e.getSegment h <;> simp

theorem frame_exists {e e1 : ReplicaManager} {h i : Nat} {new : Option Replica}
    (hf : Frame h i new e e1) {k : Nat} {s1 : ReplicatedSegment}
    (hs1 : e1.getSegment k = some s1) : ∃ s, e.getSegment k = some s :=
  exists_of_map_eq ((SameShape.of_frame hf) k).symm hs1

end RAMCloud
